import Mathlib

/-!
# Stage 2 of the JSON parser: the structural stream and its tape visitor

A shallow embedding of `src/generic/stage2/structural_stream.h` (the goto state
machine `structural_stream::parse` together with the depth bookkeeping of
`structural_stream`) and of `src/generic/stage2/structural_parser_stream.h` (the
visitor `structural_parser_stream` that writes the tape and the string buffer).

Conventions of the embedding.

* Memory (input buffer, structural index, tape, string buffer, scope records,
  `is_array`) is a total function from offsets to values; a pointer is the offset
  it points at. Machine integers are naturals, reduced modulo `2^32` or `2^64`
  where the source computes in `uint32_t` / `uint64_t`.
* `structural_stream` and `structural_parser_stream` both hold a reference to the
  same `dom_parser_implementation`; the embedding keeps the parser and the locals of
  both objects in one record, `stage2_state`.
* The leaf utilities that the two files call but do not define (string unescape,
  number parsing, atom validation, `malloc`) are fields of `leaf_utilities`.
* The labels of `parse` are the constructors of `label`; `step` executes the code
  from one label up to the next `goto` or `return`.
* In `parse` the name `parser` denotes the `structural_stream` object (declared there
  as `stream`), whose member `parser` is the `dom_parser_implementation`. The
  `tape_writer` member of `structural_stream` is never written through and is left
  out; all tape writes go through the visitor.
-/

namespace simdjson

/-- Error codes returned by stage 2 (`simdjson/error.h`; `SUCCESS` is the only code
that converts to `false`). -/
inductive error_code
  | SUCCESS
  | EMPTY
  | TAPE_ERROR
  | DEPTH_ERROR
  | STRING_ERROR
  | NUMBER_ERROR
  | T_ATOM_ERROR
  | F_ATOM_ERROR
  | N_ATOM_ERROR
  | MEMALLOC_ERROR
  deriving DecidableEq

/-- Modelled from the spec: the tag set of the tape (`internal::tape_type`, declared
outside the files at hand). -/
inductive tape_type
  | ROOT
  | START_OBJECT
  | END_OBJECT
  | START_ARRAY
  | END_ARRAY
  | STRING
  | INT64
  | UINT64
  | DOUBLE
  | TRUE_VALUE
  | FALSE_VALUE
  | NULL_VALUE
  deriving DecidableEq

/-- Modelled from the spec: the 8-bit value of a tag. The spec fixes only that a tag
is eight bits wide; the values used here are the character mnemonics of the tape
format (`r`, `{`, `}`, `[`, `]`, `"`, `l`, `u`, `d`, `t`, `f`, `n`). -/
def tape_type.code : tape_type → Nat
  | .ROOT => 114
  | .START_OBJECT => 123
  | .END_OBJECT => 125
  | .START_ARRAY => 91
  | .END_ARRAY => 93
  | .STRING => 34
  | .INT64 => 108
  | .UINT64 => 117
  | .DOUBLE => 100
  | .TRUE_VALUE => 116
  | .FALSE_VALUE => 102
  | .NULL_VALUE => 110

/-- Modelled from the spec: the bit-exact tape word
`(payload & 0x00FFFFFFFFFFFFFF) | (u64(tag) << 56)` of `tape_writer`. -/
def tape_word (payload : Nat) (tag : tape_type) : Nat :=
  (payload &&& 0x00FFFFFFFFFFFFFF) ||| (tag.code <<< 56)

/-- Tag byte of a tape word: bits 56..63. -/
def word_tag (w : Nat) : Nat := w >>> 56

/-- Payload of a tape word: bits 0..55. -/
def word_payload (w : Nat) : Nat := w &&& 0x00FFFFFFFFFFFFFF

/-- Write one cell of a memory. -/
def store {α : Type} (m : Nat → α) (i : Nat) (v : α) : Nat → α :=
  fun j => if j = i then v else m j

/-- Write a run of bytes into a byte memory, starting at offset `i`. -/
def store_bytes (m : Nat → Nat) (i : Nat) (bs : List Nat) : Nat → Nat :=
  fun j => if i ≤ j ∧ j < i + bs.length then bs.getD (j - i) 0 % 256 else m j

/-- One record of `parser.containing_scope`: `{ tape_index: u32, count: u32 }`. -/
structure scope_descriptor where
  tape_index : Nat
  count : Nat

/-- The fields of `dom_parser_implementation` (and of the document it points at)
that stage 2 reads or writes. `tape` and `string_buf` are `parser.doc->tape` and
`parser.doc->string_buf`. -/
structure dom_parser_implementation where
  buf : Nat → Nat
  len : Nat
  structural_indexes : Nat → Nat
  n_structural_indexes : Nat
  next_structural_index : Nat
  max_depth : Nat
  is_array : Nat → Bool
  containing_scope : Nat → scope_descriptor
  tape : Nat → Nat
  string_buf : Nat → Nat

/-- The parser together with the locals of the `structural_stream` object
(`current_structural`, `depth`) and of the `structural_parser_stream` visitor
(`next_tape_loc`, the cursor of its `tape_writer`, and `current_string_buf_loc`),
both as offsets from the start of their arrays. `uninit_reads` counts how often the
uninitialised local of `main_array_switch` has been read. -/
structure stage2_state where
  parser : dom_parser_implementation
  current_structural : Nat
  depth : Nat
  next_tape_loc : Nat
  current_string_buf_loc : Nat
  uninit_reads : Nat

/-- Kind of number that the number parser emits. -/
inductive number_kind
  | int64
  | uint64
  | double
  deriving DecidableEq

/-- Tape tag of a number kind. -/
def number_kind.tag : number_kind → tape_type
  | .int64 => .INT64
  | .uint64 => .UINT64
  | .double => .DOUBLE

/-- The leaf utilities called by the visitor but defined outside the files at hand,
taken as parameters. Each receives the memory it reads and the offset of `src`.

* `parse_string buf src` is `stringparsing::parse_string(src, dst)`: `none` for a
  null result, `some out` when it wrote the bytes `out` at `dst` and returned
  `dst + out.length`.
* `parse_number buf src` is `numberparsing::parse_number(src, tape)`: `none` for
  `false`, `some (k, v)` when it appended a tag word of kind `k` and the raw word `v`.
* `is_valid_*_atom buf src` and `is_valid_*_atom_len buf src remaining_len` are the
  two overloads of the `atomparsing` validators.
* `malloc_succeeds n` tells whether `malloc(n)` returns a non-null pointer.
* `padding` is `SIMDJSON_PADDING`.
* `uninit_value k` is the offset held by the uninitialised pointer `value` of
  `main_array_switch` at its `k`-th read. -/
structure leaf_utilities where
  parse_string : (Nat → Nat) → Nat → Option (List Nat)
  parse_number : (Nat → Nat) → Nat → Option (number_kind × Nat)
  is_valid_true_atom : (Nat → Nat) → Nat → Bool
  is_valid_true_atom_len : (Nat → Nat) → Nat → Nat → Bool
  is_valid_false_atom : (Nat → Nat) → Nat → Bool
  is_valid_false_atom_len : (Nat → Nat) → Nat → Nat → Bool
  is_valid_null_atom : (Nat → Nat) → Nat → Bool
  is_valid_null_atom_len : (Nat → Nat) → Nat → Nat → Bool
  malloc_succeeds : Nat → Bool
  padding : Nat
  uninit_value : Nat → Nat

/-! ## The tape writer -/

namespace tape_writer

/-- Modelled from the spec: `append(payload_56, tag)` writes one tagged word at the
cursor and advances the cursor. -/
def append (s : stage2_state) (payload : Nat) (tag : tape_type) : stage2_state :=
  { s with
    parser := { s.parser with tape := store s.parser.tape s.next_tape_loc (tape_word payload tag) }
    next_tape_loc := s.next_tape_loc + 1 }

/-- Modelled from the spec: the second word of a number, one raw 64-bit word. -/
def append_raw (s : stage2_state) (value : Nat) : stage2_state :=
  { s with
    parser := { s.parser with tape := store s.parser.tape s.next_tape_loc (value % 2 ^ 64) }
    next_tape_loc := s.next_tape_loc + 1 }

/-- Modelled from the spec: `skip()` advances the cursor by one word without
writing. -/
def skip (s : stage2_state) : stage2_state :=
  { s with next_tape_loc := s.next_tape_loc + 1 }

/-- Modelled from the spec: `write(word_ref, payload_56, tag)` overwrites the word at
`word_ref` in place. -/
def write (s : stage2_state) (word_ref : Nat) (payload : Nat) (tag : tape_type) : stage2_state :=
  { s with parser := { s.parser with tape := store s.parser.tape word_ref (tape_word payload tag) } }

end tape_writer

/-! ## The visitor: `structural_parser_stream` -/

namespace structural_parser_stream

/-- The constructor: the tape cursor and the string-buffer cursor start at the
beginning of the document's tape and string buffer. -/
def init (s : stage2_state) : stage2_state :=
  { s with next_tape_loc := 0, current_string_buf_loc := 0 }

/-- Tape index of the cursor, `uint32_t(tape.next_tape_loc - parser.doc->tape.get())`. -/
def next_tape_index (s : stage2_state) : Nat := s.next_tape_loc % 2 ^ 32

/-- Record the scope at `depth` and reserve its header word. -/
def start_scope (s : stage2_state) (depth : Nat) : error_code × stage2_state :=
  let s1 : stage2_state :=
    { s with parser := { s.parser with
        containing_scope := store s.parser.containing_scope depth ⟨next_tape_index s, 0⟩ } }
  (.SUCCESS, tape_writer.skip s1)

/-- Visitor `start_document`: the scope at depth 0. -/
def start_document (s : stage2_state) : error_code × stage2_state := start_scope s 0

/-- Visitor `start_object`. -/
def start_object (s : stage2_state) (depth : Nat) : error_code × stage2_state := start_scope s depth

/-- Visitor `start_array`. -/
def start_array (s : stage2_state) (depth : Nat) : error_code × stage2_state := start_scope s depth

/-- Append the end word, then write the header of the scope at `depth`. -/
def end_scope (s : stage2_state) (depth : Nat) (start fin : tape_type) : error_code × stage2_state :=
  let s1 := tape_writer.append s (s.parser.containing_scope depth).tape_index fin
  let start_tape_index := (s1.parser.containing_scope depth).tape_index
  let count := (s1.parser.containing_scope depth).count
  let cntsat := if count > 0xFFFFFF then 0xFFFFFF else count
  (.SUCCESS, tape_writer.write s1 start_tape_index (next_tape_index s1 ||| (cntsat <<< 32)) start)

/-- Visitor `end_object`. -/
def end_object (s : stage2_state) (depth : Nat) : error_code × stage2_state :=
  end_scope s depth .START_OBJECT .END_OBJECT

/-- Visitor `end_array`. -/
def end_array (s : stage2_state) (depth : Nat) : error_code × stage2_state :=
  end_scope s depth .START_ARRAY .END_ARRAY

/-- Visitor `end_document`. -/
def end_document (s : stage2_state) : error_code × stage2_state :=
  end_scope s 0 .ROOT .ROOT

/-- The body `parser.containing_scope[depth - 1].count++` of `increment_count`, in
`uint32_t` arithmetic. The visitor has no `depth` member of its own; the depth is
passed in. -/
def increment_count (s : stage2_state) (depth : Nat) : stage2_state :=
  let d := if depth = 0 then 2 ^ 32 - 1 else depth - 1
  let r := s.parser.containing_scope d
  { s with parser := { s.parser with
      containing_scope := store s.parser.containing_scope d ⟨r.tape_index, (r.count + 1) % 2 ^ 32⟩ } }

/-- Append the STRING word and return the destination of the unescaped bytes. -/
def on_start_string (s : stage2_state) : Nat × stage2_state :=
  (s.current_string_buf_loc + 4, tape_writer.append s s.current_string_buf_loc .STRING)

/-- Write the 32-bit length in front of the string, terminate it, move the cursor. -/
def on_end_string (s : stage2_state) (dst : Nat) : stage2_state :=
  let str_length := (dst - (s.current_string_buf_loc + 4)) % 2 ^ 32
  let b1 := store_bytes s.parser.string_buf s.current_string_buf_loc
    [str_length % 256, (str_length >>> 8) % 256, (str_length >>> 16) % 256, (str_length >>> 24) % 256]
  let b2 := store b1 dst 0
  { s with parser := { s.parser with string_buf := b2 }, current_string_buf_loc := dst + 1 }

/-- Visitor `parse_string`. Both exits of the source return `STRING_ERROR`. -/
def parse_string (u : leaf_utilities) (s : stage2_state) (src : Nat) : error_code × stage2_state :=
  let (dst, s1) := on_start_string s
  match u.parse_string s.parser.buf src with
  | none => (.STRING_ERROR, s1)
  | some out =>
    let s2 : stage2_state :=
      { s1 with parser := { s1.parser with string_buf := store_bytes s1.parser.string_buf dst out } }
    (.STRING_ERROR, on_end_string s2 (dst + out.length))

/-- Visitor `key`. -/
def key (u : leaf_utilities) (s : stage2_state) (src : Nat) : error_code × stage2_state :=
  parse_string u s src

/-- Visitor `string`; the `remaining_len` argument of the source is unused. -/
def string (u : leaf_utilities) (s : stage2_state) (src : Nat) : error_code × stage2_state :=
  parse_string u s src

/-- The one-argument `number`, reading the number from the memory `mem` at `src`. -/
def number_in (u : leaf_utilities) (s : stage2_state) (mem : Nat → Nat) (src : Nat) :
    error_code × stage2_state :=
  match u.parse_number mem src with
  | none => (.NUMBER_ERROR, s)
  | some (k, v) => (.SUCCESS, tape_writer.append_raw (tape_writer.append s 0 k.tag) v)

/-- Visitor `number(src)`. -/
def number (u : leaf_utilities) (s : stage2_state) (src : Nat) : error_code × stage2_state :=
  number_in u s s.parser.buf src

/-- Visitor `number(src, remaining_len)`: parse a copy of the tail, padded with spaces. -/
def number_len (u : leaf_utilities) (s : stage2_state) (src remaining_len : Nat) :
    error_code × stage2_state :=
  if u.malloc_succeeds (remaining_len + u.padding) then
    let copy : Nat → Nat := fun i =>
      if i < remaining_len then s.parser.buf (src + i)
      else if i < remaining_len + u.padding then 32 else 0
    number_in u s copy 0
  else (.MEMALLOC_ERROR, s)

/-- Visitor `true_atom(src)`. -/
def true_atom (u : leaf_utilities) (s : stage2_state) (src : Nat) : error_code × stage2_state :=
  if u.is_valid_true_atom s.parser.buf src then (.SUCCESS, tape_writer.append s 0 .TRUE_VALUE)
  else (.T_ATOM_ERROR, s)

/-- Visitor `true_atom(src, remaining_len)`. -/
def true_atom_len (u : leaf_utilities) (s : stage2_state) (src remaining_len : Nat) :
    error_code × stage2_state :=
  if u.is_valid_true_atom_len s.parser.buf src remaining_len then
    (.SUCCESS, tape_writer.append s 0 .TRUE_VALUE)
  else (.T_ATOM_ERROR, s)

/-- Visitor `false_atom(src)`. -/
def false_atom (u : leaf_utilities) (s : stage2_state) (src : Nat) : error_code × stage2_state :=
  if u.is_valid_false_atom s.parser.buf src then (.SUCCESS, tape_writer.append s 0 .FALSE_VALUE)
  else (.F_ATOM_ERROR, s)

/-- Visitor `false_atom(src, remaining_len)`. -/
def false_atom_len (u : leaf_utilities) (s : stage2_state) (src remaining_len : Nat) :
    error_code × stage2_state :=
  if u.is_valid_false_atom_len s.parser.buf src remaining_len then
    (.SUCCESS, tape_writer.append s 0 .FALSE_VALUE)
  else (.F_ATOM_ERROR, s)

/-- Modelled from the spec: `null_atom(src)`, which `parse` calls and the visitor
does not define; it verifies the literal and emits a zero-payload NULL_VALUE word,
failing with `N_ATOM_ERROR` otherwise. -/
def null_atom (u : leaf_utilities) (s : stage2_state) (src : Nat) : error_code × stage2_state :=
  if u.is_valid_null_atom s.parser.buf src then (.SUCCESS, tape_writer.append s 0 .NULL_VALUE)
  else (.N_ATOM_ERROR, s)

/-- Modelled from the spec: `null_atom(src, remaining_len)`, the root-scalar overload
of `null_atom`, likewise absent from the visitor. -/
def null_atom_len (u : leaf_utilities) (s : stage2_state) (src remaining_len : Nat) :
    error_code × stage2_state :=
  if u.is_valid_null_atom_len s.parser.buf src remaining_len then
    (.SUCCESS, tape_writer.append s 0 .NULL_VALUE)
  else (.N_ATOM_ERROR, s)

end structural_parser_stream

/-! ## The structural iterator -/

namespace structural_iterator

/-- Modelled from the spec: `structural_iterator::current()`, the buffer position of
the current structural (the base class `structural_iterator` is declared outside the
files at hand). -/
def current (s : stage2_state) : Nat := s.parser.structural_indexes s.current_structural

/-- Modelled from the spec: `current_char()`, the input byte at the current
structural offset. -/
def current_char (s : stage2_state) : Nat := s.parser.buf (current s)

/-- Modelled from the spec: `peek_char(n)`, the input byte at the n-th following
structural offset, without advancing. -/
def peek_char (s : stage2_state) (n : Nat) : Nat :=
  s.parser.buf (s.parser.structural_indexes (s.current_structural + n))

/-- Modelled from the spec: `peek_next_char()`, the peek at the next structural. -/
def peek_next_char (s : stage2_state) : Nat := peek_char s 1

/-- Modelled from the spec: `advance()` returns (a pointer to) the current byte and
advances the cursor by one. -/
def advance (s : stage2_state) : Nat × stage2_state :=
  (current s, { s with current_structural := s.current_structural + 1 })

/-- Modelled from the spec: `advance_char()` advances, then returns the new current
byte. -/
def advance_char (s : stage2_state) : Nat × stage2_state :=
  let s1 : stage2_state := { s with current_structural := s.current_structural + 1 }
  (current_char s1, s1)

/-- Modelled from the spec: `at_end(n)` is true when the cursor has reached position
`n` in the index. -/
def at_end (s : stage2_state) (n : Nat) : Bool := decide (s.current_structural = n)

/-- Modelled from the spec: `remaining_len()`, the bytes between the current offset
and the end of the input. -/
def remaining_len (s : stage2_state) : Nat := s.parser.len - current s

end structural_iterator

/-! ## The stream: depth bookkeeping of `structural_stream` -/

namespace structural_stream

open structural_iterator

/-- Stream `start_scope`: remember the kind of the parent, go one level down, and
fail when the new depth reaches `max_depth`. -/
def start_scope (s : stage2_state) (parent_is_array : Bool) : error_code × stage2_state :=
  let s1 : stage2_state :=
    { s with parser := { s.parser with is_array := store s.parser.is_array s.depth parent_is_array } }
  let s2 : stage2_state := { s1 with depth := (s1.depth + 1) % 2 ^ 32 }
  (if s2.depth ≥ s2.parser.max_depth then .DEPTH_ERROR else .SUCCESS, s2)

/-- Stream `start_document`. -/
def start_document (s : stage2_state) : error_code × stage2_state := start_scope s false

/-- Stream `start_object`. -/
def start_object (s : stage2_state) (parent_is_array : Bool) : error_code × stage2_state :=
  start_scope s parent_is_array

/-- Stream `start_array`. -/
def start_array (s : stage2_state) (parent_is_array : Bool) : error_code × stage2_state :=
  start_scope s parent_is_array

/-- Stream `end_scope`: `depth--` on a `uint32_t`, where 0 wraps to `2^32 - 1`. -/
def end_scope (s : stage2_state) : stage2_state :=
  { s with depth := if s.depth = 0 then 2 ^ 32 - 1 else s.depth - 1 }

/-- Stream `end_document`. -/
def end_document (s : stage2_state) : stage2_state := end_scope s

/-- Stream `end_object`. -/
def end_object (s : stage2_state) : stage2_state := end_scope s

/-- Stream `end_array`. -/
def end_array (s : stage2_state) : stage2_state := end_scope s

/-- Stream `finish`: leave the document scope, publish `next_structural_index`, and
report an error when some scope is still open. -/
def finish (s : stage2_state) : error_code × stage2_state :=
  let s1 := end_document s
  let s2 : stage2_state :=
    { s1 with parser := { s1.parser with
        next_structural_index := (s1.current_structural + 1) % 2 ^ 32 } }
  (if s2.depth ≠ 0 then .TAPE_ERROR else .SUCCESS, s2)

/-- Stream `start`: `EMPTY` when no structural is left, else push the root scope. -/
def start (s : stage2_state) : error_code × stage2_state :=
  if at_end s s.parser.n_structural_indexes then (.EMPTY, s)
  else
    let r := start_document s
    if r.1 ≠ .SUCCESS then (.DEPTH_ERROR, r.2) else (.SUCCESS, r.2)

/-- Labels of `structural_stream::parse`. -/
inductive label
  | object_begin
  | object_key_state
  | object_continue
  | scope_end
  | array_begin
  | main_array_switch
  | array_continue
  | finish
  deriving DecidableEq

/-- How a block of `parse` ends: a `goto` or a `return`. -/
inductive control
  | goto (l : label)
  | ret (e : error_code)
  deriving DecidableEq

/-- The statement `if ((error = r)) { return error; }; goto next;`. -/
def return_or_goto (r : error_code × stage2_state) (next : label) : stage2_state × control :=
  (r.2, if r.1 ≠ .SUCCESS then .ret r.1 else .goto next)

/-- The condition `(error = parser.start_object(b)) || (error = visitor.start_object(parser.depth))`:
the visitor is called only when the stream reports no error. The first `case` of
`parse` lacks one closing parenthesis; it is read like the other two occurrences. -/
def open_object (s : stage2_state) (parent_is_array : Bool) : error_code × stage2_state :=
  let r := start_object s parent_is_array
  if r.1 ≠ .SUCCESS then r else structural_parser_stream.start_object r.2 r.2.depth

/-- The condition `(error = parser.start_array(b)) || (error = visitor.start_array(parser.depth))`. -/
def open_array (s : stage2_state) (parent_is_array : Bool) : error_code × stage2_state :=
  let r := start_array s parent_is_array
  if r.1 ≠ .SUCCESS then r else structural_parser_stream.start_array r.2 r.2.depth

/-- The statements `if ((error = visitor.end_object(parser.depth))) { return error; }
parser.end_object(); goto scope_end;`. -/
def close_object (s : stage2_state) : stage2_state × control :=
  let r := structural_parser_stream.end_object s s.depth
  if r.1 ≠ .SUCCESS then (r.2, .ret r.1) else (end_object r.2, .goto .scope_end)

/-- The statements `if ((error = visitor.end_array(parser.depth))) { return error; }
parser.end_array(); goto scope_end;`. -/
def close_array (s : stage2_state) : stage2_state × control :=
  let r := structural_parser_stream.end_array s s.depth
  if r.1 ≠ .SUCCESS then (r.2, .ret r.1) else (end_array r.2, .goto .scope_end)

/-- The `switch (*value)` that `object_key_state` (with `false`, continuing at
`object_continue`) and `main_array_switch` (with `true`, continuing at
`array_continue`) share word for word. `value` is the offset the pointer holds. -/
def value_switch (u : leaf_utilities) (s : stage2_state) (value : Nat) (parent_is_array : Bool)
    (next : label) : stage2_state × control :=
  let c := s.parser.buf value
  if c = 123 then return_or_goto (open_object s parent_is_array) .object_begin
  else if c = 91 then return_or_goto (open_array s parent_is_array) .array_begin
  else if c = 34 then return_or_goto (structural_parser_stream.string u s value) next
  else if c = 116 then return_or_goto (structural_parser_stream.true_atom u s value) next
  else if c = 102 then return_or_goto (structural_parser_stream.false_atom u s value) next
  else if c = 110 then return_or_goto (structural_parser_stream.null_atom u s value) next
  else if c = 45 ∨ (48 ≤ c ∧ c ≤ 57) then
    return_or_goto (structural_parser_stream.number u s value) next
  else (s, .ret .TAPE_ERROR)

/-- The block "Read first value" of `parse`. `visitor.error(code, message)` logs and
hands back `code`; the `goto error` of the number case, for which `parse` has no
label, is read as `return error`, like the cases around it. -/
def first_value (STREAMING : Bool) (u : leaf_utilities) (s : stage2_state) :
    stage2_state × control :=
  let value := current s
  let c := current_char s
  if c = 123 then return_or_goto (open_object s false) .object_begin
  else if c = 91 then
    let r := open_array s false
    if r.1 ≠ .SUCCESS then (r.2, .ret r.1)
    else if !STREAMING ∧
        r.2.parser.buf (r.2.parser.structural_indexes (r.2.parser.n_structural_indexes - 1)) ≠ 93 then
      (r.2, .ret .TAPE_ERROR)
    else (r.2, .goto .array_begin)
  else if c = 34 then
    return_or_goto (structural_parser_stream.string u s value) .finish
  else if c = 116 then
    return_or_goto (structural_parser_stream.true_atom_len u s value (remaining_len s)) .finish
  else if c = 102 then
    return_or_goto (structural_parser_stream.false_atom_len u s value (remaining_len s)) .finish
  else if c = 110 then
    return_or_goto (structural_parser_stream.null_atom_len u s value (remaining_len s)) .finish
  else if c = 45 ∨ (48 ≤ c ∧ c ≤ 57) then
    return_or_goto (structural_parser_stream.number_len u s value (remaining_len s)) .finish
  else (s, .ret .TAPE_ERROR)

/-- One block of the state machine: the code from a label to the next `goto` or
`return`. `visitor.on_key` of `object_begin` is the visitor's `key`;
`visitor.on_error(code, message)` and `visitor.error(code, message)` log and hand
back `code`. In `main_array_switch` the pointer `value` is declared without an
initialiser and dereferenced: its content comes from `uninit_value`, and the
structural cursor does not move. Falling through from `array_begin` into
`main_array_switch` is a `goto`. -/
def step (u : leaf_utilities) (l : label) (s : stage2_state) : stage2_state × control :=
  match l with
  | .object_begin =>
    let (c, s1) := advance_char s
    if c = 34 then return_or_goto (structural_parser_stream.key u s1 (current s1)) .object_key_state
    else if c = 125 then close_object s1
    else (s1, .ret .TAPE_ERROR)
  | .object_key_state =>
    let (c, s1) := advance_char s
    if c ≠ 58 then (s1, .ret .TAPE_ERROR)
    else
      let (value, s2) := advance s1
      value_switch u s2 value false .object_continue
  | .object_continue =>
    let (c, s1) := advance_char s
    if c = 44 then
      let (key, s2) := advance s1
      if s2.parser.buf key ≠ 34 then (s2, .ret .TAPE_ERROR)
      else return_or_goto (structural_parser_stream.key u s2 key) .object_key_state
    else if c = 125 then close_object s1
    else (s1, .ret .TAPE_ERROR)
  | .scope_end =>
    if s.depth = 1 then (s, .goto .finish)
    else if s.parser.is_array s.depth then (s, .goto .array_continue)
    else (s, .goto .object_continue)
  | .array_begin =>
    if peek_next_char s = 93 then
      let (_, s1) := advance_char s
      close_array s1
    else (s, .goto .main_array_switch)
  | .main_array_switch =>
    let value := u.uninit_value s.uninit_reads
    let s1 : stage2_state := { s with uninit_reads := s.uninit_reads + 1 }
    value_switch u s1 value true .array_continue
  | .array_continue =>
    let (c, s1) := advance_char s
    if c = 44 then (s1, .goto .main_array_switch)
    else if c = 93 then close_array s1
    else (s1, .ret .TAPE_ERROR)
  | .finish =>
    let r := finish s
    (r.2, .ret r.1)

/-- Run the state machine from a label for at most `fuel` blocks. -/
def run (u : leaf_utilities) : Nat → label → stage2_state → Option (error_code × stage2_state)
  | 0, _, _ => none
  | fuel + 1, l, s =>
    match step u l s with
    | (s1, .goto l1) => run u fuel l1 s1
    | (s1, .ret e) => some (e, s1)

/-- The function `structural_stream::parse<STREAMING>`: construct the stream at
structural `next_structural_index` (streaming) or 0, `start()`, read the first
value, then run the state machine. -/
def parse (STREAMING : Bool) (u : leaf_utilities) (s : stage2_state) (fuel : Nat) :
    Option (error_code × stage2_state) :=
  let s0 : stage2_state :=
    { s with
      current_structural := if STREAMING then s.parser.next_structural_index else 0
      depth := 0 }
  let r := start s0
  if r.1 ≠ .SUCCESS then some r
  else
    match first_value STREAMING u r.2 with
    | (s1, .goto l) => run u fuel l s1
    | (s1, .ret e) => some (e, s1)

end structural_stream

/-- The entry point `parse_structural_stream<STREAMING>(parser, doc)`: construct the
visitor over the parser, then run `structural_stream::parse`. The result is the
returned code with the final state, or `none` when `fuel` blocks did not suffice. -/
def parse_structural_stream (STREAMING : Bool) (u : leaf_utilities)
    (parser : dom_parser_implementation) (fuel : Nat) : Option (error_code × stage2_state) :=
  let visitor : stage2_state := structural_parser_stream.init
    { parser := parser, current_structural := 0, depth := 0, next_tape_loc := 0,
      current_string_buf_loc := 0, uninit_reads := 0 }
  structural_stream.parse STREAMING u visitor fuel

/-! ## Concrete inputs -/

/-- A memory holding the list `l`, with `d` in every cell past its end. -/
def mem_of_list (l : List Nat) (d : Nat) : Nat → Nat := fun i => l.getD i d

/-- A parser over the input bytes `bytes` with the structural index `idx`; the
memory past the input holds spaces, the memory past the index holds `bytes.length`,
and tape, string buffer, scope records and `is_array` are blank. -/
def parser_of (bytes idx : List Nat) (max_depth : Nat) (next_structural_index : Nat) :
    dom_parser_implementation :=
  { buf := mem_of_list bytes 32
    len := bytes.length
    structural_indexes := mem_of_list idx bytes.length
    n_structural_indexes := idx.length
    next_structural_index := next_structural_index
    max_depth := max_depth
    is_array := fun _ => false
    containing_scope := fun _ => ⟨0, 0⟩
    tape := fun _ => 0
    string_buf := fun _ => 0 }

/-- Leaf utilities that reject every string, number and atom; the uninitialised
pointer of `main_array_switch` holds `value` at every read. -/
def rejecting_utilities (value : Nat) : leaf_utilities :=
  { parse_string := fun _ _ => none
    parse_number := fun _ _ => none
    is_valid_true_atom := fun _ _ => false
    is_valid_true_atom_len := fun _ _ _ => false
    is_valid_false_atom := fun _ _ => false
    is_valid_false_atom_len := fun _ _ _ => false
    is_valid_null_atom := fun _ _ => false
    is_valid_null_atom_len := fun _ _ _ => false
    malloc_succeeds := fun _ => true
    padding := 32
    uninit_value := fun _ => value }

/-- Leaf utilities that accept every string (as the empty string), every number (as
the integer 0) and every atom; at its `k`-th read the uninitialised pointer of
`main_array_switch` holds the `k`-th entry of `values` (0 past the end). -/
def accepting_utilities (values : List Nat) : leaf_utilities :=
  { parse_string := fun _ _ => some []
    parse_number := fun _ _ => some (.int64, 0)
    is_valid_true_atom := fun _ _ => true
    is_valid_true_atom_len := fun _ _ _ => true
    is_valid_false_atom := fun _ _ => true
    is_valid_false_atom_len := fun _ _ _ => true
    is_valid_null_atom := fun _ _ => true
    is_valid_null_atom_len := fun _ _ _ => true
    malloc_succeeds := fun _ => true
    padding := 32
    uninit_value := fun k => values.getD k 0 }

/-- Leaf utilities like `accepting_utilities []`, whose string unescape yields the
bytes `out` for every string. -/
def unescaping_utilities (out : List Nat) : leaf_utilities :=
  { accepting_utilities [] with parse_string := fun _ _ => some out }

/-- The stream calls made on the way into `k` containers nested one inside the
other: `start_document`, then `k` times `start_scope`, stopping at the first call
that reports an error. -/
def nested_opens (s : stage2_state) : Nat → error_code × stage2_state
  | 0 => structural_stream.start_document s
  | k + 1 =>
    let r := nested_opens s k
    if r.1 ≠ .SUCCESS then r else structural_stream.start_scope r.2 true

/-- The state in which `structural_stream::parse<STREAMING>` calls `start()`: fresh
visitor cursors, depth 0, and the structural cursor at `next_structural_index`
(streaming) or 0, over the parser as the caller left it. -/
def initial_state (STREAMING : Bool) (p : dom_parser_implementation) : stage2_state :=
  { parser := p
    current_structural := if STREAMING then p.next_structural_index else 0
    depth := 0
    next_tape_loc := 0
    current_string_buf_loc := 0
    uninit_reads := 0 }

/-- The visitor calls made for a run of strings: `parse_string` on each source
offset in turn. -/
def parse_strings (u : leaf_utilities) (s : stage2_state) : List Nat → stage2_state
  | [] => s
  | src :: rest => parse_strings u (structural_parser_stream.parse_string u s src).2 rest

/-- Bytes that a string occupies in the string buffer: 4 for the length, the
unescaped bytes, 1 for the terminator; nothing when the unescape fails. -/
def string_region (u : leaf_utilities) (buf : Nat → Nat) (src : Nat) : Nat :=
  match u.parse_string buf src with
  | some out => out.length + 5
  | none => 0

/-- The block outcome `c` hands back the error of the operation result `r`: when `r`
carries a code other than SUCCESS, the block returns exactly that code, in the state
the operation left (so nothing ran after it). -/
def returns_error_of (r : error_code × stage2_state) (c : stage2_state × structural_stream.control) :
    Prop :=
  r.1 ≠ .SUCCESS → c = (r.2, .ret r.1)

/-- The stack of open containers (innermost first, `true` for an array) after a
`goto l`: `object_begin` and `array_begin` are entered right after a container was
opened, `scope_end` right after the innermost one was closed. -/
def next_stack (ks : List Bool) (l : structural_stream.label) : List Bool :=
  match l with
  | .object_begin => false :: ks
  | .array_begin => true :: ks
  | .scope_end => ks.tail
  | _ => ks

/-- The configurations (label and state) that a parse of the parser `p` passes
through, each with the stack of the containers open at that point. -/
inductive reachable (S : Bool) (u : leaf_utilities) (p : dom_parser_implementation) :
    List Bool → structural_stream.label → stage2_state → Prop
  | first (s1 : stage2_state) (l : structural_stream.label) :
      (structural_stream.start (initial_state S p)).1 = .SUCCESS →
      structural_stream.first_value S u (structural_stream.start (initial_state S p)).2
        = (s1, .goto l) →
      reachable S u p (next_stack [] l) l s1
  | step (ks : List Bool) (l : structural_stream.label) (s s1 : stage2_state)
      (l1 : structural_stream.label) :
      reachable S u p ks l s →
      structural_stream.step u l s = (s1, .goto l1) →
      reachable S u p (next_stack ks l1) l1 s1

/-- Where `scope_end` has to continue, given the containers that are still open:
`finish` when none is, else the continue label of the innermost one. -/
def scope_end_target (ks : List Bool) : structural_stream.label :=
  match ks with
  | [] => .finish
  | true :: _ => .array_continue
  | false :: _ => .object_continue

/-- `is_array` records, for every open container but the outermost, the kind of the
container that encloses it: the container at nesting level `n` has its parent's kind
at index `n`. -/
def is_array_ok : List Bool → (Nat → Bool) → Prop
  | _ :: k1 :: rest, ia => ia (rest.length + 2) = k1 ∧ is_array_ok (k1 :: rest) ia
  | _, _ => True

/-- The invariant that ties the state to the stack of open containers at a label. -/
def stack_inv (ks : List Bool) (l : structural_stream.label) (s : stage2_state) : Prop :=
  s.depth = ks.length + 1 ∧ s.depth < s.parser.max_depth
  ∧ is_array_ok ks s.parser.is_array
  ∧ (match l with
    | .object_begin => ∃ r, ks = false :: r
    | .object_key_state => ∃ r, ks = false :: r
    | .object_continue => ∃ r, ks = false :: r
    | .array_begin => ∃ r, ks = true :: r
    | .main_array_switch => ∃ r, ks = true :: r
    | .array_continue => ∃ r, ks = true :: r
    | .scope_end => ∀ k r, ks = k :: r → s.parser.is_array (r.length + 2) = k
    | .finish => ks = [])

/-- The state `t` is the state `s` after a container was opened with the flag `b`. -/
def opened (s : stage2_state) (b : Bool) (t : stage2_state) : Prop :=
  t.depth = (s.depth + 1) % 2 ^ 32 ∧ t.depth < s.parser.max_depth
  ∧ t.parser.is_array = store s.parser.is_array s.depth b
  ∧ t.parser.max_depth = s.parser.max_depth

/-- The state `t` is the state `s` after the innermost container was closed. -/
def closed (s t : stage2_state) : Prop :=
  t.depth = (if s.depth = 0 then 2 ^ 32 - 1 else s.depth - 1)
  ∧ t.parser.is_array = s.parser.is_array
  ∧ t.parser.max_depth = s.parser.max_depth

/-- The states `s` and `t` have the same depth, `is_array` and `max_depth`. -/
def same_scopes (s t : stage2_state) : Prop :=
  t.depth = s.depth ∧ t.parser.is_array = s.parser.is_array
  ∧ t.parser.max_depth = s.parser.max_depth

/-- What a `goto l1` out of the block at `l` does to depth and `is_array`. -/
def transition (l : structural_stream.label) (s : stage2_state) (l1 : structural_stream.label)
    (s1 : stage2_state) : Prop :=
  match l with
  | .object_begin => l1 = .scope_end ∧ closed s s1
  | .object_key_state =>
    ((l1 = .object_begin ∨ l1 = .array_begin) ∧ opened s false s1)
      ∨ (l1 = .object_continue ∧ same_scopes s s1)
  | .object_continue => l1 = .scope_end ∧ closed s s1
  | .scope_end =>
    s1 = s ∧ l1 = (if s.depth = 1 then .finish
      else if s.parser.is_array s.depth then .array_continue else .object_continue)
  | .array_begin =>
    (l1 = .scope_end ∧ closed s s1) ∨ (l1 = .main_array_switch ∧ same_scopes s s1)
  | .main_array_switch =>
    ((l1 = .object_begin ∨ l1 = .array_begin) ∧ opened s true s1)
      ∨ (l1 = .array_continue ∧ same_scopes s s1)
  | .array_continue =>
    (l1 = .main_array_switch ∧ same_scopes s s1) ∨ (l1 = .scope_end ∧ closed s s1)
  | .finish => False

/-- The states of the parse of `[}]` (structurals at 0, 1, 2, `max_depth` 4, the byte
`{` at offset 3 behind the document) in which the uninitialised pointer of
`main_array_switch` holds offset 3: after the first value, after `array_begin`, after
`main_array_switch` (which opens an object inside the array) and after `object_begin`
(which closes that object again). -/
def nested_close_states : stage2_state × stage2_state × stage2_state × stage2_state :=
  let u := accepting_utilities [3]
  let s1 := (structural_stream.first_value false u
    (structural_stream.start
      (initial_state false (parser_of [91, 125, 93, 123] [0, 1, 2] 4 0))).2).1
  let s2 := (structural_stream.step u .array_begin s1).1
  let s3 := (structural_stream.step u .main_array_switch s2).1
  let s4 := (structural_stream.step u .object_begin s3).1
  (s1, s2, s3, s4)

/-- The parsers `p` and `q` hold the same input: the same bytes, length, structural
index and `max_depth`. They may differ in tape, string buffer, scope records,
`is_array` and `next_structural_index`. -/
def same_input (p q : dom_parser_implementation) : Prop :=
  q.buf = p.buf ∧ q.len = p.len ∧ q.structural_indexes = p.structural_indexes
    ∧ q.n_structural_indexes = p.n_structural_indexes ∧ q.max_depth = p.max_depth

/-- Two memories that started from the contents `a0` and `b0` agree on everything
written since: at every cell they hold the same value, or each still holds its prior
content. -/
def mem_rel {α : Type} (a b a0 b0 : Nat → α) : Prop :=
  ∀ i, a i = b i ∨ (a i = a0 i ∧ b i = b0 i)

/-- Two states of two parses of the same input, started from the parsers `p0` and
`q0`, that are in step: same input (still that of `p0`), same cursors and depth, the same `is_array` flags
below `bound`, the same scope records at the depths of the open containers, and tapes
and string buffers that agree on everything written. -/
structure sim (p0 q0 : dom_parser_implementation) (bound : Nat) (s t : stage2_state) : Prop where
  buf : t.parser.buf = s.parser.buf
  len : t.parser.len = s.parser.len
  structural_indexes : t.parser.structural_indexes = s.parser.structural_indexes
  n_structural_indexes : t.parser.n_structural_indexes = s.parser.n_structural_indexes
  max_depth : t.parser.max_depth = s.parser.max_depth
  current_structural : t.current_structural = s.current_structural
  depth : t.depth = s.depth
  next_tape_loc : t.next_tape_loc = s.next_tape_loc
  current_string_buf_loc : t.current_string_buf_loc = s.current_string_buf_loc
  uninit_reads : t.uninit_reads = s.uninit_reads
  is_array : ∀ d, d < bound → t.parser.is_array d = s.parser.is_array d
  containing_scope : ∀ d, 2 ≤ d → d ≤ s.depth →
    t.parser.containing_scope d = s.parser.containing_scope d
  tape : mem_rel s.parser.tape t.parser.tape p0.tape q0.tape
  string_buf : mem_rel s.parser.string_buf t.parser.string_buf p0.string_buf q0.string_buf
  kept : same_input p0 s.parser

/-- Two final states of two parses started from the parsers `p0` and `q0` show the
same output: the same cursors, and tapes and string buffers that agree on everything
written; and the first still has the input it started with. -/
structure same_output (p0 q0 : dom_parser_implementation) (s t : stage2_state) : Prop where
  next_tape_loc : t.next_tape_loc = s.next_tape_loc
  current_string_buf_loc : t.current_string_buf_loc = s.current_string_buf_loc
  tape : mem_rel s.parser.tape t.parser.tape p0.tape q0.tape
  string_buf : mem_rel s.parser.string_buf t.parser.string_buf p0.string_buf q0.string_buf
  kept : same_input p0 s.parser

/-- The bound below which `is_array` is known at a label: the depth, and at
`scope_end`, where the flag at the depth itself is read, one more. -/
def ia_bound (l : structural_stream.label) (s : stage2_state) : Nat :=
  if l = .scope_end then s.depth + 1 else s.depth

/-- Two outcomes of `run` or of parse agree: both ran out of fuel, or both returned,
with the same code and the same output. -/
def same_outcome (p0 q0 : dom_parser_implementation)
    (a b : Option (error_code × stage2_state)) : Prop :=
  match a, b with
  | none, none => True
  | some x, some y => y.1 = x.1 ∧ same_output p0 q0 x.2 y.2
  | _, _ => False

/-- Two outcomes of a block, one in each of two parses, are in step: the same `goto`
or `return`, the same output so far, and after a `goto` states that are in step at
the target label. -/
def in_step (p0 q0 : dom_parser_implementation)
    (a b : stage2_state × structural_stream.control) : Prop :=
  b.2 = a.2 ∧ same_output p0 q0 a.1 b.1
    ∧ ∀ l1, a.2 = .goto l1 → sim p0 q0 (ia_bound l1 a.1) a.1 b.1

/-- The parser `p` with other prior contents in the memories that a parse writes:
tape, string buffer, scope records and `is_array`. -/
def with_stale_memory (p : dom_parser_implementation) : dom_parser_implementation :=
  { p with
    is_array := fun d => d % 2 = 0
    containing_scope := fun d => ⟨d + 5, 9⟩
    tape := fun i => i + 77
    string_buf := fun _ => 255 }

/-- The state of the parse of the root scalar `true` (one structural, `max_depth` 4)
after the first value, on its way to `finish`. -/
def root_scalar_state : stage2_state :=
  (structural_stream.first_value false (accepting_utilities [])
    (structural_stream.start
      (initial_state false (parser_of [116, 114, 117, 101] [0] 4 0))).2).1

/-- An access whose index the depth bookkeeping has to keep in range: an element of
`parser.is_array` read or written at `index`, or a call of the visitor's
`start_object`/`start_array` or `end_object`/`end_array` with `depth`, which indexes
`parser.containing_scope`. -/
inductive scope_access
  | is_array (index : Nat)
  | visitor_start (depth : Nat)
  | visitor_end (depth : Nat)
  deriving DecidableEq

/-- The index that an access uses. -/
def scope_access.index : scope_access → Nat
  | .is_array i => i
  | .visitor_start d => d
  | .visitor_end d => d

namespace structural_stream

open structural_iterator

/-- Accesses of `(error = parser.start_object(b)) || (error = visitor.start_object(parser.depth))`
(and of the same condition with `start_array`): `start_scope` writes
`parser.is_array[depth]` before `depth++`, and the visitor is called with the new depth
when `start_scope` reported no error. -/
def open_accesses (s : stage2_state) (parent_is_array : Bool) : List scope_access :=
  let r := start_scope s parent_is_array
  .is_array s.depth :: (if r.1 ≠ .SUCCESS then [] else [.visitor_start r.2.depth])

/-- Accesses of `visitor.end_object(parser.depth)` and `visitor.end_array(parser.depth)`. -/
def close_accesses (s : stage2_state) : List scope_access := [.visitor_end s.depth]

/-- Accesses of the `switch (*value)` shared by `object_key_state` and
`main_array_switch`: those of the two container cases. -/
def value_switch_accesses (s : stage2_state) (value : Nat) (parent_is_array : Bool) :
    List scope_access :=
  let c := s.parser.buf value
  if c = 123 then open_accesses s parent_is_array
  else if c = 91 then open_accesses s parent_is_array
  else []

/-- Accesses of `start()`: `start_document` is `start_scope("document", false)`. -/
def start_accesses (s : stage2_state) : List scope_access :=
  if at_end s s.parser.n_structural_indexes then [] else [.is_array s.depth]

/-- Accesses of the block "Read first value". -/
def first_value_accesses (s : stage2_state) : List scope_access :=
  let c := current_char s
  if c = 123 then open_accesses s false
  else if c = 91 then open_accesses s false
  else []

/-- Accesses of one block of the state machine, in program order. -/
def step_accesses (u : leaf_utilities) (l : label) (s : stage2_state) : List scope_access :=
  match l with
  | .object_begin =>
    let (c, s1) := advance_char s
    if c = 34 then []
    else if c = 125 then close_accesses s1
    else []
  | .object_key_state =>
    let (c, s1) := advance_char s
    if c ≠ 58 then []
    else
      let (value, s2) := advance s1
      value_switch_accesses s2 value false
  | .object_continue =>
    let (c, s1) := advance_char s
    if c = 44 then []
    else if c = 125 then close_accesses s1
    else []
  | .scope_end =>
    if s.depth = 1 then [] else [.is_array s.depth]
  | .array_begin =>
    if peek_next_char s = 93 then
      let (_, s1) := advance_char s
      close_accesses s1
    else []
  | .main_array_switch =>
    let value := u.uninit_value s.uninit_reads
    let s1 : stage2_state := { s with uninit_reads := s.uninit_reads + 1 }
    value_switch_accesses s1 value true
  | .array_continue =>
    let (c, s1) := advance_char s
    if c = 44 then []
    else if c = 93 then close_accesses s1
    else []
  | .finish => []

end structural_stream

/-- The depths passed to the visitor's start calls of the containers that are still
open (innermost first) after the accesses `acc`, given those open before: a start call
pushes its depth, an end call pops the innermost container. -/
def open_depths : List Nat → List scope_access → List Nat
  | ds, [] => ds
  | ds, .visitor_start d :: rest => open_depths (d :: ds) rest
  | ds, .visitor_end _ :: rest => open_depths ds.tail rest
  | ds, .is_array _ :: rest => open_depths ds rest

/-- The configurations that a parse of the parser `p` passes through, each with the
depths that were passed to the visitor's start calls of the containers open at that
point (innermost first). -/
inductive traced (S : Bool) (u : leaf_utilities) (p : dom_parser_implementation) :
    List Nat → structural_stream.label → stage2_state → Prop
  | first (s1 : stage2_state) (l : structural_stream.label) :
      (structural_stream.start (initial_state S p)).1 = .SUCCESS →
      structural_stream.first_value S u (structural_stream.start (initial_state S p)).2
        = (s1, .goto l) →
      traced S u p
        (open_depths []
          (structural_stream.first_value_accesses
            (structural_stream.start (initial_state S p)).2)) l s1
  | step (ds : List Nat) (l : structural_stream.label) (s s1 : stage2_state)
      (l1 : structural_stream.label) :
      traced S u p ds l s →
      structural_stream.step u l s = (s1, .goto l1) →
      traced S u p (open_depths ds (structural_stream.step_accesses u l s)) l1 s1

/-- The start depths of `n` nested containers, innermost first: `n + 1, n, ..., 2`. -/
def nested_depths : Nat → List Nat
  | 0 => []
  | n + 1 => (n + 2) :: nested_depths n

/-- The open start depths after a `goto l1` that ends in the state `s1`. -/
def depths_after (ds : List Nat) (l1 : structural_stream.label) (s1 : stage2_state) : List Nat :=
  match l1 with
  | .object_begin => s1.depth :: ds
  | .array_begin => s1.depth :: ds
  | .scope_end => ds.tail
  | _ => ds

/-- The access `a`, made while `n` containers are open, is in order: its index is
below `max_depth`, an end call gets depth `n + 1` (and some container is open), a
start call gets depth `n + 2`. -/
def access_ok (max_depth n : Nat) (a : scope_access) : Prop :=
  a.index < max_depth
  ∧ (∀ d, a = .visitor_end d → d = n + 1 ∧ 1 ≤ n)
  ∧ (∀ d, a = .visitor_start d → d = n + 2)

/-- A visitor state over blank memory whose tape cursor stands at `tape_loc`. -/
def blank_state (tape_loc : Nat) : stage2_state :=
  { parser := parser_of [] [] 0 0
    current_structural := 0
    depth := 0
    next_tape_loc := tape_loc
    current_string_buf_loc := 0
    uninit_reads := 0 }

/-! ## Arithmetic of tape words -/

theorem or_shiftLeft_eq_add (a b i : Nat) (h : a < 2 ^ i) : a ||| (b <<< i) = a + b * 2 ^ i := by
  rw [Nat.shiftLeft_eq, Nat.mul_comm b, Nat.lor_comm, ← Nat.mul_add_lt_is_or h, Nat.add_comm]

theorem tape_word_eq (payload : Nat) (tag : tape_type) :
    tape_word payload tag = payload % 2 ^ 56 + tag.code * 2 ^ 56 := by
  unfold tape_word
  have h : (0x00FFFFFFFFFFFFFF : Nat) = 2 ^ 56 - 1 := by norm_num
  rw [h, Nat.and_pow_two_sub_one_eq_mod]
  exact or_shiftLeft_eq_add _ _ 56 (Nat.mod_lt _ (by norm_num))

theorem word_tag_tape_word (payload : Nat) (tag : tape_type) :
    word_tag (tape_word payload tag) = tag.code := by
  rw [word_tag, Nat.shiftRight_eq_div_pow, tape_word_eq]
  have := Nat.mod_lt payload (show 0 < 2 ^ 56 by norm_num)
  omega

theorem word_payload_tape_word (payload : Nat) (tag : tape_type) :
    word_payload (tape_word payload tag) = payload % 2 ^ 56 := by
  have h : (0x00FFFFFFFFFFFFFF : Nat) = 2 ^ 56 - 1 := by norm_num
  rw [word_payload, h, Nat.and_pow_two_sub_one_eq_mod, tape_word_eq]
  omega

theorem store_same {α : Type} (m : Nat → α) (i : Nat) (v : α) : store m i v i = v := by
  simp [store]

theorem store_other {α : Type} (m : Nat → α) (i j : Nat) (v : α) (h : j ≠ i) :
    store m i v j = m j := by
  simp [store, h]

/-- The header word written by `end_scope`, as a sum of its three fields. -/
theorem end_scope_header (s : stage2_state) (depth : Nat) (start fin : tape_type) :
    ((structural_parser_stream.end_scope s depth start fin).2.parser.tape
        (s.parser.containing_scope depth).tape_index)
      = (s.next_tape_loc + 1) % 2 ^ 32
        + min (s.parser.containing_scope depth).count 0xFFFFFF * 2 ^ 32
        + start.code * 2 ^ 56 := by
  simp only [structural_parser_stream.end_scope, tape_writer.write, tape_writer.append,
    structural_parser_stream.next_tape_index, store_same]
  rw [tape_word_eq, or_shiftLeft_eq_add _ _ 32 (Nat.mod_lt _ (by norm_num))]
  have h1 := Nat.mod_lt (s.next_tape_loc + 1) (show 0 < 2 ^ 32 by norm_num)
  split <;> omega

/-! ## The claims -/

/-- C1, evaluated at the input `[]` (structurals at 0 and 1, `max_depth` 3): for every
choice of leaf utilities, non-streaming parse returns SUCCESS after writing two tape
words, of which word 0 carries the START_ARRAY tag and the last one the END_ARRAY
tag; neither carries the ROOT tag. -/
theorem C1_empty_array_has_no_root_words (u : leaf_utilities) :
    (parse_structural_stream false u (parser_of [91, 93] [0, 1] 3 0) 10).map
        (fun r => (r.1, r.2.next_tape_loc, word_tag (r.2.parser.tape 0),
          word_tag (r.2.parser.tape (r.2.next_tape_loc - 1))))
      = some (.SUCCESS, 2, tape_type.START_ARRAY.code, tape_type.END_ARRAY.code)
    ∧ tape_type.START_ARRAY.code ≠ tape_type.ROOT.code
    ∧ tape_type.END_ARRAY.code ≠ tape_type.ROOT.code := by
  refine ⟨by rfl, by decide, by decide⟩

/-- C2, refuted as stated: a container opened at tape index 1 and closed by an END
word at tape index 2 gets a header whose low 32 bits are 3, not 2. -/
theorem C2_header_low32_is_not_end_index :
    ((structural_parser_stream.start_object (blank_state 1) 2).2.next_tape_loc = 2
      ∧ word_payload ((structural_parser_stream.end_object
          (structural_parser_stream.start_object (blank_state 1) 2).2 2).2.parser.tape 2) = 1
      ∧ ((structural_parser_stream.end_object
          (structural_parser_stream.start_object (blank_state 1) 2).2 2).2.parser.tape 1) % 2 ^ 32 = 3)
    ∧ ¬ (((structural_parser_stream.end_object
          (structural_parser_stream.start_object (blank_state 1) 2).2 2).2.parser.tape 1) % 2 ^ 32 = 2) := by
  decide

/-- C2, amended: let a scope be opened by `start_scope` at depth `d` while the tape
cursor is at index `i` (below `2^32`), and let `end_scope` close it from a later
state `t` whose record at depth `d` still holds that index and whose cursor is at
index `e > i` (with `e + 1` below `2^32`). Then the END word is written at `e` with
the end tag and payload `i`, and the header at `i` carries the start tag and has low
32 bits `e + 1`, the index just past the END word. -/
theorem C2_scope_links (s t : stage2_state) (d : Nat) (start fin : tape_type)
    (hi : s.next_tape_loc < 2 ^ 32)
    (hrec : (t.parser.containing_scope d).tape_index
      = ((structural_parser_stream.start_scope s d).2.parser.containing_scope d).tape_index)
    (hlt : s.next_tape_loc < t.next_tape_loc) (he : t.next_tape_loc + 1 < 2 ^ 32) :
    (structural_parser_stream.start_scope s d).2.next_tape_loc = s.next_tape_loc + 1
    ∧ (structural_parser_stream.end_scope t d start fin).2.next_tape_loc = t.next_tape_loc + 1
    ∧ word_tag ((structural_parser_stream.end_scope t d start fin).2.parser.tape t.next_tape_loc)
        = fin.code
    ∧ word_payload ((structural_parser_stream.end_scope t d start fin).2.parser.tape t.next_tape_loc)
        = s.next_tape_loc
    ∧ word_tag ((structural_parser_stream.end_scope t d start fin).2.parser.tape s.next_tape_loc)
        = start.code
    ∧ ((structural_parser_stream.end_scope t d start fin).2.parser.tape s.next_tape_loc) % 2 ^ 32
        = t.next_tape_loc + 1 := by
  have hidx : (t.parser.containing_scope d).tape_index = s.next_tape_loc := by
    rw [hrec]
    simp only [structural_parser_stream.start_scope, tape_writer.skip,
      structural_parser_stream.next_tape_index, store_same]
    exact Nat.mod_eq_of_lt hi
  have hhead := end_scope_header t d start fin
  rw [hidx] at hhead
  have hend : (structural_parser_stream.end_scope t d start fin).2.parser.tape t.next_tape_loc
      = tape_word s.next_tape_loc fin := by
    simp only [structural_parser_stream.end_scope, tape_writer.write, tape_writer.append, hidx]
    rw [store_other _ _ _ _ (by omega), store_same]
  refine ⟨by simp [structural_parser_stream.start_scope, tape_writer.skip],
    by simp [structural_parser_stream.end_scope, tape_writer.write, tape_writer.append], ?_, ?_, ?_, ?_⟩
  · rw [hend, word_tag_tape_word]
  · rw [hend, word_payload_tape_word]
    exact Nat.mod_eq_of_lt (by omega)
  · rw [hhead, word_tag, Nat.shiftRight_eq_div_pow]
    have h1 := Nat.mod_lt (t.next_tape_loc + 1) (show 0 < 2 ^ 32 by norm_num)
    have h2 : min (t.parser.containing_scope d).count 0xFFFFFF ≤ 0xFFFFFF := Nat.min_le_right _ _
    omega
  · rw [hhead, Nat.mod_eq_of_lt he]
    omega

/-- Witness for `C2_scope_links`: the scope opened at tape index 1 and closed at tape
index 2. -/
theorem C2_scope_links_witness :
    word_payload ((structural_parser_stream.end_scope
        (structural_parser_stream.start_scope (blank_state 1) 2).2 2 .START_OBJECT .END_OBJECT).2.parser.tape 2)
      = 1
    ∧ ((structural_parser_stream.end_scope
        (structural_parser_stream.start_scope (blank_state 1) 2).2 2 .START_OBJECT .END_OBJECT).2.parser.tape 1)
        % 2 ^ 32 = 3 :=
  have h := C2_scope_links (blank_state 1) (structural_parser_stream.start_scope (blank_state 1) 2).2 2
    .START_OBJECT .END_OBJECT (by decide) rfl (by decide) (by decide)
  ⟨h.2.2.2.1, h.2.2.2.2.2⟩

/-- C4: for every state, depth and pair of tags, the header word that `end_scope`
writes at the scope's tape index has the start tag in bits 56..63, the count of the
scope record saturated at 0xFFFFFF in bits 32..55, and the 32-bit tape position
reached after the END word in bits 0..31; the word is the sum of the three fields, so
none overlaps another, and counts 0xFFFFFF and 0xFFFFFF + 1 give the same field. -/
theorem C4_header_fields (s : stage2_state) (depth : Nat) (start fin : tape_type) :
    ((structural_parser_stream.end_scope s depth start fin).2.parser.tape
        (s.parser.containing_scope depth).tape_index) >>> 56 = start.code
    ∧ (((structural_parser_stream.end_scope s depth start fin).2.parser.tape
        (s.parser.containing_scope depth).tape_index) >>> 32) % 2 ^ 24
        = min (s.parser.containing_scope depth).count 0xFFFFFF
    ∧ ((structural_parser_stream.end_scope s depth start fin).2.parser.tape
        (s.parser.containing_scope depth).tape_index) % 2 ^ 32
        = structural_parser_stream.next_tape_index
            (tape_writer.append s (s.parser.containing_scope depth).tape_index fin)
    ∧ start.code < 2 ^ 8
    ∧ min (s.parser.containing_scope depth).count 0xFFFFFF < 2 ^ 24
    ∧ structural_parser_stream.next_tape_index
        (tape_writer.append s (s.parser.containing_scope depth).tape_index fin) < 2 ^ 32
    ∧ min 0xFFFFFF 0xFFFFFF = min (0xFFFFFF + 1) 0xFFFFFF := by
  have hhead := end_scope_header s depth start fin
  have h1 := Nat.mod_lt (s.next_tape_loc + 1) (show 0 < 2 ^ 32 by norm_num)
  have h2 : min (s.parser.containing_scope depth).count 0xFFFFFF ≤ 0xFFFFFF := Nat.min_le_right _ _
  have h3 : start.code < 2 ^ 8 := by cases start <;> decide
  have h4 : structural_parser_stream.next_tape_index
      (tape_writer.append s (s.parser.containing_scope depth).tape_index fin)
        = (s.next_tape_loc + 1) % 2 ^ 32 := rfl
  rw [h4, hhead, Nat.shiftRight_eq_div_pow, Nat.shiftRight_eq_div_pow]
  refine ⟨by omega, by omega, by omega, h3, by omega, h1, by decide⟩

/-! ## Scope counts are never incremented by the state machine -/

theorem return_or_goto_state (r : error_code × stage2_state) (next : structural_stream.label) :
    (structural_stream.return_or_goto r next).1 = r.2 := rfl

theorem stream_start_scope_scopes (s : stage2_state) (b : Bool) :
    (structural_stream.start_scope s b).2.parser.containing_scope = s.parser.containing_scope :=
  rfl

theorem visitor_start_scope_count (s : stage2_state) (depth d : Nat) :
    ((structural_parser_stream.start_scope s depth).2.parser.containing_scope d).count
        = (s.parser.containing_scope d).count
      ∨ ((structural_parser_stream.start_scope s depth).2.parser.containing_scope d).count = 0 := by
  simp only [structural_parser_stream.start_scope, tape_writer.skip, store]
  by_cases h : d = depth
  · right
    rw [if_pos h]
  · left
    rw [if_neg h]

theorem open_scope_count (s : stage2_state) (b : Bool) (d : Nat) :
    ((structural_stream.open_object s b).2.parser.containing_scope d).count
        = (s.parser.containing_scope d).count
      ∨ ((structural_stream.open_object s b).2.parser.containing_scope d).count = 0 := by
  unfold structural_stream.open_object
  simp only [structural_stream.start_object, structural_parser_stream.start_object]
  split
  · left
    rw [stream_start_scope_scopes]
  · have h := visitor_start_scope_count (structural_stream.start_scope s b).2
      (structural_stream.start_scope s b).2.depth d
    rw [stream_start_scope_scopes] at h
    exact h

theorem parse_string_scopes (u : leaf_utilities) (s : stage2_state) (src : Nat) :
    (structural_parser_stream.parse_string u s src).2.parser.containing_scope
      = s.parser.containing_scope := by
  unfold structural_parser_stream.parse_string
  simp only [structural_parser_stream.on_start_string]
  split <;> rfl

theorem number_in_scopes (u : leaf_utilities) (s : stage2_state) (mem : Nat → Nat) (src : Nat) :
    (structural_parser_stream.number_in u s mem src).2.parser.containing_scope
      = s.parser.containing_scope := by
  unfold structural_parser_stream.number_in
  split <;> rfl

theorem close_object_scopes (s : stage2_state) :
    (structural_stream.close_object s).1.parser.containing_scope = s.parser.containing_scope := by
  simp [structural_stream.close_object, structural_parser_stream.end_object,
    structural_parser_stream.end_scope, structural_stream.end_object, structural_stream.end_scope,
    tape_writer.write, tape_writer.append]

theorem close_array_scopes (s : stage2_state) :
    (structural_stream.close_array s).1.parser.containing_scope = s.parser.containing_scope := by
  simp [structural_stream.close_array, structural_parser_stream.end_array,
    structural_parser_stream.end_scope, structural_stream.end_array, structural_stream.end_scope,
    tape_writer.write, tape_writer.append]

theorem value_switch_count (u : leaf_utilities) (s : stage2_state) (value : Nat) (b : Bool)
    (next : structural_stream.label) (d : Nat) :
    ((structural_stream.value_switch u s value b next).1.parser.containing_scope d).count
        = (s.parser.containing_scope d).count
      ∨ ((structural_stream.value_switch u s value b next).1.parser.containing_scope d).count = 0 := by
  unfold structural_stream.value_switch
  simp only []
  split_ifs
  · rw [return_or_goto_state]
    exact open_scope_count s b d
  · rw [return_or_goto_state]
    exact open_scope_count s b d
  · rw [return_or_goto_state, structural_parser_stream.string, parse_string_scopes]
    exact Or.inl rfl
  · rw [return_or_goto_state]
    unfold structural_parser_stream.true_atom
    split <;> exact Or.inl rfl
  · rw [return_or_goto_state]
    unfold structural_parser_stream.false_atom
    split <;> exact Or.inl rfl
  · rw [return_or_goto_state]
    unfold structural_parser_stream.null_atom
    split <;> exact Or.inl rfl
  · rw [return_or_goto_state, structural_parser_stream.number, number_in_scopes]
    exact Or.inl rfl
  · exact Or.inl rfl

/-- No block of the state machine increments a scope count: after a block, the count
of every scope record is what it was before the block, or 0. -/
theorem step_count_kept_or_zero (u : leaf_utilities) (l : structural_stream.label)
    (s : stage2_state) (d : Nat) :
    ((structural_stream.step u l s).1.parser.containing_scope d).count
        = (s.parser.containing_scope d).count
      ∨ ((structural_stream.step u l s).1.parser.containing_scope d).count = 0 := by
  cases l <;> simp only [structural_stream.step, structural_iterator.advance_char,
    structural_iterator.advance]
  · split_ifs
    · rw [return_or_goto_state, structural_parser_stream.key, parse_string_scopes]
      exact Or.inl rfl
    · rw [close_object_scopes]
      exact Or.inl rfl
    · exact Or.inl rfl
  · split_ifs
    · exact Or.inl rfl
    · exact value_switch_count _ _ _ _ _ _
  · split_ifs
    · exact Or.inl rfl
    · rw [return_or_goto_state, structural_parser_stream.key, parse_string_scopes]
      exact Or.inl rfl
    · rw [close_object_scopes]
      exact Or.inl rfl
    · exact Or.inl rfl
  · split_ifs <;> exact Or.inl rfl
  · split_ifs
    · rw [close_array_scopes]
      exact Or.inl rfl
    · exact Or.inl rfl
  · exact value_switch_count _ _ _ _ _ _
  · split_ifs
    · exact Or.inl rfl
    · rw [close_array_scopes]
      exact Or.inl rfl
    · exact Or.inl rfl
  · exact Or.inl rfl

/-- C3, evaluated at the input `[1,2,3]` (structurals at 0..6, `max_depth` 4) with
utilities that accept every number and with the uninitialised pointer of
`main_array_switch` holding, at each read, the offset of the element to be read:
parse returns TAPE_ERROR with the cursor on the first element, and the count of the
array's scope record (depth 2) is still 0. In general no block of the state machine
increments a count: after a block the count of every scope record is what it was
before, or 0. -/
theorem C3_array_count_stays_zero (u : leaf_utilities) (l : structural_stream.label)
    (s : stage2_state) (d : Nat) :
    (parse_structural_stream false (accepting_utilities [1, 3, 5])
        (parser_of [91, 49, 44, 50, 44, 51, 93] [0, 1, 2, 3, 4, 5, 6] 4 0) 20).map
        (fun r => (r.1, r.2.current_structural, (r.2.parser.containing_scope 2).count))
      = some (.TAPE_ERROR, 1, 0)
    ∧ (((structural_stream.step u l s).1.parser.containing_scope d).count
          = (s.parser.containing_scope d).count
        ∨ ((structural_stream.step u l s).1.parser.containing_scope d).count = 0) :=
  ⟨by decide, step_count_kept_or_zero u l s d⟩

/-! ## Error codes that the blocks can return -/

theorem return_or_goto_ne_empty (r : error_code × stage2_state) (next : structural_stream.label)
    (h : r.1 ≠ .EMPTY) : (structural_stream.return_or_goto r next).2 ≠ .ret .EMPTY := by
  unfold structural_stream.return_or_goto
  simp only []
  split <;> simp [h]

theorem stream_start_scope_ne_empty (s : stage2_state) (b : Bool) :
    (structural_stream.start_scope s b).1 ≠ .EMPTY := by
  unfold structural_stream.start_scope
  simp only []
  split <;> simp

theorem open_object_ne_empty (s : stage2_state) (b : Bool) :
    (structural_stream.open_object s b).1 ≠ .EMPTY := by
  unfold structural_stream.open_object
  simp only []
  split
  · exact stream_start_scope_ne_empty s b
  · simp [structural_parser_stream.start_object, structural_parser_stream.start_scope]

theorem open_array_ne_empty (s : stage2_state) (b : Bool) :
    (structural_stream.open_array s b).1 ≠ .EMPTY := by
  unfold structural_stream.open_array
  simp only []
  split
  · exact stream_start_scope_ne_empty s b
  · simp [structural_parser_stream.start_array, structural_parser_stream.start_scope]

theorem parse_string_code (u : leaf_utilities) (s : stage2_state) (src : Nat) :
    (structural_parser_stream.parse_string u s src).1 = .STRING_ERROR := by
  unfold structural_parser_stream.parse_string
  simp only []
  split <;> rfl

theorem number_in_ne_empty (u : leaf_utilities) (s : stage2_state) (mem : Nat → Nat) (src : Nat) :
    (structural_parser_stream.number_in u s mem src).1 ≠ .EMPTY := by
  unfold structural_parser_stream.number_in
  split <;> simp

theorem number_len_ne_empty (u : leaf_utilities) (s : stage2_state) (src n : Nat) :
    (structural_parser_stream.number_len u s src n).1 ≠ .EMPTY := by
  unfold structural_parser_stream.number_len
  split
  · exact number_in_ne_empty _ _ _ _
  · simp

theorem close_object_ne_empty (s : stage2_state) :
    (structural_stream.close_object s).2 ≠ .ret .EMPTY := by
  simp [structural_stream.close_object, structural_parser_stream.end_object,
    structural_parser_stream.end_scope]

theorem close_array_ne_empty (s : stage2_state) :
    (structural_stream.close_array s).2 ≠ .ret .EMPTY := by
  simp [structural_stream.close_array, structural_parser_stream.end_array,
    structural_parser_stream.end_scope]

theorem value_switch_ne_empty (u : leaf_utilities) (s : stage2_state) (value : Nat) (b : Bool)
    (next : structural_stream.label) :
    (structural_stream.value_switch u s value b next).2 ≠ .ret .EMPTY := by
  unfold structural_stream.value_switch
  simp only []
  split_ifs
  · exact return_or_goto_ne_empty _ _ (open_object_ne_empty _ _)
  · exact return_or_goto_ne_empty _ _ (open_array_ne_empty _ _)
  · exact return_or_goto_ne_empty _ _ (by
      rw [structural_parser_stream.string, parse_string_code]; simp)
  · exact return_or_goto_ne_empty _ _ (by
      unfold structural_parser_stream.true_atom; split <;> simp)
  · exact return_or_goto_ne_empty _ _ (by
      unfold structural_parser_stream.false_atom; split <;> simp)
  · exact return_or_goto_ne_empty _ _ (by
      unfold structural_parser_stream.null_atom; split <;> simp)
  · exact return_or_goto_ne_empty _ _ (number_in_ne_empty _ _ _ _)
  · simp

theorem first_value_ne_empty (S : Bool) (u : leaf_utilities) (s : stage2_state) :
    (structural_stream.first_value S u s).2 ≠ .ret .EMPTY := by
  unfold structural_stream.first_value
  simp only []
  split_ifs
  · exact return_or_goto_ne_empty _ _ (open_object_ne_empty _ _)
  · simp only [ne_eq, structural_stream.control.ret.injEq]
    exact open_array_ne_empty _ _
  · simp
  · simp
  · exact return_or_goto_ne_empty _ _ (by
      rw [structural_parser_stream.string, parse_string_code]; simp)
  · exact return_or_goto_ne_empty _ _ (by
      unfold structural_parser_stream.true_atom_len; split <;> simp)
  · exact return_or_goto_ne_empty _ _ (by
      unfold structural_parser_stream.false_atom_len; split <;> simp)
  · exact return_or_goto_ne_empty _ _ (by
      unfold structural_parser_stream.null_atom_len; split <;> simp)
  · exact return_or_goto_ne_empty _ _ (number_len_ne_empty _ _ _ _)
  · simp

theorem step_ne_empty (u : leaf_utilities) (l : structural_stream.label) (s : stage2_state) :
    (structural_stream.step u l s).2 ≠ .ret .EMPTY := by
  cases l <;> simp only [structural_stream.step, structural_iterator.advance_char,
    structural_iterator.advance]
  · split_ifs
    · exact return_or_goto_ne_empty _ _ (by
        rw [structural_parser_stream.key, parse_string_code]; simp)
    · exact close_object_ne_empty _
    · simp
  · split_ifs
    · simp
    · exact value_switch_ne_empty _ _ _ _ _
  · split_ifs
    · simp
    · exact return_or_goto_ne_empty _ _ (by
        rw [structural_parser_stream.key, parse_string_code]; simp)
    · exact close_object_ne_empty _
    · simp
  · split_ifs <;> simp
  · split_ifs
    · exact close_array_ne_empty _
    · simp
  · exact value_switch_ne_empty _ _ _ _ _
  · split_ifs
    · simp
    · exact close_array_ne_empty _
    · simp
  · simp only [structural_stream.finish, ne_eq, structural_stream.control.ret.injEq]
    split <;> simp

theorem run_ne_empty (u : leaf_utilities) (fuel : Nat) (l : structural_stream.label)
    (s st : stage2_state) : structural_stream.run u fuel l s ≠ some (.EMPTY, st) := by
  induction fuel generalizing l s with
  | zero => simp [structural_stream.run]
  | succ n ih =>
    unfold structural_stream.run
    have h := step_ne_empty u l s
    split
    · exact ih _ _
    · rename_i s1 e heq
      intro hc
      simp only [Option.some.injEq, Prod.mk.injEq] at hc
      rw [heq, hc.1] at h
      exact h rfl

theorem parse_structural_stream_eq (S : Bool) (u : leaf_utilities) (p : dom_parser_implementation)
    (fuel : Nat) :
    parse_structural_stream S u p fuel
      = if (structural_stream.start (initial_state S p)).1 ≠ .SUCCESS then
          some (structural_stream.start (initial_state S p))
        else
          match structural_stream.first_value S u (structural_stream.start (initial_state S p)).2 with
          | (s1, .goto l) => structural_stream.run u fuel l s1
          | (s1, .ret e) => some (e, s1) := rfl

theorem parse_empty_iff (S : Bool) (u : leaf_utilities) (p : dom_parser_implementation)
    (fuel : Nat) (st : stage2_state) :
    parse_structural_stream S u p fuel = some (.EMPTY, st)
      ↔ ((initial_state S p).current_structural = p.n_structural_indexes
          ∧ st = initial_state S p) := by
  rw [parse_structural_stream_eq]
  have hp : (initial_state S p).parser = p := rfl
  by_cases h : (initial_state S p).current_structural = p.n_structural_indexes
  · have hs : structural_stream.start (initial_state S p) = (.EMPTY, initial_state S p) := by
      simp [structural_stream.start, structural_iterator.at_end, hp, h]
    rw [hs]
    simp [h, eq_comm]
  · have hs : structural_stream.start (initial_state S p)
        = (if (structural_stream.start_document (initial_state S p)).1 ≠ .SUCCESS then
            (.DEPTH_ERROR, (structural_stream.start_document (initial_state S p)).2)
          else (.SUCCESS, (structural_stream.start_document (initial_state S p)).2)) := by
      simp [structural_stream.start, structural_iterator.at_end, hp, h]
    rw [hs]
    constructor
    · intro hc
      exfalso
      split_ifs at hc with h1 h2 h2
      · simp at hc
      · simp at h2
      · simp at h2
      · revert hc
        simp only []
        split
        · exact run_ne_empty _ _ _ _ _
        · rename_i s1 e heq
          intro hc
          have hne := first_value_ne_empty S u
            (structural_stream.start_document (initial_state S p)).2
          simp only [Option.some.injEq, Prod.mk.injEq] at hc
          rw [heq, hc.1] at hne
          exact hne rfl
    · intro hc
      exact absurd hc.1 h

/-- C6: non-streaming parse returns EMPTY exactly when `n_structural_indexes` is 0,
and streaming parse returns EMPTY exactly when `next_structural_index` equals
`n_structural_indexes` on entry; whenever EMPTY is returned the final state is the
initial one: tape and string buffer are as the caller left them, both visitor
cursors are 0, and depth is 0. This holds for every amount of fuel, so EMPTY is
returned before the state machine runs. -/
theorem C6_empty_iff_no_structurals (u : leaf_utilities) (p : dom_parser_implementation)
    (fuel : Nat) (st : stage2_state) :
    (parse_structural_stream false u p fuel = some (.EMPTY, st)
      ↔ (p.n_structural_indexes = 0
          ∧ st = { parser := p, current_structural := 0, depth := 0, next_tape_loc := 0,
                   current_string_buf_loc := 0, uninit_reads := 0 }))
    ∧ (parse_structural_stream true u p fuel = some (.EMPTY, st)
      ↔ (p.next_structural_index = p.n_structural_indexes
          ∧ st = { parser := p, current_structural := p.next_structural_index, depth := 0,
                   next_tape_loc := 0, current_string_buf_loc := 0, uninit_reads := 0 })) := by
  constructor
  · rw [parse_empty_iff]
    constructor
    · rintro ⟨h1, h2⟩
      exact ⟨h1.symm, h2⟩
    · rintro ⟨h1, h2⟩
      exact ⟨h1.symm, h2⟩
  · rw [parse_empty_iff]
    exact Iff.rfl

/-! ## Depth limit -/

theorem stream_start_scope_max_depth (s : stage2_state) (b : Bool) :
    (structural_stream.start_scope s b).2.parser.max_depth = s.parser.max_depth := rfl

theorem stream_start_scope_depth (s : stage2_state) (b : Bool) :
    (structural_stream.start_scope s b).2.depth = (s.depth + 1) % 2 ^ 32 := rfl

theorem stream_start_scope_code (s : stage2_state) (b : Bool) :
    (structural_stream.start_scope s b).1
      = if (s.depth + 1) % 2 ^ 32 ≥ s.parser.max_depth then .DEPTH_ERROR else .SUCCESS := rfl

theorem nested_opens_max_depth (s : stage2_state) (k : Nat) :
    (nested_opens s k).2.parser.max_depth = s.parser.max_depth := by
  induction k with
  | zero => exact stream_start_scope_max_depth s false
  | succ n ih =>
    unfold nested_opens
    simp only []
    split
    · exact ih
    · rw [stream_start_scope_max_depth, ih]

theorem nested_opens_success (s : stage2_state) (k : Nat) (h0 : s.depth = 0)
    (h32 : s.parser.max_depth < 2 ^ 32) (hk : k + 2 ≤ s.parser.max_depth) :
    (nested_opens s k).1 = .SUCCESS ∧ (nested_opens s k).2.depth = k + 1 := by
  induction k with
  | zero =>
    have hd : (s.depth + 1) % 2 ^ 32 = 1 := by rw [h0]; rfl
    refine ⟨?_, ?_⟩
    · rw [nested_opens, structural_stream.start_document, stream_start_scope_code, hd]
      exact if_neg (by omega)
    · rw [nested_opens, structural_stream.start_document, stream_start_scope_depth, hd]
  | succ n ih =>
    have ih1 := ih (by omega)
    have hd : ((nested_opens s n).2.depth + 1) % 2 ^ 32 = n + 2 := by
      rw [ih1.2]
      exact Nat.mod_eq_of_lt (by omega)
    unfold nested_opens
    simp only [ih1.1, ne_eq, not_true_eq_false, if_false]
    refine ⟨?_, ?_⟩
    · rw [stream_start_scope_code, hd, nested_opens_max_depth]
      exact if_neg (by omega)
    · rw [stream_start_scope_depth, hd]

theorem nested_opens_depth_error (s : stage2_state) (k : Nat) (h0 : s.depth = 0)
    (h2 : 2 ≤ s.parser.max_depth) (h32 : s.parser.max_depth < 2 ^ 32)
    (hk : s.parser.max_depth ≤ k + 1) : (nested_opens s k).1 = .DEPTH_ERROR := by
  induction k with
  | zero => omega
  | succ n ih =>
    unfold nested_opens
    simp only []
    by_cases hn : s.parser.max_depth ≤ n + 1
    · rw [if_pos (by rw [ih hn]; simp)]
      exact ih hn
    · have hs := nested_opens_success s n h0 h32 (by omega)
      rw [if_neg (by rw [hs.1]; simp), stream_start_scope_code, hs.2, nested_opens_max_depth]
      have hd : (n + 1 + 1) % 2 ^ 32 = n + 2 := Nat.mod_eq_of_lt (by omega)
      rw [hd]
      exact if_pos (by omega)

theorem run_succ (u : leaf_utilities) (fuel : Nat) (l : structural_stream.label)
    (s : stage2_state) :
    structural_stream.run u (fuel + 1) l s
      = match structural_stream.step u l s with
        | (s1, .goto l1) => structural_stream.run u fuel l1 s1
        | (s1, .ret e) => some (e, s1) := rfl

theorem start_at_depth_zero (p : dom_parser_implementation) (hn : p.n_structural_indexes ≠ 0)
    (h2 : 2 ≤ p.max_depth) :
    structural_stream.start (initial_state false p)
      = (.SUCCESS,
          { parser := { p with is_array := store p.is_array 0 false }
            current_structural := 0
            depth := 1
            next_tape_loc := 0
            current_string_buf_loc := 0
            uninit_reads := 0 }) := by
  have h1 : ¬ p.max_depth ≤ 1 := by omega
  have hn0 : ¬ (0 = p.n_structural_indexes) := fun h => hn h.symm
  simp [structural_stream.start, structural_iterator.at_end, initial_state,
    structural_stream.start_document, structural_stream.start_scope, h1, hn0]

theorem empty_array_code (u : leaf_utilities) (p : dom_parser_implementation) (fuel : Nat)
    (hn : p.n_structural_indexes ≠ 0) (hfirst : p.buf (p.structural_indexes 0) = 91)
    (hsecond : p.buf (p.structural_indexes 1) = 93)
    (hlast : p.buf (p.structural_indexes (p.n_structural_indexes - 1)) = 93)
    (h2 : 2 ≤ p.max_depth) :
    (parse_structural_stream false u p (fuel + 3)).map (fun r => r.1)
      = some (if 3 ≤ p.max_depth then .SUCCESS else .DEPTH_ERROR) := by
  rw [parse_structural_stream_eq, start_at_depth_zero p hn h2]
  by_cases hmd : 3 ≤ p.max_depth
  · have h3 : ¬ p.max_depth ≤ 2 := by omega
    simp [structural_stream.first_value, structural_iterator.current_char,
      structural_iterator.current, hfirst, structural_stream.open_array,
      structural_stream.start_array, structural_stream.start_scope, h3,
      structural_parser_stream.start_array, structural_parser_stream.start_scope,
      tape_writer.skip, structural_parser_stream.next_tape_index, hlast, hmd]
    rw [run_succ]
    simp [structural_stream.step, structural_iterator.peek_next_char,
      structural_iterator.peek_char, structural_iterator.advance_char,
      structural_iterator.current_char, structural_iterator.current,
      structural_stream.close_array, structural_parser_stream.end_array,
      structural_parser_stream.end_scope, structural_stream.end_array,
      structural_stream.end_scope, tape_writer.append, tape_writer.write, hsecond]
    rw [run_succ]
    simp [structural_stream.step]
    rw [run_succ]
    simp [structural_stream.step, structural_stream.finish, structural_stream.end_document,
      structural_stream.end_scope]
  · have h3 : p.max_depth ≤ 2 := by omega
    simp [structural_stream.first_value, structural_iterator.current_char,
      structural_iterator.current, hfirst, structural_stream.open_array,
      structural_stream.start_array, structural_stream.start_scope, h3, hmd]

theorem empty_object_code (u : leaf_utilities) (p : dom_parser_implementation) (fuel : Nat)
    (hn : p.n_structural_indexes ≠ 0) (hfirst : p.buf (p.structural_indexes 0) = 123)
    (hsecond : p.buf (p.structural_indexes 1) = 125) (h2 : 2 ≤ p.max_depth) :
    (parse_structural_stream false u p (fuel + 3)).map (fun r => r.1)
      = some (if 3 ≤ p.max_depth then .SUCCESS else .DEPTH_ERROR) := by
  rw [parse_structural_stream_eq, start_at_depth_zero p hn h2]
  by_cases hmd : 3 ≤ p.max_depth
  · have h3 : ¬ p.max_depth ≤ 2 := by omega
    simp [structural_stream.first_value, structural_iterator.current_char,
      structural_iterator.current, hfirst, structural_stream.open_object,
      structural_stream.start_object, structural_stream.start_scope, h3,
      structural_stream.return_or_goto, structural_parser_stream.start_object,
      structural_parser_stream.start_scope, tape_writer.skip,
      structural_parser_stream.next_tape_index, hmd]
    rw [run_succ]
    simp [structural_stream.step, structural_iterator.advance_char,
      structural_iterator.current_char, structural_iterator.current,
      structural_stream.close_object, structural_parser_stream.end_object,
      structural_parser_stream.end_scope, structural_stream.end_object,
      structural_stream.end_scope, tape_writer.append, tape_writer.write, hsecond]
    rw [run_succ]
    simp [structural_stream.step]
    rw [run_succ]
    simp [structural_stream.step, structural_stream.finish, structural_stream.end_document,
      structural_stream.end_scope]
  · have h3 : p.max_depth ≤ 2 := by omega
    simp [structural_stream.first_value, structural_iterator.current_char,
      structural_iterator.current, hfirst, structural_stream.open_object,
      structural_stream.start_object, structural_stream.start_scope, h3, hmd,
      structural_stream.return_or_goto]

/-- C5, refuted as stated: with `max_depth` 2 the documents `[]` and `{}`, one
container deep (k = 1 = max_depth - 1), return DEPTH_ERROR, not SUCCESS. -/
theorem C5_one_container_at_max_depth_two :
    (parse_structural_stream false (rejecting_utilities 0) (parser_of [91, 93] [0, 1] 2 0) 10).map
        (fun r => r.1) = some .DEPTH_ERROR
    ∧ (parse_structural_stream false (rejecting_utilities 0) (parser_of [123, 125] [0, 1] 2 0) 10).map
        (fun r => r.1) = some .DEPTH_ERROR := by
  decide

/-- C5, amended: the document scope counts as depth 1. For every parser with
`2 ≤ max_depth < 2^32`: `start_document` followed by the `start_scope` calls of `k`
nested containers all return SUCCESS and leave depth `k + 1` when
`k ≤ max_depth - 2`, and a call returns DEPTH_ERROR when `k ≥ max_depth - 1`. In
particular a document that consists of one empty container (`[` `]` or `{` `}` as
its first two structurals, these being all of them for the array) parses with
SUCCESS when `max_depth ≥ 3` and returns DEPTH_ERROR when `max_depth = 2`. -/
theorem C5_depth_limit (u : leaf_utilities) (p : dom_parser_implementation) (k fuel : Nat)
    (h2 : 2 ≤ p.max_depth) (h32 : p.max_depth < 2 ^ 32) :
    (k + 2 ≤ p.max_depth →
        (nested_opens (initial_state false p) k).1 = .SUCCESS
        ∧ (nested_opens (initial_state false p) k).2.depth = k + 1)
    ∧ (p.max_depth ≤ k + 1 → (nested_opens (initial_state false p) k).1 = .DEPTH_ERROR)
    ∧ (p.n_structural_indexes ≠ 0 → p.buf (p.structural_indexes 0) = 91 →
        p.buf (p.structural_indexes 1) = 93 →
        p.buf (p.structural_indexes (p.n_structural_indexes - 1)) = 93 →
        (parse_structural_stream false u p (fuel + 3)).map (fun r => r.1)
          = some (if 3 ≤ p.max_depth then .SUCCESS else .DEPTH_ERROR))
    ∧ (p.n_structural_indexes ≠ 0 → p.buf (p.structural_indexes 0) = 123 →
        p.buf (p.structural_indexes 1) = 125 →
        (parse_structural_stream false u p (fuel + 3)).map (fun r => r.1)
          = some (if 3 ≤ p.max_depth then .SUCCESS else .DEPTH_ERROR)) :=
  ⟨nested_opens_success (initial_state false p) k rfl h32,
    nested_opens_depth_error (initial_state false p) k rfl h2 h32,
    fun hn hf hs hl => empty_array_code u p fuel hn hf hs hl h2,
    fun hn hf hs => empty_object_code u p fuel hn hf hs h2⟩

/-- Witness for `C5_depth_limit`: with `max_depth` 3 the one container of `[]` is
opened at depth 2 with SUCCESS, and the document parses with SUCCESS. -/
theorem C5_depth_limit_witness :
    ((nested_opens (initial_state false (parser_of [91, 93] [0, 1] 3 0)) 1).1 = .SUCCESS
      ∧ (nested_opens (initial_state false (parser_of [91, 93] [0, 1] 3 0)) 1).2.depth = 2)
    ∧ (parse_structural_stream false (rejecting_utilities 0) (parser_of [91, 93] [0, 1] 3 0)
        (0 + 3)).map (fun r => r.1) = some .SUCCESS :=
  have h := C5_depth_limit (rejecting_utilities 0) (parser_of [91, 93] [0, 1] 3 0) 1 0
    (by decide) (by decide)
  ⟨h.1 (by decide), h.2.2.1 (by decide) (by decide) (by decide) (by decide)⟩

/-! ## Value dispatch and the root array -/

/-- C7, evaluated at the input `[1]` (structurals at 0, 1, 2, `max_depth` 4) with
utilities that accept every number. The byte after `[` is the digit `1`. When the
uninitialised pointer of `main_array_switch` holds offset 2 (the byte `]`), parse
returns TAPE_ERROR and no number is written (the tape cursor stays at 1, behind the
reserved header); when it holds offset 0 (the byte `[`), a second array scope is
opened instead of the number being read (depth 3 is reached). -/
theorem C7_array_value_not_taken_from_structural :
    (parse_structural_stream false (accepting_utilities [2])
        (parser_of [91, 49, 93] [0, 1, 2] 4 0) 20).map
        (fun r => (r.1, r.2.next_tape_loc, r.2.current_structural))
      = some (.TAPE_ERROR, 1, 0)
    ∧ (structural_stream.step (accepting_utilities [0]) .main_array_switch
        (structural_stream.open_array
          (structural_stream.start (initial_state false (parser_of [91, 49, 93] [0, 1, 2] 4 0))).2
          false).2).2 = .goto .array_begin
    ∧ (structural_stream.step (accepting_utilities [0]) .main_array_switch
        (structural_stream.open_array
          (structural_stream.start (initial_state false (parser_of [91, 49, 93] [0, 1, 2] 4 0))).2
          false).2).1.depth = 3 := by
  decide

/-- C8, refuted as stated: with `max_depth` 2 the inputs `[1` and `[` return
DEPTH_ERROR, not TAPE_ERROR, because `start_array` reports the depth before the last
structural is examined. -/
theorem C8_depth_error_comes_first :
    (parse_structural_stream false (rejecting_utilities 0) (parser_of [91, 49] [0, 1] 2 0) 10).map
        (fun r => r.1) = some .DEPTH_ERROR
    ∧ (parse_structural_stream false (rejecting_utilities 0) (parser_of [91] [0] 2 0) 10).map
        (fun r => r.1) = some .DEPTH_ERROR := by
  decide

/-- C8, amended: in non-streaming mode, for every input with at least one structural
whose first structural byte is `[` and whose last structural byte is not `]`, and
with `max_depth ≥ 3`, parse returns TAPE_ERROR for every amount of fuel, in the
state reached right after the array scope was opened: the header word is reserved
(tape cursor 1), and tape contents, string buffer and structural cursor are
untouched. In streaming mode the last structural is not examined: on `[]{` streaming
parse returns SUCCESS where non-streaming parse returns TAPE_ERROR. -/
theorem C8_root_array_must_end_with_bracket (u : leaf_utilities) (p : dom_parser_implementation)
    (fuel : Nat) (hn : p.n_structural_indexes ≠ 0)
    (hfirst : p.buf (p.structural_indexes 0) = 91)
    (hlast : p.buf (p.structural_indexes (p.n_structural_indexes - 1)) ≠ 93)
    (hmd : 3 ≤ p.max_depth) :
    parse_structural_stream false u p fuel
      = some (.TAPE_ERROR,
          { parser := { p with
              is_array := store (store p.is_array 0 false) 1 false
              containing_scope := store p.containing_scope 2 ⟨0, 0⟩ }
            current_structural := 0
            depth := 2
            next_tape_loc := 1
            current_string_buf_loc := 0
            uninit_reads := 0 })
    ∧ (parse_structural_stream true u (parser_of [91, 93, 123] [0, 1, 2] 3 0) 10).map
        (fun r => r.1) = some .SUCCESS
    ∧ (parse_structural_stream false u (parser_of [91, 93, 123] [0, 1, 2] 3 0) 10).map
        (fun r => r.1) = some .TAPE_ERROR := by
  refine ⟨?_, rfl, rfl⟩
  have h1 : ¬ p.max_depth ≤ 1 := by omega
  have h2 : ¬ p.max_depth ≤ 2 := by omega
  have hn0 : ¬ (0 = p.n_structural_indexes) := fun h => hn h.symm
  rw [parse_structural_stream_eq]
  have hstart : structural_stream.start (initial_state false p)
      = (.SUCCESS,
          { parser := { p with is_array := store p.is_array 0 false }
            current_structural := 0
            depth := 1
            next_tape_loc := 0
            current_string_buf_loc := 0
            uninit_reads := 0 }) := by
    simp [structural_stream.start, structural_iterator.at_end, initial_state,
      structural_stream.start_document, structural_stream.start_scope, h1, hn0]
  rw [hstart]
  simp [structural_stream.first_value, structural_iterator.current_char,
    structural_iterator.current, hfirst, structural_stream.open_array,
    structural_stream.start_array, structural_stream.start_scope, h2,
    structural_parser_stream.start_array, structural_parser_stream.start_scope, tape_writer.skip,
    structural_parser_stream.next_tape_index, hlast]

/-- Witness for `C8_root_array_must_end_with_bracket`: the input `[1` with
`max_depth` 3. -/
theorem C8_root_array_must_end_with_bracket_witness :
    (parse_structural_stream false (rejecting_utilities 0) (parser_of [91, 49] [0, 1] 3 0) 0).map
      (fun r => r.1) = some .TAPE_ERROR := by
  rw [(C8_root_array_must_end_with_bracket (rejecting_utilities 0) (parser_of [91, 49] [0, 1] 3 0) 0
    (by decide) (by decide) (by decide) (by decide)).1]
  rfl

/-! ## Strings -/

/-- C9, evaluated on every source position: `string(src)` and `key(src)` return
STRING_ERROR whether the unescape primitive fails or succeeds; in particular they
return STRING_ERROR, not SUCCESS, for utilities whose unescape succeeds. -/
theorem C9_string_and_key_return_string_error (u : leaf_utilities) (s : stage2_state)
    (src : Nat) :
    (structural_parser_stream.string u s src).1 = .STRING_ERROR
    ∧ (structural_parser_stream.key u s src).1 = .STRING_ERROR
    ∧ (accepting_utilities []).parse_string s.parser.buf src = some []
    ∧ (structural_parser_stream.string (accepting_utilities []) s src).1 = .STRING_ERROR
    ∧ (structural_parser_stream.key (accepting_utilities []) s src).1 = .STRING_ERROR :=
  ⟨parse_string_code u s src, parse_string_code u s src, rfl, parse_string_code _ s src,
    parse_string_code _ s src⟩

theorem store_bytes_inside (m : Nat → Nat) (i : Nat) (bs : List Nat) (k : Nat)
    (hk : k < bs.length) : store_bytes m i bs (i + k) = bs.getD k 0 % 256 := by
  unfold store_bytes
  rw [if_pos ⟨by omega, by omega⟩, Nat.add_sub_cancel_left]

theorem store_bytes_outside (m : Nat → Nat) (i : Nat) (bs : List Nat) (j : Nat)
    (hj : j < i ∨ i + bs.length ≤ j) : store_bytes m i bs j = m j := by
  unfold store_bytes
  rw [if_neg (by omega)]

theorem parse_string_some (u : leaf_utilities) (s : stage2_state) (src : Nat) (out : List Nat)
    (h : u.parse_string s.parser.buf src = some out) :
    (structural_parser_stream.parse_string u s src).2
      = structural_parser_stream.on_end_string
          { (tape_writer.append s s.current_string_buf_loc .STRING) with
            parser := { (tape_writer.append s s.current_string_buf_loc .STRING).parser with
              string_buf := store_bytes s.parser.string_buf (s.current_string_buf_loc + 4) out } }
          (s.current_string_buf_loc + 4 + out.length) := by
  unfold structural_parser_stream.parse_string
  simp only [structural_parser_stream.on_start_string, h]
  rfl

theorem parse_string_buf (u : leaf_utilities) (s : stage2_state) (src : Nat) :
    (structural_parser_stream.parse_string u s src).2.parser.buf = s.parser.buf := by
  unfold structural_parser_stream.parse_string
  simp only [structural_parser_stream.on_start_string]
  split <;> rfl

theorem parse_string_cursor (u : leaf_utilities) (s : stage2_state) (src : Nat) :
    (structural_parser_stream.parse_string u s src).2.current_string_buf_loc
      = s.current_string_buf_loc + string_region u s.parser.buf src := by
  unfold structural_parser_stream.parse_string string_region
  simp only [structural_parser_stream.on_start_string]
  cases h : u.parse_string s.parser.buf src with
  | none => rfl
  | some out =>
    simp only [structural_parser_stream.on_end_string, tape_writer.append]
    omega

theorem parse_strings_cursor (u : leaf_utilities) (srcs : List Nat) (s : stage2_state) :
    (parse_strings u s srcs).current_string_buf_loc
      = s.current_string_buf_loc + (srcs.map (string_region u s.parser.buf)).sum := by
  induction srcs generalizing s with
  | nil => simp [parse_strings]
  | cons src rest ih =>
    rw [parse_strings, ih, parse_string_cursor, parse_string_buf]
    simp only [List.map_cons, List.sum_cons]
    omega

/-- C10: let the unescape of the string at `src` succeed with the bytes `out` (each
below 256, fewer than `2^32` of them) while the string-buffer cursor is at offset `o`
(below `2^56`). Then `parse_string` appends one tape word, a STRING word with
payload `o`; bytes `o..o+3` of the string buffer hold the length of `out` in
little-endian order; the following bytes hold `out`; the byte after them is 0; the
cursor becomes `o + length + 5`; and no byte below `o` changes. Moreover, for every
run of strings parsed one after the other from any state, the cursor ends at the
starting offset plus the sum of `length + 5` over the strings whose unescape
succeeded, so the regions of successive strings are adjacent and disjoint. -/
theorem C10_string_buffer_layout (u : leaf_utilities) (s : stage2_state) (src : Nat)
    (out : List Nat) (hok : u.parse_string s.parser.buf src = some out)
    (hlen : out.length < 2 ^ 32) (ho : s.current_string_buf_loc < 2 ^ 56)
    (hbytes : ∀ b ∈ out, b < 256) :
    (structural_parser_stream.parse_string u s src).2.next_tape_loc = s.next_tape_loc + 1
    ∧ word_tag ((structural_parser_stream.parse_string u s src).2.parser.tape s.next_tape_loc)
        = tape_type.STRING.code
    ∧ word_payload ((structural_parser_stream.parse_string u s src).2.parser.tape s.next_tape_loc)
        = s.current_string_buf_loc
    ∧ (∀ i, i < 4 →
        (structural_parser_stream.parse_string u s src).2.parser.string_buf
          (s.current_string_buf_loc + i) = out.length / 256 ^ i % 256)
    ∧ (∀ i, i < out.length →
        (structural_parser_stream.parse_string u s src).2.parser.string_buf
          (s.current_string_buf_loc + 4 + i) = out.getD i 0)
    ∧ (structural_parser_stream.parse_string u s src).2.parser.string_buf
        (s.current_string_buf_loc + 4 + out.length) = 0
    ∧ (structural_parser_stream.parse_string u s src).2.current_string_buf_loc
        = s.current_string_buf_loc + out.length + 5
    ∧ (∀ j, j < s.current_string_buf_loc →
        (structural_parser_stream.parse_string u s src).2.parser.string_buf j
          = s.parser.string_buf j)
    ∧ (∀ (srcs : List Nat) (t : stage2_state),
        (parse_strings u t srcs).current_string_buf_loc
          = t.current_string_buf_loc + (srcs.map (string_region u t.parser.buf)).sum) := by
  rw [parse_string_some u s src out hok]
  have hL : (s.current_string_buf_loc + 4 + out.length - (s.current_string_buf_loc + 4)) % 2 ^ 32
      = out.length := by
    rw [Nat.add_sub_cancel_left]
    exact Nat.mod_eq_of_lt hlen
  refine ⟨rfl, ?_, ?_, ?_, ?_, ?_, ?_, ?_, fun srcs t => parse_strings_cursor u srcs t⟩
  · simp only [structural_parser_stream.on_end_string, tape_writer.append, store_same]
    exact word_tag_tape_word _ _
  · simp only [structural_parser_stream.on_end_string, tape_writer.append, store_same]
    rw [word_payload_tape_word]
    exact Nat.mod_eq_of_lt ho
  · intro i hi
    simp only [structural_parser_stream.on_end_string, tape_writer.append, hL]
    rw [store_other _ _ _ _ (by omega), store_bytes_inside _ _ _ _ (by simpa using hi)]
    have h4 : i = 0 ∨ i = 1 ∨ i = 2 ∨ i = 3 := by omega
    rcases h4 with h | h | h | h <;> subst h <;>
      simp [Nat.shiftRight_eq_div_pow]
  · intro i hi
    simp only [structural_parser_stream.on_end_string, tape_writer.append, hL]
    rw [store_other _ _ _ _ (by omega), store_bytes_outside _ _ _ _ (by simp),
      store_bytes_inside _ _ _ _ hi]
    have hb : out.getD i 0 < 256 := by
      rw [List.getD_eq_getElem _ _ hi]
      exact hbytes _ (List.getElem_mem _)
    exact Nat.mod_eq_of_lt hb
  · simp only [structural_parser_stream.on_end_string, tape_writer.append, store_same]
  · simp only [structural_parser_stream.on_end_string, tape_writer.append]
    omega
  · intro j hj
    simp only [structural_parser_stream.on_end_string, tape_writer.append]
    rw [store_other _ _ _ _ (by omega), store_bytes_outside _ _ _ _ (by omega),
      store_bytes_outside _ _ _ _ (by omega)]

/-- Witness for `C10_string_buffer_layout`: the one-byte string `x` unescaped at
offset 0 of a blank string buffer gives the bytes `01 00 00 00 'x' 00` and moves the
cursor to 6. -/
theorem C10_string_buffer_layout_witness :
    (structural_parser_stream.parse_string (unescaping_utilities [120]) (blank_state 0) 0).2.parser.string_buf
        (0 + 0) = 1
    ∧ (structural_parser_stream.parse_string (unescaping_utilities [120]) (blank_state 0) 0).2.parser.string_buf
        (0 + 4 + 0) = 120
    ∧ (structural_parser_stream.parse_string (unescaping_utilities [120]) (blank_state 0) 0).2.parser.string_buf
        (0 + 4 + 1) = 0
    ∧ (structural_parser_stream.parse_string (unescaping_utilities [120])
        (blank_state 0) 0).2.current_string_buf_loc = 6 :=
  have h := C10_string_buffer_layout (unescaping_utilities [120]) (blank_state 0) 0 [120] rfl
    (by decide) (by decide) (by decide)
  ⟨h.2.2.2.1 0 (by decide), h.2.2.2.2.1 0 (by decide), h.2.2.2.2.2.1, h.2.2.2.2.2.2.1⟩

/-! ## Tape frame of the visitor operations -/

theorem close_object_eq (s : stage2_state) :
    structural_stream.close_object s
      = (structural_stream.end_object (structural_parser_stream.end_object s s.depth).2,
          .goto .scope_end) := by
  simp [structural_stream.close_object, structural_parser_stream.end_object,
    structural_parser_stream.end_scope]

theorem close_array_eq (s : stage2_state) :
    structural_stream.close_array s
      = (structural_stream.end_array (structural_parser_stream.end_array s s.depth).2,
          .goto .scope_end) := by
  simp [structural_stream.close_array, structural_parser_stream.end_array,
    structural_parser_stream.end_scope]

theorem end_scope_tape (s : stage2_state) (depth : Nat) (start fin : tape_type) (i : Nat) :
    i = s.next_tape_loc ∨ i = (s.parser.containing_scope depth).tape_index
      ∨ (structural_parser_stream.end_scope s depth start fin).2.parser.tape i = s.parser.tape i := by
  by_cases h1 : i = s.next_tape_loc
  · exact Or.inl h1
  · by_cases h2 : i = (s.parser.containing_scope depth).tape_index
    · exact Or.inr (Or.inl h2)
    · right
      right
      simp only [structural_parser_stream.end_scope, tape_writer.write, tape_writer.append]
      rw [store_other _ _ _ _ h2, store_other _ _ _ _ h1]

theorem start_scope_tape (s : stage2_state) (depth : Nat) :
    (structural_parser_stream.start_scope s depth).2.parser.tape = s.parser.tape := rfl

theorem append_tape_below (s : stage2_state) (payload : Nat) (tag : tape_type) (i : Nat) :
    s.next_tape_loc ≤ i ∨ (tape_writer.append s payload tag).parser.tape i = s.parser.tape i := by
  by_cases h : s.next_tape_loc ≤ i
  · exact Or.inl h
  · right
    simp only [tape_writer.append]
    exact store_other _ _ _ _ (by omega)

theorem parse_string_tape_below (u : leaf_utilities) (s : stage2_state) (src i : Nat) :
    s.next_tape_loc ≤ i
      ∨ (structural_parser_stream.parse_string u s src).2.parser.tape i = s.parser.tape i := by
  unfold structural_parser_stream.parse_string
  simp only [structural_parser_stream.on_start_string]
  cases u.parse_string s.parser.buf src with
  | none => exact append_tape_below s _ _ i
  | some out => exact append_tape_below s _ _ i

theorem number_in_tape_below (u : leaf_utilities) (s : stage2_state) (mem : Nat → Nat)
    (src i : Nat) :
    s.next_tape_loc ≤ i
      ∨ (structural_parser_stream.number_in u s mem src).2.parser.tape i = s.parser.tape i := by
  unfold structural_parser_stream.number_in
  cases u.parse_number mem src with
  | none => exact Or.inr rfl
  | some kv =>
    by_cases h : s.next_tape_loc ≤ i
    · exact Or.inl h
    · right
      simp only [tape_writer.append_raw, tape_writer.append]
      rw [store_other _ _ _ _ (by omega), store_other _ _ _ _ (by omega)]

theorem number_len_tape_below (u : leaf_utilities) (s : stage2_state) (src n i : Nat) :
    s.next_tape_loc ≤ i
      ∨ (structural_parser_stream.number_len u s src n).2.parser.tape i = s.parser.tape i := by
  unfold structural_parser_stream.number_len
  split
  · exact number_in_tape_below _ _ _ _ _
  · exact Or.inr rfl

theorem atom_tape_below (s : stage2_state) (b : Bool) (tag : tape_type) (e : error_code)
    (i : Nat) :
    s.next_tape_loc ≤ i
      ∨ (if b = true then (error_code.SUCCESS, tape_writer.append s 0 tag) else (e, s)).2.parser.tape i
          = s.parser.tape i := by
  cases b with
  | false => exact Or.inr rfl
  | true => exact append_tape_below s _ _ i

theorem open_scope_tape (s : stage2_state) (b : Bool) :
    (structural_stream.open_object s b).2.parser.tape = s.parser.tape := by
  unfold structural_stream.open_object
  simp only []
  split <;> rfl

theorem value_switch_tape_below (u : leaf_utilities) (s : stage2_state) (value : Nat) (b : Bool)
    (next : structural_stream.label) (i : Nat) :
    s.next_tape_loc ≤ i
      ∨ (structural_stream.value_switch u s value b next).1.parser.tape i = s.parser.tape i := by
  unfold structural_stream.value_switch
  simp only []
  split_ifs
  · rw [return_or_goto_state, open_scope_tape]
    exact Or.inr rfl
  · rw [return_or_goto_state]
    exact Or.inr (congrFun (open_scope_tape s b) i)
  · rw [return_or_goto_state]
    exact parse_string_tape_below _ _ _ _
  · rw [return_or_goto_state]
    exact atom_tape_below _ _ _ _ _
  · rw [return_or_goto_state]
    exact atom_tape_below _ _ _ _ _
  · rw [return_or_goto_state]
    exact atom_tape_below _ _ _ _ _
  · rw [return_or_goto_state]
    exact number_in_tape_below _ _ _ _ _
  · exact Or.inr rfl

theorem first_value_tape_below (S : Bool) (u : leaf_utilities) (s : stage2_state) (i : Nat) :
    s.next_tape_loc ≤ i
      ∨ (structural_stream.first_value S u s).1.parser.tape i = s.parser.tape i := by
  unfold structural_stream.first_value
  simp only []
  split_ifs
  · rw [return_or_goto_state, open_scope_tape]
    exact Or.inr rfl
  · exact Or.inr (congrFun (open_scope_tape s false) i)
  · exact Or.inr (congrFun (open_scope_tape s false) i)
  · exact Or.inr (congrFun (open_scope_tape s false) i)
  · rw [return_or_goto_state]
    exact parse_string_tape_below _ _ _ _
  · rw [return_or_goto_state]
    exact atom_tape_below _ _ _ _ _
  · rw [return_or_goto_state]
    exact atom_tape_below _ _ _ _ _
  · rw [return_or_goto_state]
    exact atom_tape_below _ _ _ _ _
  · rw [return_or_goto_state]
    exact number_len_tape_below _ _ _ _ _
  · exact Or.inr rfl

theorem close_tape_below (s : stage2_state) (i : Nat) :
    s.next_tape_loc ≤ i
      ∨ (structural_stream.close_object s).1.parser.tape i = s.parser.tape i
      ∨ ((structural_stream.close_object s).2 = .goto .scope_end
          ∧ i = (s.parser.containing_scope s.depth).tape_index) := by
  rw [close_object_eq]
  rcases end_scope_tape s s.depth .START_OBJECT .END_OBJECT i with h | h | h
  · exact Or.inl (by omega)
  · exact Or.inr (Or.inr ⟨rfl, h⟩)
  · exact Or.inr (Or.inl h)

theorem close_array_tape_below (s : stage2_state) (i : Nat) :
    s.next_tape_loc ≤ i
      ∨ (structural_stream.close_array s).1.parser.tape i = s.parser.tape i
      ∨ ((structural_stream.close_array s).2 = .goto .scope_end
          ∧ i = (s.parser.containing_scope s.depth).tape_index) := by
  rw [close_array_eq]
  rcases end_scope_tape s s.depth .START_ARRAY .END_ARRAY i with h | h | h
  · exact Or.inl (by omega)
  · exact Or.inr (Or.inr ⟨rfl, h⟩)
  · exact Or.inr (Or.inl h)

theorem or_weaken {a b c : Prop} (h : a ∨ b) : a ∨ b ∨ c := by
  rcases h with h | h
  · exact Or.inl h
  · exact Or.inr (Or.inl h)

theorem step_tape_below (u : leaf_utilities) (l : structural_stream.label) (s : stage2_state)
    (i : Nat) :
    s.next_tape_loc ≤ i
      ∨ (structural_stream.step u l s).1.parser.tape i = s.parser.tape i
      ∨ ((structural_stream.step u l s).2 = .goto .scope_end
          ∧ i = (s.parser.containing_scope s.depth).tape_index) := by
  have hkey := parse_string_tape_below u (structural_iterator.advance_char s).2
    (structural_iterator.current (structural_iterator.advance_char s).2) i
  have hkey2 := parse_string_tape_below u
    (structural_iterator.advance (structural_iterator.advance_char s).2).2
    (structural_iterator.advance (structural_iterator.advance_char s).2).1 i
  have hobj := value_switch_tape_below u
    (structural_iterator.advance (structural_iterator.advance_char s).2).2
    (structural_iterator.advance (structural_iterator.advance_char s).2).1 false
    .object_continue i
  have harr := value_switch_tape_below u { s with uninit_reads := s.uninit_reads + 1 }
    (u.uninit_value s.uninit_reads) true .array_continue i
  have hco := close_tape_below (structural_iterator.advance_char s).2 i
  have hca := close_array_tape_below (structural_iterator.advance_char s).2 i
  cases l <;> simp only [structural_stream.step, structural_iterator.advance_char,
    structural_iterator.advance]
  · split_ifs
    · rw [return_or_goto_state]
      exact or_weaken hkey
    · exact hco
    · exact Or.inr (Or.inl rfl)
  · split_ifs
    · exact Or.inr (Or.inl rfl)
    · exact or_weaken hobj
  · split_ifs
    · exact Or.inr (Or.inl rfl)
    · rw [return_or_goto_state]
      exact or_weaken hkey2
    · exact hco
    · exact Or.inr (Or.inl rfl)
  · split_ifs <;> exact Or.inr (Or.inl rfl)
  · split_ifs
    · exact hca
    · exact Or.inr (Or.inl rfl)
  · exact or_weaken harr
  · split_ifs
    · exact Or.inr (Or.inl rfl)
    · exact hca
    · exact Or.inr (Or.inl rfl)
  · exact Or.inr (Or.inl rfl)

/-- C20: for every state, `end_scope(depth, start, end)` advances the tape cursor by
one and leaves every tape word unchanged except the word at the cursor (where the END
word is written) and the word at the scope's stored `tape_index` (where the header is
written). Every other visitor operation (`start_scope`, `key`, `string`, both
`number`s, the six atom operations) leaves every word below the cursor unchanged.
Hence a block of the state machine, and the first-value block, leave every word below
the cursor unchanged, except that a block that closes a container (it ends with
`goto scope_end`) may rewrite the word at the `tape_index` of the scope record at the
current depth. -/
theorem C20_tape_writes (u : leaf_utilities) (s : stage2_state) (depth : Nat)
    (start fin : tape_type) (src n : Nat) (S : Bool) (l : structural_stream.label) (i : Nat) :
    (structural_parser_stream.end_scope s depth start fin).2.next_tape_loc = s.next_tape_loc + 1
    ∧ word_tag ((structural_parser_stream.end_scope s depth start fin).2.parser.tape
        (s.parser.containing_scope depth).tape_index) = start.code
    ∧ ((s.parser.containing_scope depth).tape_index = s.next_tape_loc
        ∨ (structural_parser_stream.end_scope s depth start fin).2.parser.tape s.next_tape_loc
            = tape_word (s.parser.containing_scope depth).tape_index fin)
    ∧ (i = s.next_tape_loc ∨ i = (s.parser.containing_scope depth).tape_index
        ∨ (structural_parser_stream.end_scope s depth start fin).2.parser.tape i
            = s.parser.tape i)
    ∧ (structural_parser_stream.start_scope s depth).2.parser.tape = s.parser.tape
    ∧ (s.next_tape_loc ≤ i
        ∨ (structural_parser_stream.key u s src).2.parser.tape i = s.parser.tape i)
    ∧ (s.next_tape_loc ≤ i
        ∨ (structural_parser_stream.string u s src).2.parser.tape i = s.parser.tape i)
    ∧ (s.next_tape_loc ≤ i
        ∨ (structural_parser_stream.number u s src).2.parser.tape i = s.parser.tape i)
    ∧ (s.next_tape_loc ≤ i
        ∨ (structural_parser_stream.number_len u s src n).2.parser.tape i = s.parser.tape i)
    ∧ (s.next_tape_loc ≤ i
        ∨ (structural_parser_stream.true_atom u s src).2.parser.tape i = s.parser.tape i)
    ∧ (s.next_tape_loc ≤ i
        ∨ (structural_parser_stream.true_atom_len u s src n).2.parser.tape i = s.parser.tape i)
    ∧ (s.next_tape_loc ≤ i
        ∨ (structural_parser_stream.false_atom u s src).2.parser.tape i = s.parser.tape i)
    ∧ (s.next_tape_loc ≤ i
        ∨ (structural_parser_stream.false_atom_len u s src n).2.parser.tape i = s.parser.tape i)
    ∧ (s.next_tape_loc ≤ i
        ∨ (structural_parser_stream.null_atom u s src).2.parser.tape i = s.parser.tape i)
    ∧ (s.next_tape_loc ≤ i
        ∨ (structural_parser_stream.null_atom_len u s src n).2.parser.tape i = s.parser.tape i)
    ∧ (s.next_tape_loc ≤ i
        ∨ (structural_stream.first_value S u s).1.parser.tape i = s.parser.tape i)
    ∧ (s.next_tape_loc ≤ i
        ∨ (structural_stream.step u l s).1.parser.tape i = s.parser.tape i
        ∨ ((structural_stream.step u l s).2 = .goto .scope_end
            ∧ i = (s.parser.containing_scope s.depth).tape_index)) := by
  refine ⟨rfl, ?_, ?_, end_scope_tape s depth start fin i, rfl,
    parse_string_tape_below u s src i, parse_string_tape_below u s src i,
    number_in_tape_below u s _ src i, number_len_tape_below u s src n i,
    atom_tape_below s _ _ _ i, atom_tape_below s _ _ _ i, atom_tape_below s _ _ _ i,
    atom_tape_below s _ _ _ i, atom_tape_below s _ _ _ i, atom_tape_below s _ _ _ i,
    first_value_tape_below S u s i, step_tape_below u l s i⟩
  · rw [end_scope_header, word_tag, Nat.shiftRight_eq_div_pow]
    have h1 := Nat.mod_lt (s.next_tape_loc + 1) (show 0 < 2 ^ 32 by norm_num)
    have h2 : min (s.parser.containing_scope depth).count 0xFFFFFF ≤ 0xFFFFFF :=
      Nat.min_le_right _ _
    omega
  · by_cases h : (s.parser.containing_scope depth).tape_index = s.next_tape_loc
    · exact Or.inl h
    · right
      simp only [structural_parser_stream.end_scope, tape_writer.write, tape_writer.append]
      rw [store_other _ _ _ _ (fun hc => h hc.symm), store_same]

/-! ## The end-to-end examples -/

/-- C11, evaluated at the streaming input `{"a":1}{"b":2}` (structurals at offsets
0, 1, 4, 5, 6, 7, 8, 11, 12, 13, `next_structural_index` 0) with utilities whose
unescape succeeds: the first call returns STRING_ERROR at the key `"a"` and leaves
`next_structural_index` at 0, not at 5. On `{}{}`, where no string is involved, the
first call returns SUCCESS with `next_structural_index` 2, the index of the second
`{`, and the second call, started from the parser the first call left, returns
SUCCESS with `next_structural_index` 4. In general `finish` publishes the cursor
plus one, and a streaming parse starts at `next_structural_index`. -/
theorem C11_streaming_stops_at_the_first_key (s : stage2_state) (p : dom_parser_implementation) :
    (parse_structural_stream true (unescaping_utilities [97])
        (parser_of [123, 34, 97, 34, 58, 49, 125, 123, 34, 98, 34, 58, 50, 125]
          [0, 1, 4, 5, 6, 7, 8, 11, 12, 13] 4 0) 30).map
        (fun r => (r.1, r.2.parser.next_structural_index)) = some (.STRING_ERROR, 0)
    ∧ (parse_structural_stream true (unescaping_utilities [97])
        (parser_of [123, 125, 123, 125] [0, 1, 2, 3] 4 0) 30).map
        (fun r => (r.1, r.2.parser.next_structural_index)) = some (.SUCCESS, 2)
    ∧ ((parse_structural_stream true (unescaping_utilities [97])
        (parser_of [123, 125, 123, 125] [0, 1, 2, 3] 4 0) 30).bind
          (fun r => parse_structural_stream true (unescaping_utilities [97]) r.2.parser 30)).map
        (fun r => (r.1, r.2.parser.next_structural_index)) = some (.SUCCESS, 4)
    ∧ (structural_stream.finish s).2.parser.next_structural_index
        = (s.current_structural + 1) % 2 ^ 32
    ∧ (initial_state true p).current_structural = p.next_structural_index := by
  refine ⟨by decide, by decide, by decide, rfl, rfl⟩

/-- C13, evaluated at the root scalars `"x"`, `true` and `42` (one structural at
offset 0, `max_depth` 2) with utilities that accept every string, atom and number:
`true` and `42` return SUCCESS with depth 0 and one resp. two tape words, and `"x"`
returns STRING_ERROR, at depth 1, although its bytes were unescaped into the string
buffer. -/
theorem C13_root_string_returns_string_error :
    (parse_structural_stream false (unescaping_utilities [120]) (parser_of [34, 120, 34] [0] 2 0)
        30).map (fun r => (r.1, r.2.depth, r.2.next_tape_loc, r.2.parser.string_buf 0,
          r.2.parser.string_buf 4, r.2.current_string_buf_loc))
      = some (.STRING_ERROR, 1, 1, 1, 120, 6)
    ∧ (parse_structural_stream false (unescaping_utilities [120])
        (parser_of [116, 114, 117, 101] [0] 2 0) 30).map
        (fun r => (r.1, r.2.depth, r.2.next_tape_loc, word_tag (r.2.parser.tape 0)))
      = some (.SUCCESS, 0, 1, tape_type.TRUE_VALUE.code)
    ∧ (parse_structural_stream false (unescaping_utilities [120]) (parser_of [52, 50] [0] 2 0)
        30).map (fun r => (r.1, r.2.depth, r.2.next_tape_loc, word_tag (r.2.parser.tape 0)))
      = some (.SUCCESS, 0, 2, tape_type.INT64.code) := by
  decide

/-- C15, evaluated at `{"a":true}` with structural index [0, 1, 4, 5, 9]
(`max_depth` 4) and utilities whose unescape yields the byte `a`: parse returns
STRING_ERROR after the key. The string buffer does begin with `01 00 00 00 'a' 00`,
but only two tape positions are consumed: position 0, the reserved and never written
object header, and position 1, the STRING word with payload 0. -/
theorem C15_object_with_key_returns_string_error :
    (parse_structural_stream false (unescaping_utilities [97])
        (parser_of [123, 34, 97, 34, 58, 116, 114, 117, 101, 125] [0, 1, 4, 5, 9] 4 0) 30).map
        (fun r => (r.1, r.2.next_tape_loc, r.2.parser.tape 0, r.2.parser.tape 1,
          (List.range 6).map r.2.parser.string_buf))
      = some (.STRING_ERROR, 2, 0, tape_word 0 .STRING, [1, 0, 0, 0, 97, 0]) := by
  decide

/-- C16, evaluated at the unclosed input `{"a":1` (structurals at 0, 1, 4, 5,
`max_depth` 4) with utilities whose unescape succeeds: in both modes parse returns
STRING_ERROR at the key, not TAPE_ERROR. The unclosed input `[` returns TAPE_ERROR in
non-streaming mode; in streaming mode, with the uninitialised pointer of
`main_array_switch` holding the offset of the `[`, it returns DEPTH_ERROR. -/
theorem C16_unclosed_object_returns_string_error :
    (parse_structural_stream false (unescaping_utilities [97])
        (parser_of [123, 34, 97, 34, 58, 49] [0, 1, 4, 5] 4 0) 30).map (fun r => r.1)
      = some .STRING_ERROR
    ∧ (parse_structural_stream true (unescaping_utilities [97])
        (parser_of [123, 34, 97, 34, 58, 49] [0, 1, 4, 5] 4 0) 30).map (fun r => r.1)
      = some .STRING_ERROR
    ∧ (parse_structural_stream false (accepting_utilities []) (parser_of [91] [0] 4 0) 30).map
        (fun r => r.1) = some .TAPE_ERROR
    ∧ (parse_structural_stream true (accepting_utilities []) (parser_of [91] [0] 4 0) 30).map
        (fun r => r.1) = some .DEPTH_ERROR := by
  decide


theorem key_never_succeeds (u : leaf_utilities) (s : stage2_state) (src : Nat)
    (next : structural_stream.label) :
    (structural_stream.return_or_goto (structural_parser_stream.key u s src) next).2
      = .ret .STRING_ERROR := by
  simp [structural_stream.return_or_goto, structural_parser_stream.key, parse_string_code]

theorem return_or_goto_target (r : error_code × stage2_state) (next l : structural_stream.label)
    (h : (structural_stream.return_or_goto r next).2 = .goto l) : l = next := by
  unfold structural_stream.return_or_goto at h
  simp only [] at h
  split at h
  · simp at h
  · simp only [structural_stream.control.goto.injEq] at h
    exact h.symm

theorem value_switch_not_key_state (u : leaf_utilities) (s : stage2_state) (value : Nat)
    (b : Bool) (next : structural_stream.label) (hnext : next ≠ .object_key_state) :
    (structural_stream.value_switch u s value b next).2 ≠ .goto .object_key_state := by
  intro h
  unfold structural_stream.value_switch at h
  simp only [] at h
  split_ifs at h
  · exact absurd (return_or_goto_target _ _ _ h) (by decide)
  · exact absurd (return_or_goto_target _ _ _ h) (by decide)
  · exact hnext (return_or_goto_target _ _ _ h).symm
  · exact hnext (return_or_goto_target _ _ _ h).symm
  · exact hnext (return_or_goto_target _ _ _ h).symm
  · exact hnext (return_or_goto_target _ _ _ h).symm
  · exact hnext (return_or_goto_target _ _ _ h).symm

theorem step_not_key_state (u : leaf_utilities) (l : structural_stream.label)
    (s : stage2_state) : (structural_stream.step u l s).2 ≠ .goto .object_key_state := by
  cases l <;> simp only [structural_stream.step, structural_iterator.advance_char,
    structural_iterator.advance]
  · split_ifs
    · rw [key_never_succeeds]
      simp
    · rw [close_object_eq]
      simp
    · simp
  · split_ifs
    · simp
    · exact value_switch_not_key_state _ _ _ _ _ (by decide)
  · split_ifs
    · simp
    · rw [key_never_succeeds]
      simp
    · rw [close_object_eq]
      simp
    · simp
  · split_ifs <;> simp
  · split_ifs
    · rw [close_array_eq]
      simp
    · simp
  · exact value_switch_not_key_state _ _ _ _ _ (by decide)
  · split_ifs
    · simp
    · rw [close_array_eq]
      simp
    · simp
  · simp

/-- C17, evaluated at the input `{"a"1}` (structurals at 0, 1, 4, 5, `max_depth` 4),
where the structural after the key is not `:`: with utilities whose unescape succeeds
parse returns STRING_ERROR at the key, not TAPE_ERROR. Block by block the checks of
the claim are in place: `object_begin` returns TAPE_ERROR unless the next structural
byte is `"` or `}`; `object_key_state` returns TAPE_ERROR unless the next structural
byte is `:`; `object_continue` returns TAPE_ERROR after a `,` unless the byte that
`advance()` hands back is `"`, and that byte is the `,` itself, so it returns
TAPE_ERROR after every `,`. No block ever continues at `object_key_state`, because
`key` never returns SUCCESS. -/
theorem C17_missing_colon_returns_string_error (u : leaf_utilities) (s : stage2_state)
    (l : structural_stream.label) :
    (parse_structural_stream false (unescaping_utilities [97])
        (parser_of [123, 34, 97, 34, 49, 125] [0, 1, 4, 5] 4 0) 30).map (fun r => r.1)
      = some .STRING_ERROR
    ∧ ((structural_iterator.advance_char s).1 = 34 ∨ (structural_iterator.advance_char s).1 = 125
        ∨ structural_stream.step u .object_begin s
            = ((structural_iterator.advance_char s).2, .ret .TAPE_ERROR))
    ∧ ((structural_iterator.advance_char s).1 = 58
        ∨ structural_stream.step u .object_key_state s
            = ((structural_iterator.advance_char s).2, .ret .TAPE_ERROR))
    ∧ ((structural_iterator.advance_char s).1 ≠ 44
        ∨ s.parser.buf (structural_iterator.advance (structural_iterator.advance_char s).2).1 = 34
        ∨ structural_stream.step u .object_continue s
            = ((structural_iterator.advance (structural_iterator.advance_char s).2).2,
                .ret .TAPE_ERROR))
    ∧ ((structural_iterator.advance_char s).1 ≠ 44
        ∨ (structural_stream.step u .object_continue s).2 = .ret .TAPE_ERROR)
    ∧ (structural_stream.step u l s).2 ≠ .goto .object_key_state := by
  refine ⟨by decide, ?_, ?_, ?_, ?_, step_not_key_state u l s⟩
  · by_cases h1 : (structural_iterator.advance_char s).1 = 34
    · exact Or.inl h1
    · by_cases h2 : (structural_iterator.advance_char s).1 = 125
      · exact Or.inr (Or.inl h2)
      · right
        right
        simp only [structural_iterator.advance_char] at h1 h2
        simp only [structural_stream.step, structural_iterator.advance_char, if_neg h1, if_neg h2]
  · by_cases h1 : (structural_iterator.advance_char s).1 = 58
    · exact Or.inl h1
    · right
      simp only [structural_iterator.advance_char] at h1
      simp [structural_stream.step, structural_iterator.advance_char, h1]
  · by_cases h1 : (structural_iterator.advance_char s).1 = 44
    · by_cases h2 : s.parser.buf
          (structural_iterator.advance (structural_iterator.advance_char s).2).1 = 34
      · exact Or.inr (Or.inl h2)
      · right
        right
        simp only [structural_iterator.advance_char, structural_iterator.advance] at h1 h2
        simp [structural_stream.step, structural_iterator.advance_char,
          structural_iterator.advance, h1, h2]
    · exact Or.inl h1
  · by_cases h1 : (structural_iterator.advance_char s).1 = 44
    · right
      simp only [structural_iterator.advance_char] at h1
      have h2 : ¬ (structural_iterator.current_char
          { s with current_structural := s.current_structural + 1 } = 34) := by
        rw [h1]
        decide
      simp only [structural_iterator.current_char] at h1 h2
      simp [structural_stream.step, structural_iterator.advance_char,
        structural_iterator.advance, structural_iterator.current_char, h1, h2]
    · exact Or.inl h1

/-- C18, evaluated at the input `{"a":1]` (structurals at 0, 1, 4, 5, 6,
`max_depth` 4): with utilities whose unescape succeeds parse returns STRING_ERROR at
the key, not TAPE_ERROR; the input `[1}` returns TAPE_ERROR in non-streaming mode.
Block by block the checks of the claim are in place: `array_continue` returns
TAPE_ERROR unless the next structural byte is `,` or `]`, and `object_continue`
returns TAPE_ERROR unless it is `,` or `}`. -/
theorem C18_wrong_closer_after_key_returns_string_error (u : leaf_utilities)
    (s : stage2_state) :
    (parse_structural_stream false (unescaping_utilities [97])
        (parser_of [123, 34, 97, 34, 58, 49, 93] [0, 1, 4, 5, 6] 4 0) 30).map (fun r => r.1)
      = some .STRING_ERROR
    ∧ (parse_structural_stream false (unescaping_utilities [97])
        (parser_of [91, 49, 125] [0, 1, 2] 4 0) 30).map (fun r => r.1) = some .TAPE_ERROR
    ∧ ((structural_iterator.advance_char s).1 = 44 ∨ (structural_iterator.advance_char s).1 = 93
        ∨ structural_stream.step u .array_continue s
            = ((structural_iterator.advance_char s).2, .ret .TAPE_ERROR))
    ∧ ((structural_iterator.advance_char s).1 = 44 ∨ (structural_iterator.advance_char s).1 = 125
        ∨ structural_stream.step u .object_continue s
            = ((structural_iterator.advance_char s).2, .ret .TAPE_ERROR)) := by
  refine ⟨by decide, by decide, ?_, ?_⟩
  · by_cases h1 : (structural_iterator.advance_char s).1 = 44
    · exact Or.inl h1
    · by_cases h2 : (structural_iterator.advance_char s).1 = 93
      · exact Or.inr (Or.inl h2)
      · right
        right
        simp only [structural_iterator.advance_char] at h1 h2
        simp only [structural_stream.step, structural_iterator.advance_char, if_neg h1, if_neg h2]
  · by_cases h1 : (structural_iterator.advance_char s).1 = 44
    · exact Or.inl h1
    · by_cases h2 : (structural_iterator.advance_char s).1 = 125
      · exact Or.inr (Or.inl h2)
      · right
        right
        simp only [structural_iterator.advance_char] at h1 h2
        simp only [structural_stream.step, structural_iterator.advance_char, if_neg h1, if_neg h2]


/-! ## Error propagation -/

theorem return_or_goto_error (r : error_code × stage2_state) (next : structural_stream.label) :
    returns_error_of r (structural_stream.return_or_goto r next) := by
  intro h
  simp [structural_stream.return_or_goto, h]

theorem value_switch_sites (u : leaf_utilities) (s : stage2_state) (value : Nat) (b : Bool)
    (next : structural_stream.label) :
    (s.parser.buf value = 123 →
        structural_stream.value_switch u s value b next
          = structural_stream.return_or_goto (structural_stream.open_object s b) .object_begin)
    ∧ (s.parser.buf value = 91 →
        structural_stream.value_switch u s value b next
          = structural_stream.return_or_goto (structural_stream.open_array s b) .array_begin)
    ∧ (s.parser.buf value = 34 →
        structural_stream.value_switch u s value b next
          = structural_stream.return_or_goto (structural_parser_stream.string u s value) next)
    ∧ (s.parser.buf value = 116 →
        structural_stream.value_switch u s value b next
          = structural_stream.return_or_goto (structural_parser_stream.true_atom u s value) next)
    ∧ (s.parser.buf value = 102 →
        structural_stream.value_switch u s value b next
          = structural_stream.return_or_goto (structural_parser_stream.false_atom u s value) next)
    ∧ (s.parser.buf value = 110 →
        structural_stream.value_switch u s value b next
          = structural_stream.return_or_goto (structural_parser_stream.null_atom u s value) next)
    ∧ (s.parser.buf value = 45 ∨ (48 ≤ s.parser.buf value ∧ s.parser.buf value ≤ 57) →
        structural_stream.value_switch u s value b next
          = structural_stream.return_or_goto (structural_parser_stream.number u s value) next) := by
  refine ⟨?_, ?_, ?_, ?_, ?_, ?_, ?_⟩
  · intro h
    simp [structural_stream.value_switch, h]
  · intro h
    simp [structural_stream.value_switch, h]
  · intro h
    simp [structural_stream.value_switch, h]
  · intro h
    simp [structural_stream.value_switch, h]
  · intro h
    simp [structural_stream.value_switch, h]
  · intro h
    simp [structural_stream.value_switch, h]
  · intro h
    have h1 : s.parser.buf value ≠ 123 := by omega
    have h2 : s.parser.buf value ≠ 91 := by omega
    have h3 : s.parser.buf value ≠ 34 := by omega
    have h4 : s.parser.buf value ≠ 116 := by omega
    have h5 : s.parser.buf value ≠ 102 := by omega
    have h6 : s.parser.buf value ≠ 110 := by omega
    simp only [structural_stream.value_switch, if_neg h1, if_neg h2, if_neg h3, if_neg h4,
      if_neg h5, if_neg h6, if_pos h]

theorem first_value_sites (S : Bool) (u : leaf_utilities) (s : stage2_state) :
    (structural_iterator.current_char s = 123 →
        structural_stream.first_value S u s
          = structural_stream.return_or_goto (structural_stream.open_object s false) .object_begin)
    ∧ (structural_iterator.current_char s = 91 →
        returns_error_of (structural_stream.open_array s false)
          (structural_stream.first_value S u s))
    ∧ (structural_iterator.current_char s = 34 →
        structural_stream.first_value S u s
          = structural_stream.return_or_goto
              (structural_parser_stream.string u s (structural_iterator.current s)) .finish)
    ∧ (structural_iterator.current_char s = 116 →
        structural_stream.first_value S u s
          = structural_stream.return_or_goto
              (structural_parser_stream.true_atom_len u s (structural_iterator.current s)
                (structural_iterator.remaining_len s)) .finish)
    ∧ (structural_iterator.current_char s = 102 →
        structural_stream.first_value S u s
          = structural_stream.return_or_goto
              (structural_parser_stream.false_atom_len u s (structural_iterator.current s)
                (structural_iterator.remaining_len s)) .finish)
    ∧ (structural_iterator.current_char s = 110 →
        structural_stream.first_value S u s
          = structural_stream.return_or_goto
              (structural_parser_stream.null_atom_len u s (structural_iterator.current s)
                (structural_iterator.remaining_len s)) .finish)
    ∧ (structural_iterator.current_char s = 45
          ∨ (48 ≤ structural_iterator.current_char s ∧ structural_iterator.current_char s ≤ 57) →
        structural_stream.first_value S u s
          = structural_stream.return_or_goto
              (structural_parser_stream.number_len u s (structural_iterator.current s)
                (structural_iterator.remaining_len s)) .finish) := by
  refine ⟨?_, ?_, ?_, ?_, ?_, ?_, ?_⟩
  · intro h
    simp [structural_stream.first_value, h]
  · intro h herr
    simp [structural_stream.first_value, h, herr]
  · intro h
    simp [structural_stream.first_value, h]
  · intro h
    simp [structural_stream.first_value, h]
  · intro h
    simp [structural_stream.first_value, h]
  · intro h
    simp [structural_stream.first_value, h]
  · intro h
    have h1 : structural_iterator.current_char s ≠ 123 := by omega
    have h2 : structural_iterator.current_char s ≠ 91 := by omega
    have h3 : structural_iterator.current_char s ≠ 34 := by omega
    have h4 : structural_iterator.current_char s ≠ 116 := by omega
    have h5 : structural_iterator.current_char s ≠ 102 := by omega
    have h6 : structural_iterator.current_char s ≠ 110 := by omega
    simp only [structural_stream.first_value, if_neg h1, if_neg h2, if_neg h3, if_neg h4,
      if_neg h5, if_neg h6, if_pos h]

theorem open_scope_sites (s : stage2_state) (b : Bool) :
    ((structural_stream.start_object s b).1 ≠ .SUCCESS →
        structural_stream.open_object s b = structural_stream.start_object s b)
    ∧ ((structural_stream.start_object s b).1 = .SUCCESS →
        structural_stream.open_object s b
          = structural_parser_stream.start_object (structural_stream.start_object s b).2
              (structural_stream.start_object s b).2.depth)
    ∧ ((structural_stream.start_array s b).1 ≠ .SUCCESS →
        structural_stream.open_array s b = structural_stream.start_array s b)
    ∧ ((structural_stream.start_array s b).1 = .SUCCESS →
        structural_stream.open_array s b
          = structural_parser_stream.start_array (structural_stream.start_array s b).2
              (structural_stream.start_array s b).2.depth) := by
  refine ⟨?_, ?_, ?_, ?_⟩
  · intro h
    unfold structural_stream.open_object
    simp only []
    rw [if_pos h]
  · intro h
    unfold structural_stream.open_object
    simp only []
    rw [if_neg (by rw [h]; simp)]
  · intro h
    unfold structural_stream.open_array
    simp only []
    rw [if_pos h]
  · intro h
    unfold structural_stream.open_array
    simp only []
    rw [if_neg (by rw [h]; simp)]

theorem close_sites (s : stage2_state) :
    returns_error_of (structural_parser_stream.end_object s s.depth)
        (structural_stream.close_object s)
    ∧ returns_error_of (structural_parser_stream.end_array s s.depth)
        (structural_stream.close_array s) := by
  refine ⟨?_, ?_⟩
  · intro h
    unfold structural_stream.close_object
    simp only []
    rw [if_pos h]
  · intro h
    unfold structural_stream.close_array
    simp only []
    rw [if_pos h]

theorem step_sites (u : leaf_utilities) (s : stage2_state) :
    ((structural_iterator.advance_char s).1 = 34 →
        structural_stream.step u .object_begin s
          = structural_stream.return_or_goto
              (structural_parser_stream.key u (structural_iterator.advance_char s).2
                (structural_iterator.current (structural_iterator.advance_char s).2))
              .object_key_state)
    ∧ ((structural_iterator.advance_char s).1 = 125 →
        structural_stream.step u .object_begin s
          = structural_stream.close_object (structural_iterator.advance_char s).2)
    ∧ ((structural_iterator.advance_char s).1 = 58 →
        structural_stream.step u .object_key_state s
          = structural_stream.value_switch u
              (structural_iterator.advance (structural_iterator.advance_char s).2).2
              (structural_iterator.advance (structural_iterator.advance_char s).2).1
              false .object_continue)
    ∧ ((structural_iterator.advance_char s).1 = 44 →
        s.parser.buf (structural_iterator.advance (structural_iterator.advance_char s).2).1 = 34 →
        structural_stream.step u .object_continue s
          = structural_stream.return_or_goto
              (structural_parser_stream.key u
                (structural_iterator.advance (structural_iterator.advance_char s).2).2
                (structural_iterator.advance (structural_iterator.advance_char s).2).1)
              .object_key_state)
    ∧ ((structural_iterator.advance_char s).1 = 125 →
        structural_stream.step u .object_continue s
          = structural_stream.close_object (structural_iterator.advance_char s).2)
    ∧ (structural_iterator.peek_next_char s = 93 →
        structural_stream.step u .array_begin s
          = structural_stream.close_array (structural_iterator.advance_char s).2)
    ∧ structural_stream.step u .main_array_switch s
        = structural_stream.value_switch u { s with uninit_reads := s.uninit_reads + 1 }
            (u.uninit_value s.uninit_reads) true .array_continue
    ∧ ((structural_iterator.advance_char s).1 = 93 →
        structural_stream.step u .array_continue s
          = structural_stream.close_array (structural_iterator.advance_char s).2)
    ∧ structural_stream.step u .finish s
        = ((structural_stream.finish s).2, .ret (structural_stream.finish s).1) := by
  refine ⟨?_, ?_, ?_, ?_, ?_, ?_, rfl, ?_, rfl⟩
  · intro h
    simp only [structural_iterator.advance_char] at h
    simp only [structural_stream.step, structural_iterator.advance_char, if_pos h]
  · intro h
    simp only [structural_iterator.advance_char] at h
    simp [structural_stream.step, structural_iterator.advance_char, h]
  · intro h
    simp only [structural_iterator.advance_char] at h
    simp [structural_stream.step, structural_iterator.advance_char, structural_iterator.advance, h]
  · intro h h2
    simp only [structural_iterator.advance_char, structural_iterator.advance] at h h2
    simp [structural_stream.step, structural_iterator.advance_char, structural_iterator.advance,
      h, h2]
  · intro h
    simp only [structural_iterator.advance_char] at h
    simp [structural_stream.step, structural_iterator.advance_char, h]
  · intro h
    simp [structural_stream.step, structural_iterator.advance_char, h]
  · intro h
    simp only [structural_iterator.advance_char] at h
    simp [structural_stream.step, structural_iterator.advance_char, h]

theorem start_sites (s : stage2_state) :
    (structural_stream.start s).1 = .SUCCESS ∨ (structural_stream.start s).1 = .EMPTY
      ∨ ((structural_stream.start_document s).1 = .DEPTH_ERROR
          ∧ structural_stream.start s = structural_stream.start_document s) := by
  unfold structural_stream.start
  simp only []
  split
  · exact Or.inr (Or.inl rfl)
  · split
    · right
      right
      rename_i h
      have hc : (structural_stream.start_document s).1 = .DEPTH_ERROR := by
        unfold structural_stream.start_document structural_stream.start_scope at h ⊢
        simp only [] at h ⊢
        split
        · rfl
        · rename_i h2
          rw [if_neg h2] at h
          exact absurd rfl h
      refine ⟨hc, ?_⟩
      rw [← hc]
    · exact Or.inl rfl

/-- C12: every place where the state machine invokes a scope or visitor operation is
an instance of `if ((error = op)) { return error; }`, and that idiom hands back the
error of the operation: when the operation returns a code other than SUCCESS, the
block returns exactly that code in the state the operation left, so no further
operation runs. The conjuncts list the idiom, then every call site: the short-circuit
of the stream and visitor halves of `start_object` / `start_array`; `end_object` and
`end_array`; the seven cases of the value switch inside an object or an array; the
seven cases of the first value; `key` in `object_begin` and `object_continue`; the
closing cases of `object_begin`, `object_continue`, `array_begin` and
`array_continue`; `finish`; and `start`, whose only failure besides EMPTY is the
DEPTH_ERROR of `start_document`. A code returned by a block is the code returned by
the run, and a code returned by `start` or by the first value is the code returned by
parse. -/
theorem C12_errors_are_returned_verbatim (S : Bool) (u : leaf_utilities)
    (p : dom_parser_implementation) (s s1 : stage2_state) (r : error_code × stage2_state)
    (value : Nat) (b : Bool) (next l : structural_stream.label) (e : error_code) (fuel : Nat) :
    returns_error_of r (structural_stream.return_or_goto r next)
    ∧ (((structural_stream.start_object s b).1 ≠ .SUCCESS →
          structural_stream.open_object s b = structural_stream.start_object s b)
      ∧ ((structural_stream.start_object s b).1 = .SUCCESS →
          structural_stream.open_object s b
            = structural_parser_stream.start_object (structural_stream.start_object s b).2
                (structural_stream.start_object s b).2.depth)
      ∧ ((structural_stream.start_array s b).1 ≠ .SUCCESS →
          structural_stream.open_array s b = structural_stream.start_array s b)
      ∧ ((structural_stream.start_array s b).1 = .SUCCESS →
          structural_stream.open_array s b
            = structural_parser_stream.start_array (structural_stream.start_array s b).2
                (structural_stream.start_array s b).2.depth))
    ∧ (returns_error_of (structural_parser_stream.end_object s s.depth)
          (structural_stream.close_object s)
      ∧ returns_error_of (structural_parser_stream.end_array s s.depth)
          (structural_stream.close_array s))
    ∧ ((s.parser.buf value = 123 →
          structural_stream.value_switch u s value b next
            = structural_stream.return_or_goto (structural_stream.open_object s b) .object_begin)
      ∧ (s.parser.buf value = 91 →
          structural_stream.value_switch u s value b next
            = structural_stream.return_or_goto (structural_stream.open_array s b) .array_begin)
      ∧ (s.parser.buf value = 34 →
          structural_stream.value_switch u s value b next
            = structural_stream.return_or_goto (structural_parser_stream.string u s value) next)
      ∧ (s.parser.buf value = 116 →
          structural_stream.value_switch u s value b next
            = structural_stream.return_or_goto (structural_parser_stream.true_atom u s value) next)
      ∧ (s.parser.buf value = 102 →
          structural_stream.value_switch u s value b next
            = structural_stream.return_or_goto (structural_parser_stream.false_atom u s value) next)
      ∧ (s.parser.buf value = 110 →
          structural_stream.value_switch u s value b next
            = structural_stream.return_or_goto (structural_parser_stream.null_atom u s value) next)
      ∧ (s.parser.buf value = 45 ∨ (48 ≤ s.parser.buf value ∧ s.parser.buf value ≤ 57) →
          structural_stream.value_switch u s value b next
            = structural_stream.return_or_goto (structural_parser_stream.number u s value) next))
    ∧ ((structural_iterator.current_char s = 123 →
          structural_stream.first_value S u s
            = structural_stream.return_or_goto (structural_stream.open_object s false)
                .object_begin)
      ∧ (structural_iterator.current_char s = 91 →
          returns_error_of (structural_stream.open_array s false)
            (structural_stream.first_value S u s))
      ∧ (structural_iterator.current_char s = 34 →
          structural_stream.first_value S u s
            = structural_stream.return_or_goto
                (structural_parser_stream.string u s (structural_iterator.current s)) .finish)
      ∧ (structural_iterator.current_char s = 116 →
          structural_stream.first_value S u s
            = structural_stream.return_or_goto
                (structural_parser_stream.true_atom_len u s (structural_iterator.current s)
                  (structural_iterator.remaining_len s)) .finish)
      ∧ (structural_iterator.current_char s = 102 →
          structural_stream.first_value S u s
            = structural_stream.return_or_goto
                (structural_parser_stream.false_atom_len u s (structural_iterator.current s)
                  (structural_iterator.remaining_len s)) .finish)
      ∧ (structural_iterator.current_char s = 110 →
          structural_stream.first_value S u s
            = structural_stream.return_or_goto
                (structural_parser_stream.null_atom_len u s (structural_iterator.current s)
                  (structural_iterator.remaining_len s)) .finish)
      ∧ (structural_iterator.current_char s = 45
            ∨ (48 ≤ structural_iterator.current_char s
                ∧ structural_iterator.current_char s ≤ 57) →
          structural_stream.first_value S u s
            = structural_stream.return_or_goto
                (structural_parser_stream.number_len u s (structural_iterator.current s)
                  (structural_iterator.remaining_len s)) .finish))
    ∧ (((structural_iterator.advance_char s).1 = 34 →
          structural_stream.step u .object_begin s
            = structural_stream.return_or_goto
                (structural_parser_stream.key u (structural_iterator.advance_char s).2
                  (structural_iterator.current (structural_iterator.advance_char s).2))
                .object_key_state)
      ∧ ((structural_iterator.advance_char s).1 = 125 →
          structural_stream.step u .object_begin s
            = structural_stream.close_object (structural_iterator.advance_char s).2)
      ∧ ((structural_iterator.advance_char s).1 = 58 →
          structural_stream.step u .object_key_state s
            = structural_stream.value_switch u
                (structural_iterator.advance (structural_iterator.advance_char s).2).2
                (structural_iterator.advance (structural_iterator.advance_char s).2).1
                false .object_continue)
      ∧ ((structural_iterator.advance_char s).1 = 44 →
          s.parser.buf (structural_iterator.advance (structural_iterator.advance_char s).2).1
            = 34 →
          structural_stream.step u .object_continue s
            = structural_stream.return_or_goto
                (structural_parser_stream.key u
                  (structural_iterator.advance (structural_iterator.advance_char s).2).2
                  (structural_iterator.advance (structural_iterator.advance_char s).2).1)
                .object_key_state)
      ∧ ((structural_iterator.advance_char s).1 = 125 →
          structural_stream.step u .object_continue s
            = structural_stream.close_object (structural_iterator.advance_char s).2)
      ∧ (structural_iterator.peek_next_char s = 93 →
          structural_stream.step u .array_begin s
            = structural_stream.close_array (structural_iterator.advance_char s).2)
      ∧ structural_stream.step u .main_array_switch s
          = structural_stream.value_switch u { s with uninit_reads := s.uninit_reads + 1 }
              (u.uninit_value s.uninit_reads) true .array_continue
      ∧ ((structural_iterator.advance_char s).1 = 93 →
          structural_stream.step u .array_continue s
            = structural_stream.close_array (structural_iterator.advance_char s).2)
      ∧ structural_stream.step u .finish s
          = ((structural_stream.finish s).2, .ret (structural_stream.finish s).1))
    ∧ ((structural_stream.start s).1 = .SUCCESS ∨ (structural_stream.start s).1 = .EMPTY
        ∨ ((structural_stream.start_document s).1 = .DEPTH_ERROR
            ∧ structural_stream.start s = structural_stream.start_document s))
    ∧ (structural_stream.step u l s = (s1, .ret e) →
        structural_stream.run u (fuel + 1) l s = some (e, s1))
    ∧ ((structural_stream.start (initial_state S p)).1 ≠ .SUCCESS →
        parse_structural_stream S u p fuel = some (structural_stream.start (initial_state S p)))
    ∧ ((structural_stream.start (initial_state S p)).1 = .SUCCESS →
        structural_stream.first_value S u (structural_stream.start (initial_state S p)).2
          = (s1, .ret e) →
        parse_structural_stream S u p fuel = some (e, s1)) := by
  refine ⟨return_or_goto_error r next, open_scope_sites s b, close_sites s,
    value_switch_sites u s value b next, first_value_sites S u s, step_sites u s,
    start_sites s, ?_, ?_, ?_⟩
  · intro h
    rw [run_succ, h]
  · intro h
    rw [parse_structural_stream_eq, if_pos h]
  · intro h hf
    rw [parse_structural_stream_eq, if_neg (by rw [h]; simp), hf]

/-- Witness for `C12_errors_are_returned_verbatim`: on the root scalar `true` with
utilities that reject every atom, the first-value block returns the T_ATOM_ERROR of
`true_atom`, and parse returns it. -/
theorem C12_errors_are_returned_verbatim_witness :
    parse_structural_stream false (rejecting_utilities 0) (parser_of [116, 114, 117, 101] [0] 2 0) 0
      = some (.T_ATOM_ERROR,
          (structural_stream.start
            (initial_state false (parser_of [116, 114, 117, 101] [0] 2 0))).2) :=
  (C12_errors_are_returned_verbatim false (rejecting_utilities 0)
    (parser_of [116, 114, 117, 101] [0] 2 0)
    (structural_stream.start (initial_state false (parser_of [116, 114, 117, 101] [0] 2 0))).2
    (structural_stream.start (initial_state false (parser_of [116, 114, 117, 101] [0] 2 0))).2
    (.SUCCESS, blank_state 0) 0 false .finish .finish .T_ATOM_ERROR 0).2.2.2.2.2.2.2.2.2
    (by decide) rfl


/-! ## The stack of open containers -/

theorem return_or_goto_goto (r : error_code × stage2_state) (next l1 : structural_stream.label)
    (s1 : stage2_state) (h : structural_stream.return_or_goto r next = (s1, .goto l1)) :
    r.1 = .SUCCESS ∧ l1 = next ∧ s1 = r.2 := by
  unfold structural_stream.return_or_goto at h
  simp only [Prod.mk.injEq] at h
  obtain ⟨h1, h2⟩ := h
  by_cases hc : r.1 = .SUCCESS
  · rw [if_neg (by rw [hc]; simp)] at h2
    simp only [structural_stream.control.goto.injEq] at h2
    exact ⟨hc, h2.symm, h1.symm⟩
  · rw [if_pos hc] at h2
    simp at h2

theorem open_object_opened (s : stage2_state) (b : Bool)
    (h : (structural_stream.open_object s b).1 = .SUCCESS) :
    opened s b (structural_stream.open_object s b).2 := by
  unfold structural_stream.open_object at h ⊢
  simp only [] at h ⊢
  by_cases hc : (structural_stream.start_object s b).1 = .SUCCESS
  · rw [if_neg (by rw [hc]; simp)]
    have hd : ¬ ((s.depth + 1) % 2 ^ 32 ≥ s.parser.max_depth) := by
      intro hge
      have : (structural_stream.start_object s b).1 = .DEPTH_ERROR := by
        rw [structural_stream.start_object, stream_start_scope_code, if_pos hge]
      rw [this] at hc
      simp at hc
    refine ⟨rfl, ?_, rfl, rfl⟩
    show (s.depth + 1) % 2 ^ 32 < s.parser.max_depth
    omega
  · rw [if_pos hc] at h
    exact absurd h hc

theorem open_array_opened (s : stage2_state) (b : Bool)
    (h : (structural_stream.open_array s b).1 = .SUCCESS) :
    opened s b (structural_stream.open_array s b).2 :=
  open_object_opened s b h

theorem close_object_closed (s : stage2_state) :
    closed s (structural_stream.close_object s).1 := by
  rw [close_object_eq]
  exact ⟨rfl, rfl, rfl⟩

theorem close_array_closed (s : stage2_state) :
    closed s (structural_stream.close_array s).1 := by
  rw [close_array_eq]
  exact ⟨rfl, rfl, rfl⟩

theorem parse_string_same_scopes (u : leaf_utilities) (s : stage2_state) (src : Nat) :
    same_scopes s (structural_parser_stream.parse_string u s src).2 := by
  unfold structural_parser_stream.parse_string
  simp only [structural_parser_stream.on_start_string]
  cases u.parse_string s.parser.buf src with
  | none => exact ⟨rfl, rfl, rfl⟩
  | some out => exact ⟨rfl, rfl, rfl⟩

theorem number_in_same_scopes (u : leaf_utilities) (s : stage2_state) (mem : Nat → Nat)
    (src : Nat) : same_scopes s (structural_parser_stream.number_in u s mem src).2 := by
  unfold structural_parser_stream.number_in
  cases u.parse_number mem src with
  | none => exact ⟨rfl, rfl, rfl⟩
  | some kv => exact ⟨rfl, rfl, rfl⟩

theorem number_len_same_scopes (u : leaf_utilities) (s : stage2_state) (src n : Nat) :
    same_scopes s (structural_parser_stream.number_len u s src n).2 := by
  unfold structural_parser_stream.number_len
  split
  · exact number_in_same_scopes _ _ _ _
  · exact ⟨rfl, rfl, rfl⟩

theorem atom_same_scopes (s : stage2_state) (b : Bool) (tag : tape_type) (e : error_code) :
    same_scopes s
      (if b = true then (error_code.SUCCESS, tape_writer.append s 0 tag) else (e, s)).2 := by
  cases b with
  | false => exact ⟨rfl, rfl, rfl⟩
  | true => exact ⟨rfl, rfl, rfl⟩

theorem value_switch_goto (u : leaf_utilities) (s : stage2_state) (value : Nat) (b : Bool)
    (next l1 : structural_stream.label) (s1 : stage2_state)
    (h : structural_stream.value_switch u s value b next = (s1, .goto l1)) :
    ((l1 = .object_begin ∨ l1 = .array_begin) ∧ opened s b s1)
      ∨ (l1 = next ∧ same_scopes s s1) := by
  unfold structural_stream.value_switch at h
  simp only [] at h
  split_ifs at h
  · obtain ⟨hc, hl, hs⟩ := return_or_goto_goto _ _ _ _ h
    rw [hs]
    exact Or.inl ⟨Or.inl hl, open_object_opened s b hc⟩
  · obtain ⟨hc, hl, hs⟩ := return_or_goto_goto _ _ _ _ h
    rw [hs]
    exact Or.inl ⟨Or.inr hl, open_array_opened s b hc⟩
  · obtain ⟨_, hl, hs⟩ := return_or_goto_goto _ _ _ _ h
    rw [hs]
    exact Or.inr ⟨hl, parse_string_same_scopes u s value⟩
  · obtain ⟨_, hl, hs⟩ := return_or_goto_goto _ _ _ _ h
    rw [hs]
    exact Or.inr ⟨hl, atom_same_scopes s _ _ _⟩
  · obtain ⟨_, hl, hs⟩ := return_or_goto_goto _ _ _ _ h
    rw [hs]
    exact Or.inr ⟨hl, atom_same_scopes s _ _ _⟩
  · obtain ⟨_, hl, hs⟩ := return_or_goto_goto _ _ _ _ h
    rw [hs]
    exact Or.inr ⟨hl, atom_same_scopes s _ _ _⟩
  · obtain ⟨_, hl, hs⟩ := return_or_goto_goto _ _ _ _ h
    rw [hs]
    exact Or.inr ⟨hl, number_in_same_scopes u s _ value⟩
  · simp at h

theorem first_value_goto (S : Bool) (u : leaf_utilities) (s : stage2_state)
    (l1 : structural_stream.label) (s1 : stage2_state)
    (h : structural_stream.first_value S u s = (s1, .goto l1)) :
    ((l1 = .object_begin ∨ l1 = .array_begin) ∧ opened s false s1)
      ∨ (l1 = .finish ∧ same_scopes s s1) := by
  unfold structural_stream.first_value at h
  simp only [] at h
  split_ifs at h
  · obtain ⟨hc, hl, hs⟩ := return_or_goto_goto _ _ _ _ h
    rw [hs]
    exact Or.inl ⟨Or.inl hl, open_object_opened s false hc⟩
  · simp at h
  · simp at h
  · rename_i _ _ hok _
    simp only [Prod.mk.injEq, structural_stream.control.goto.injEq] at h
    rw [← h.1]
    exact Or.inl ⟨Or.inr h.2.symm, open_array_opened s false (Classical.not_not.mp hok)⟩
  · obtain ⟨_, hl, hs⟩ := return_or_goto_goto _ _ _ _ h
    rw [hs]
    exact Or.inr ⟨hl, parse_string_same_scopes u s _⟩
  · obtain ⟨_, hl, hs⟩ := return_or_goto_goto _ _ _ _ h
    rw [hs]
    exact Or.inr ⟨hl, atom_same_scopes s _ _ _⟩
  · obtain ⟨_, hl, hs⟩ := return_or_goto_goto _ _ _ _ h
    rw [hs]
    exact Or.inr ⟨hl, atom_same_scopes s _ _ _⟩
  · obtain ⟨_, hl, hs⟩ := return_or_goto_goto _ _ _ _ h
    rw [hs]
    exact Or.inr ⟨hl, atom_same_scopes s _ _ _⟩
  · obtain ⟨_, hl, hs⟩ := return_or_goto_goto _ _ _ _ h
    rw [hs]
    exact Or.inr ⟨hl, number_len_same_scopes u s _ _⟩
  · simp at h

theorem key_goto_absurd (u : leaf_utilities) (s : stage2_state) (src : Nat)
    (next l1 : structural_stream.label) (s1 : stage2_state)
    (h : structural_stream.return_or_goto (structural_parser_stream.key u s src) next
      = (s1, .goto l1)) : False := by
  have h2 := key_never_succeeds u s src next
  rw [h] at h2
  simp at h2

theorem close_object_goto (s s1 : stage2_state) (l1 : structural_stream.label)
    (h : structural_stream.close_object s = (s1, .goto l1)) : l1 = .scope_end ∧ closed s s1 := by
  have hc := close_object_closed s
  rw [h] at hc
  rw [close_object_eq] at h
  simp only [Prod.mk.injEq, structural_stream.control.goto.injEq] at h
  exact ⟨h.2.symm, hc⟩

theorem close_array_goto (s s1 : stage2_state) (l1 : structural_stream.label)
    (h : structural_stream.close_array s = (s1, .goto l1)) : l1 = .scope_end ∧ closed s s1 := by
  have hc := close_array_closed s
  rw [h] at hc
  rw [close_array_eq] at h
  simp only [Prod.mk.injEq, structural_stream.control.goto.injEq] at h
  exact ⟨h.2.symm, hc⟩

theorem step_transition (u : leaf_utilities) (l l1 : structural_stream.label)
    (s s1 : stage2_state) (h : structural_stream.step u l s = (s1, .goto l1)) :
    transition l s l1 s1 := by
  cases l <;> simp only [structural_stream.step, structural_iterator.advance_char,
    structural_iterator.advance] at h <;> simp only [transition]
  · split_ifs at h
    · exact (key_goto_absurd _ _ _ _ _ _ h).elim
    · have h2 := close_object_goto _ _ _ h
      exact h2
    · simp at h
  · split_ifs at h
    · simp at h
    · have h2 := value_switch_goto _ _ _ _ _ _ _ h
      exact h2
  · split_ifs at h
    · simp at h
    · exact (key_goto_absurd _ _ _ _ _ _ h).elim
    · have h2 := close_object_goto _ _ _ h
      exact h2
    · simp at h
  · split_ifs at h with h1 h2
    · simp only [Prod.mk.injEq, structural_stream.control.goto.injEq] at h
      exact ⟨h.1.symm, by rw [if_pos h1]; exact h.2.symm⟩
    · simp only [Prod.mk.injEq, structural_stream.control.goto.injEq] at h
      exact ⟨h.1.symm, by rw [if_neg h1, if_pos h2]; exact h.2.symm⟩
    · simp only [Prod.mk.injEq, structural_stream.control.goto.injEq] at h
      exact ⟨h.1.symm, by rw [if_neg h1, if_neg h2]; exact h.2.symm⟩
  · split_ifs at h
    · have h2 := close_array_goto _ _ _ h
      exact Or.inl h2
    · simp only [Prod.mk.injEq, structural_stream.control.goto.injEq] at h
      rw [← h.1]
      exact Or.inr ⟨h.2.symm, rfl, rfl, rfl⟩
  · have h2 := value_switch_goto _ _ _ _ _ _ _ h
    exact h2
  · split_ifs at h
    · simp only [Prod.mk.injEq, structural_stream.control.goto.injEq] at h
      rw [← h.1]
      exact Or.inl ⟨h.2.symm, rfl, rfl, rfl⟩
    · have h2 := close_array_goto _ _ _ h
      exact Or.inr h2
    · simp at h
  · simp at h

theorem is_array_ok_congr : ∀ (ks : List Bool) (ia ib : Nat → Bool),
    (∀ j, j ≤ ks.length → ib j = ia j) → is_array_ok ks ia → is_array_ok ks ib
  | [], _, _, _, _ => by simp [is_array_ok]
  | [_], _, _, _, _ => by simp [is_array_ok]
  | _ :: k1 :: rest, ia, ib, h, hok => by
    simp only [is_array_ok] at hok ⊢
    refine ⟨?_, is_array_ok_congr (k1 :: rest) ia ib (fun j hj => h j ?_) hok.2⟩
    · rw [h _ (by simp)]
      exact hok.1
    · simp only [List.length_cons] at hj ⊢
      omega

theorem is_array_ok_tail (k : Bool) (r : List Bool) (ia : Nat → Bool)
    (h : is_array_ok (k :: r) ia) :
    is_array_ok r ia ∧ ∀ k1 r1, r = k1 :: r1 → ia (r1.length + 2) = k1 := by
  cases r with
  | nil => exact ⟨by simp [is_array_ok], fun k1 r1 hc => by simp at hc⟩
  | cons k2 r2 =>
    simp only [is_array_ok] at h
    refine ⟨h.2, fun k1 r1 hc => ?_⟩
    simp only [List.cons.injEq] at hc
    rw [← hc.1, ← hc.2]
    exact h.1

theorem stack_inv_opened (ks : List Bool) (b k : Bool) (r : List Bool) (s s1 : stage2_state)
    (hmd : s.parser.max_depth < 2 ^ 32) (hd : s.depth = ks.length + 1)
    (hlt : s.depth < s.parser.max_depth) (hok : is_array_ok ks s.parser.is_array)
    (hks : ks = b :: r) (ho : opened s b s1) :
    s1.depth = (k :: ks).length + 1 ∧ s1.depth < s1.parser.max_depth
      ∧ is_array_ok (k :: ks) s1.parser.is_array := by
  obtain ⟨h1, h2, h3, h4⟩ := ho
  have hd1 : s1.depth = s.depth + 1 := by
    rw [h1]
    exact Nat.mod_eq_of_lt (by omega)
  refine ⟨?_, ?_, ?_⟩
  · rw [hd1, hd]
    simp
  · rw [h4]
    exact h2
  · rw [h3]
    have hrest : is_array_ok ks (store s.parser.is_array s.depth b) :=
      is_array_ok_congr ks _ _ (fun j hj => store_other _ _ _ _ (by omega)) hok
    subst hks
    simp only [is_array_ok]
    refine ⟨?_, hrest⟩
    have : r.length + 2 = s.depth := by
      rw [hd]
      simp
    rw [this, store_same]

theorem stack_inv_closed (k : Bool) (r : List Bool) (s s1 : stage2_state)
    (hd : s.depth = (k :: r).length + 1) (hlt : s.depth < s.parser.max_depth)
    (hok : is_array_ok (k :: r) s.parser.is_array) (hc : closed s s1) :
    stack_inv r .scope_end s1 ∧ s1.parser.max_depth = s.parser.max_depth := by
  obtain ⟨h1, h2, h3⟩ := hc
  simp only [List.length_cons] at hd
  have hd1 : s1.depth = r.length + 1 := by
    rw [h1, if_neg (by omega)]
    omega
  have ht := is_array_ok_tail k r _ hok
  refine ⟨⟨hd1, ?_, ?_, ?_⟩, h3⟩
  · rw [h3]
    omega
  · rw [h2]
    exact ht.1
  · rw [h2]
    exact ht.2

theorem stack_inv_transition (ks : List Bool) (l l1 : structural_stream.label)
    (s s1 : stage2_state) (hmd : s.parser.max_depth < 2 ^ 32) (hinv : stack_inv ks l s)
    (ht : transition l s l1 s1) :
    stack_inv (next_stack ks l1) l1 s1 ∧ s1.parser.max_depth = s.parser.max_depth := by
  obtain ⟨hd, hlt, hok, hl⟩ := hinv
  have hopen : ∀ (b : Bool) (r : List Bool), ks = b :: r →
      (l1 = .object_begin ∨ l1 = .array_begin) → opened s b s1 →
      stack_inv (next_stack ks l1) l1 s1 ∧ s1.parser.max_depth = s.parser.max_depth := by
    intro b r hks hl1 ho
    rcases hl1 with hl1 | hl1
    · subst hl1
      obtain ⟨a1, a2, a3⟩ := stack_inv_opened ks b false r s s1 hmd hd hlt hok hks ho
      exact ⟨⟨a1, a2, a3, ⟨ks, rfl⟩⟩, ho.2.2.2⟩
    · subst hl1
      obtain ⟨a1, a2, a3⟩ := stack_inv_opened ks b true r s s1 hmd hd hlt hok hks ho
      exact ⟨⟨a1, a2, a3, ⟨ks, rfl⟩⟩, ho.2.2.2⟩
  have hclose : ∀ (b : Bool) (r : List Bool), ks = b :: r → l1 = .scope_end → closed s s1 →
      stack_inv (next_stack ks l1) l1 s1 ∧ s1.parser.max_depth = s.parser.max_depth := by
    intro b r hks hl1 hc
    subst hl1
    subst hks
    exact stack_inv_closed b r s s1 hd hlt hok hc
  have hsame : ∀ (b : Bool) (r : List Bool), ks = b :: r → same_scopes s s1 →
      s1.depth = ks.length + 1 ∧ s1.depth < s1.parser.max_depth
        ∧ is_array_ok ks s1.parser.is_array := by
    intro b r _ hs
    obtain ⟨h1, h2, h3⟩ := hs
    exact ⟨by rw [h1, hd], by rw [h1, h3]; exact hlt, by rw [h2]; exact hok⟩
  cases l <;> simp only [transition] at ht <;> simp only [] at hl
  · obtain ⟨r, hks⟩ := hl
    exact hclose false r hks ht.1 ht.2
  · obtain ⟨r, hks⟩ := hl
    rcases ht with ⟨hl1, ho⟩ | ⟨hl1, hs⟩
    · exact hopen false r hks hl1 ho
    · subst hl1
      obtain ⟨a1, a2, a3⟩ := hsame false r hks hs
      exact ⟨⟨a1, a2, a3, ⟨r, hks⟩⟩, hs.2.2⟩
  · obtain ⟨r, hks⟩ := hl
    exact hclose false r hks ht.1 ht.2
  · obtain ⟨hs, hl1⟩ := ht
    subst hs
    cases ks with
    | nil =>
      have h1 : s1.depth = 1 := by simpa using hd
      rw [if_pos h1] at hl1
      subst hl1
      exact ⟨⟨hd, hlt, hok, rfl⟩, rfl⟩
    | cons k r =>
      have h1 : ¬ s1.depth = 1 := by
        rw [hd]
        simp
      have h2 : s1.parser.is_array s1.depth = k := by
        have := hl k r rfl
        rw [hd]
        simpa using this
      rw [if_neg h1, h2] at hl1
      cases k with
      | false =>
        simp only [Bool.false_eq_true, if_false] at hl1
        subst hl1
        exact ⟨⟨hd, hlt, hok, ⟨r, rfl⟩⟩, rfl⟩
      | true =>
        simp only [if_true] at hl1
        subst hl1
        exact ⟨⟨hd, hlt, hok, ⟨r, rfl⟩⟩, rfl⟩
  · obtain ⟨r, hks⟩ := hl
    rcases ht with ⟨hl1, hc⟩ | ⟨hl1, hs⟩
    · exact hclose true r hks hl1 hc
    · subst hl1
      obtain ⟨a1, a2, a3⟩ := hsame true r hks hs
      exact ⟨⟨a1, a2, a3, ⟨r, hks⟩⟩, hs.2.2⟩
  · obtain ⟨r, hks⟩ := hl
    rcases ht with ⟨hl1, ho⟩ | ⟨hl1, hs⟩
    · exact hopen true r hks hl1 ho
    · subst hl1
      obtain ⟨a1, a2, a3⟩ := hsame true r hks hs
      exact ⟨⟨a1, a2, a3, ⟨r, hks⟩⟩, hs.2.2⟩
  · obtain ⟨r, hks⟩ := hl
    rcases ht with ⟨hl1, hs⟩ | ⟨hl1, hc⟩
    · subst hl1
      obtain ⟨a1, a2, a3⟩ := hsame true r hks hs
      exact ⟨⟨a1, a2, a3, ⟨r, hks⟩⟩, hs.2.2⟩
    · exact hclose true r hks hl1 hc


theorem start_success (s : stage2_state) (h0 : s.depth = 0)
    (h : (structural_stream.start s).1 = .SUCCESS) :
    (structural_stream.start s).2.depth = 1
      ∧ 1 < s.parser.max_depth
      ∧ (structural_stream.start s).2.parser.max_depth = s.parser.max_depth := by
  unfold structural_stream.start at h ⊢
  simp only [] at h ⊢
  split at h
  · simp at h
  · rename_i hne
    rw [if_neg hne]
    by_cases hc : (structural_stream.start_document s).1 = .SUCCESS
    · rw [if_neg (by rw [hc]; simp)]
      have hd : (s.depth + 1) % 2 ^ 32 = 1 := by rw [h0]; rfl
      rw [structural_stream.start_document, stream_start_scope_code, hd] at hc
      refine ⟨?_, ?_, rfl⟩
      · show (s.depth + 1) % 2 ^ 32 = 1
        exact hd
      · by_contra hle
        rw [if_pos (by omega)] at hc
        simp at hc
    · rw [if_pos hc] at h
      simp at h

theorem reachable_stack_inv (S : Bool) (u : leaf_utilities) (p : dom_parser_implementation)
    (hmd : p.max_depth < 2 ^ 32) (ks : List Bool) (l : structural_stream.label)
    (s : stage2_state) (h : reachable S u p ks l s) :
    stack_inv ks l s ∧ s.parser.max_depth = p.max_depth := by
  induction h with
  | first s1 l hstart hfirst =>
    obtain ⟨hd, hlt, hm⟩ := start_success (initial_state S p) rfl hstart
    have hpm : (initial_state S p).parser.max_depth = p.max_depth := rfl
    rw [hpm] at hlt hm
    rcases first_value_goto S u _ l s1 hfirst with ⟨hl, ho⟩ | ⟨hl, hs⟩
    · obtain ⟨h1, h2, h3, h4⟩ := ho
      rw [hm] at h2 h4
      have hd2 : s1.depth = 2 := by
        rw [h1, hd]
        rfl
      rcases hl with hl | hl
      · subst hl
        exact ⟨⟨by rw [hd2]; rfl, by rw [h4]; exact h2, by simp [is_array_ok], ⟨[], rfl⟩⟩, h4⟩
      · subst hl
        exact ⟨⟨by rw [hd2]; rfl, by rw [h4]; exact h2, by simp [is_array_ok], ⟨[], rfl⟩⟩, h4⟩
    · obtain ⟨h1, h2, h3⟩ := hs
      rw [hm] at h3
      subst hl
      exact ⟨⟨by rw [h1, hd]; rfl, by rw [h1, hd, h3]; exact hlt, by simp [is_array_ok], rfl⟩, h3⟩
  | step ks l s s1 l1 _ hstep ih =>
    obtain ⟨hinv, hm⟩ := ih
    have ht := step_transition u l l1 s s1 hstep
    obtain ⟨a, b⟩ := stack_inv_transition ks l l1 s s1 (by rw [hm]; exact hmd) hinv ht
    exact ⟨a, by rw [b, hm]⟩

/-- C19: in every parse with `max_depth` below `2^32`, whenever control reaches
`scope_end` (a container has just been closed) with `ks` the containers that are still
open, innermost first: `scope_end` goes to `finish` when `ks` is empty (the container
just closed was the root value, and depth is back at 1), to `array_continue` when the
innermost container still open, the one that directly enclosed the closed one, is an
array, and to `object_continue` when it is an object; and depth is the number of open
containers plus one. The stack `ks` is kept along the whole run, so the statement
holds whatever was opened and closed in between. -/
theorem C19_scope_end_returns_to_the_enclosing_container (S : Bool) (u : leaf_utilities)
    (p : dom_parser_implementation) (ks : List Bool) (s : stage2_state)
    (hmd : p.max_depth < 2 ^ 32) (h : reachable S u p ks .scope_end s) :
    structural_stream.step u .scope_end s = (s, .goto (scope_end_target ks))
    ∧ s.depth = ks.length + 1 := by
  obtain ⟨⟨hd, _, _, hl⟩, _⟩ := reachable_stack_inv S u p hmd ks .scope_end s h
  refine ⟨?_, hd⟩
  simp only [] at hl
  simp only [structural_stream.step]
  cases ks with
  | nil =>
    have h1 : s.depth = 1 := by simpa using hd
    rw [if_pos h1]
    rfl
  | cons k r =>
    have h1 : ¬ s.depth = 1 := by
      rw [hd]
      simp
    have h2 : s.parser.is_array s.depth = k := by
      have := hl k r rfl
      rw [hd]
      simpa using this
    rw [if_neg h1, h2]
    cases k <;> simp [scope_end_target]

/-- Witness for `C19_scope_end_returns_to_the_enclosing_container`: in the parse of
`[}]` with the uninitialised pointer on a `{`, an object is opened inside the root
array and closed again; `scope_end` then continues at `array_continue`, at depth 2. -/
theorem C19_scope_end_returns_to_the_enclosing_container_witness :
    structural_stream.step (accepting_utilities [3]) .scope_end nested_close_states.2.2.2
      = (nested_close_states.2.2.2, .goto .array_continue)
    ∧ nested_close_states.2.2.2.depth = 2 :=
  C19_scope_end_returns_to_the_enclosing_container false (accepting_utilities [3])
    (parser_of [91, 125, 93, 123] [0, 1, 2] 4 0) [true] nested_close_states.2.2.2 (by decide)
    (reachable.step [false, true] .object_begin nested_close_states.2.2.1
      nested_close_states.2.2.2 .scope_end
      (reachable.step [true] .main_array_switch nested_close_states.2.1
        nested_close_states.2.2.1 .object_begin
        (reachable.step [true] .array_begin nested_close_states.1 nested_close_states.2.1
          .main_array_switch
          (reachable.first nested_close_states.1 .array_begin (by decide)
            (Prod.ext rfl (by decide)))
          (Prod.ext rfl (by decide)))
        (Prod.ext rfl (by decide)))
      (Prod.ext rfl (by decide)))


/-! ## Two parses of the same input

The lemmas of this section run two parses with one and the same `u`, that is, with the
uninitialised pointer of `main_array_switch` holding the same value at each read in
both. Under that condition the parses stay in step whatever the prior contents of
tape, string buffer, scope records and `is_array`. -/

theorem mem_rel_store {α : Type} (a b a0 b0 : Nat → α) (k : Nat) (v : α)
    (h : mem_rel a b a0 b0) : mem_rel (store a k v) (store b k v) a0 b0 := by
  intro i
  by_cases hi : i = k
  · left
    rw [hi, store_same, store_same]
  · rw [store_other _ _ _ _ hi, store_other _ _ _ _ hi]
    exact h i

theorem mem_rel_store_bytes (a b a0 b0 : Nat → Nat) (k : Nat) (bs : List Nat)
    (h : mem_rel a b a0 b0) : mem_rel (store_bytes a k bs) (store_bytes b k bs) a0 b0 := by
  intro i
  by_cases hi : k ≤ i ∧ i < k + bs.length
  · left
    simp only [store_bytes, if_pos hi]
  · simp only [store_bytes, if_neg hi]
    exact h i

theorem sim.output {p0 q0 : dom_parser_implementation} {bound : Nat} {s t : stage2_state}
    (h : sim p0 q0 bound s t) : same_output p0 q0 s t :=
  ⟨h.next_tape_loc, h.current_string_buf_loc, h.tape, h.string_buf, h.kept⟩

theorem sim.mono {p0 q0 : dom_parser_implementation} {bound b2 : Nat} {s t : stage2_state}
    (h : sim p0 q0 bound s t) (hb : b2 ≤ bound) : sim p0 q0 b2 s t :=
  { h with is_array := fun d hd => h.is_array d (by omega) }

theorem sim_append {p0 q0 : dom_parser_implementation} {bound : Nat} {s t : stage2_state}
    (h : sim p0 q0 bound s t) (payload : Nat) (tag : tape_type) :
    sim p0 q0 bound (tape_writer.append s payload tag) (tape_writer.append t payload tag) :=
  { h with
    next_tape_loc := by
      show t.next_tape_loc + 1 = s.next_tape_loc + 1
      rw [h.next_tape_loc]
    tape := by
      show mem_rel (store s.parser.tape s.next_tape_loc _) (store t.parser.tape t.next_tape_loc _)
        _ _
      rw [h.next_tape_loc]
      exact mem_rel_store _ _ _ _ _ _ h.tape }

theorem sim_append_raw {p0 q0 : dom_parser_implementation} {bound : Nat} {s t : stage2_state}
    (h : sim p0 q0 bound s t) (value : Nat) :
    sim p0 q0 bound (tape_writer.append_raw s value) (tape_writer.append_raw t value) :=
  { h with
    next_tape_loc := by
      show t.next_tape_loc + 1 = s.next_tape_loc + 1
      rw [h.next_tape_loc]
    tape := by
      show mem_rel (store s.parser.tape s.next_tape_loc _) (store t.parser.tape t.next_tape_loc _)
        _ _
      rw [h.next_tape_loc]
      exact mem_rel_store _ _ _ _ _ _ h.tape }

theorem sim_parse_string {p0 q0 : dom_parser_implementation} {bound : Nat} {s t : stage2_state}
    (h : sim p0 q0 bound s t) (u : leaf_utilities) (src : Nat) :
    sim p0 q0 bound (structural_parser_stream.parse_string u s src).2
      (structural_parser_stream.parse_string u t src).2 := by
  unfold structural_parser_stream.parse_string
  simp only [structural_parser_stream.on_start_string]
  rw [h.buf, h.current_string_buf_loc]
  have ha := sim_append h s.current_string_buf_loc .STRING
  cases u.parse_string s.parser.buf src with
  | none => exact ha
  | some out =>
    simp only [structural_parser_stream.on_end_string]
    exact { ha with
      current_string_buf_loc := rfl
      string_buf := by
        simp only [tape_writer.append]
        rw [h.current_string_buf_loc]
        apply mem_rel_store
        apply mem_rel_store_bytes
        apply mem_rel_store_bytes
        exact h.string_buf }

theorem sim_number_in {p0 q0 : dom_parser_implementation} {bound : Nat} {s t : stage2_state}
    (h : sim p0 q0 bound s t) (u : leaf_utilities) (mem : Nat → Nat) (src : Nat) :
    (structural_parser_stream.number_in u t mem src).1
        = (structural_parser_stream.number_in u s mem src).1
    ∧ sim p0 q0 bound (structural_parser_stream.number_in u s mem src).2
        (structural_parser_stream.number_in u t mem src).2 := by
  unfold structural_parser_stream.number_in
  cases u.parse_number mem src with
  | none => exact ⟨rfl, h⟩
  | some kv => exact ⟨rfl, sim_append_raw (sim_append h 0 kv.1.tag) kv.2⟩

theorem sim_number_len {p0 q0 : dom_parser_implementation} {bound : Nat} {s t : stage2_state}
    (h : sim p0 q0 bound s t) (u : leaf_utilities) (src n : Nat) :
    (structural_parser_stream.number_len u t src n).1
        = (structural_parser_stream.number_len u s src n).1
    ∧ sim p0 q0 bound (structural_parser_stream.number_len u s src n).2
        (structural_parser_stream.number_len u t src n).2 := by
  unfold structural_parser_stream.number_len
  rw [h.buf]
  split
  · exact sim_number_in h u _ 0
  · exact ⟨rfl, h⟩

theorem sim_atom {p0 q0 : dom_parser_implementation} {bound : Nat} {s t : stage2_state}
    (h : sim p0 q0 bound s t) (b : Bool) (tag : tape_type) (e : error_code) :
    (if b = true then (error_code.SUCCESS, tape_writer.append t 0 tag) else (e, t)).1
        = (if b = true then (error_code.SUCCESS, tape_writer.append s 0 tag) else (e, s)).1
    ∧ sim p0 q0 bound
        (if b = true then (error_code.SUCCESS, tape_writer.append s 0 tag) else (e, s)).2
        (if b = true then (error_code.SUCCESS, tape_writer.append t 0 tag) else (e, t)).2 := by
  cases b with
  | false => exact ⟨rfl, h⟩
  | true => exact ⟨rfl, sim_append h 0 tag⟩

theorem open_object_fail (s : stage2_state) (b : Bool)
    (h : (s.depth + 1) % 2 ^ 32 ≥ s.parser.max_depth) :
    structural_stream.open_object s b
      = (.DEPTH_ERROR, (structural_stream.start_scope s b).2) := by
  unfold structural_stream.open_object
  simp only []
  have hc : (structural_stream.start_object s b).1 = .DEPTH_ERROR := by
    rw [structural_stream.start_object, stream_start_scope_code, if_pos h]
  rw [if_pos (by rw [hc]; simp)]
  exact Prod.ext hc rfl

theorem open_object_ok (s : stage2_state) (b : Bool)
    (h : ¬ (s.depth + 1) % 2 ^ 32 ≥ s.parser.max_depth) :
    structural_stream.open_object s b
      = (.SUCCESS,
          (structural_parser_stream.start_scope (structural_stream.start_scope s b).2
            ((s.depth + 1) % 2 ^ 32)).2) := by
  unfold structural_stream.open_object
  simp only []
  have hc : (structural_stream.start_object s b).1 = .SUCCESS := by
    rw [structural_stream.start_object, stream_start_scope_code, if_neg h]
  rw [if_neg (by rw [hc]; simp)]
  rfl

theorem sim_open_fail {p0 q0 : dom_parser_implementation} {bound : Nat} {s t : stage2_state}
    (h : sim p0 q0 bound s t) (b : Bool) :
    same_output p0 q0 (structural_stream.start_scope s b).2 (structural_stream.start_scope t b).2 :=
  ⟨h.next_tape_loc, h.current_string_buf_loc, h.tape, h.string_buf, h.kept⟩

theorem sim_open_ok {p0 q0 : dom_parser_implementation} {bound : Nat} {s t : stage2_state}
    (h : sim p0 q0 bound s t) (hb : s.depth ≤ bound) (b : Bool) :
    sim p0 q0 ((s.depth + 1) % 2 ^ 32)
      (structural_parser_stream.start_scope (structural_stream.start_scope s b).2
        ((s.depth + 1) % 2 ^ 32)).2
      (structural_parser_stream.start_scope (structural_stream.start_scope t b).2
        ((t.depth + 1) % 2 ^ 32)).2 := by
  have hle : (s.depth + 1) % 2 ^ 32 ≤ s.depth + 1 := Nat.mod_le _ _
  rw [h.depth]
  exact { h with
    depth := by
      show (t.depth + 1) % 2 ^ 32 = (s.depth + 1) % 2 ^ 32
      rw [h.depth]
    next_tape_loc := by
      show t.next_tape_loc + 1 = s.next_tape_loc + 1
      rw [h.next_tape_loc]
    is_array := by
      intro d hd
      show store t.parser.is_array t.depth b d = store s.parser.is_array s.depth b d
      rw [h.depth]
      by_cases hds : d = s.depth
      · rw [hds, store_same, store_same]
      · rw [store_other _ _ _ _ hds, store_other _ _ _ _ hds]
        exact h.is_array d (by omega)
    containing_scope := by
      intro d hd2 hd
      show store t.parser.containing_scope ((s.depth + 1) % 2 ^ 32)
          ⟨t.next_tape_loc % 2 ^ 32, 0⟩ d
        = store s.parser.containing_scope ((s.depth + 1) % 2 ^ 32)
          ⟨s.next_tape_loc % 2 ^ 32, 0⟩ d
      rw [h.next_tape_loc]
      by_cases hds : d = (s.depth + 1) % 2 ^ 32
      · rw [hds, store_same, store_same]
      · rw [store_other _ _ _ _ hds, store_other _ _ _ _ hds]
        have hd' : d ≤ (s.depth + 1) % 2 ^ 32 := hd
        exact h.containing_scope d hd2 (by omega) }

theorem sim_write {p0 q0 : dom_parser_implementation} {bound : Nat} {s t : stage2_state}
    (h : sim p0 q0 bound s t) (word_ref payload : Nat) (tag : tape_type) :
    sim p0 q0 bound (tape_writer.write s word_ref payload tag)
      (tape_writer.write t word_ref payload tag) :=
  { h with tape := mem_rel_store _ _ _ _ _ _ h.tape }

theorem end_scope_snd (s : stage2_state) (depth : Nat) (start fin : tape_type) :
    (structural_parser_stream.end_scope s depth start fin).2
      = tape_writer.write
          (tape_writer.append s (s.parser.containing_scope depth).tape_index fin)
          (s.parser.containing_scope depth).tape_index
          (structural_parser_stream.next_tape_index
              (tape_writer.append s (s.parser.containing_scope depth).tape_index fin)
            ||| ((if (s.parser.containing_scope depth).count > 0xFFFFFF then 0xFFFFFF
                  else (s.parser.containing_scope depth).count) <<< 32))
          start := rfl

theorem sim_end_scope {p0 q0 : dom_parser_implementation} {bound : Nat} {s t : stage2_state}
    (h : sim p0 q0 bound s t) (hd : 2 ≤ s.depth) (start fin : tape_type) :
    sim p0 q0 bound (structural_parser_stream.end_scope s s.depth start fin).2
      (structural_parser_stream.end_scope t t.depth start fin).2 := by
  have hsc := h.containing_scope s.depth hd (le_refl _)
  have ha := sim_append h (s.parser.containing_scope s.depth).tape_index fin
  have hn : structural_parser_stream.next_tape_index
        (tape_writer.append t (s.parser.containing_scope s.depth).tape_index fin)
      = structural_parser_stream.next_tape_index
        (tape_writer.append s (s.parser.containing_scope s.depth).tape_index fin) := by
    unfold structural_parser_stream.next_tape_index
    rw [ha.next_tape_loc]
  rw [end_scope_snd, end_scope_snd, h.depth, hsc, hn]
  exact sim_write ha _ _ _

theorem sim_stream_end_scope {p0 q0 : dom_parser_implementation} {bound : Nat}
    {s t : stage2_state} (h : sim p0 q0 bound s t) (hd : 1 ≤ s.depth) :
    sim p0 q0 bound (structural_stream.end_scope s) (structural_stream.end_scope t) :=
  { h with
    depth := by
      show (if t.depth = 0 then 2 ^ 32 - 1 else t.depth - 1)
        = (if s.depth = 0 then 2 ^ 32 - 1 else s.depth - 1)
      rw [h.depth]
    containing_scope := by
      intro d hd2 hle
      have hle2 : d ≤ (if s.depth = 0 then 2 ^ 32 - 1 else s.depth - 1) := hle
      rw [if_neg (by omega)] at hle2
      exact h.containing_scope d hd2 (by omega) }

theorem stream_end_scope_depth (s : stage2_state) (hd : 1 ≤ s.depth) :
    (structural_stream.end_scope s).depth + 1 = s.depth := by
  show (if s.depth = 0 then 2 ^ 32 - 1 else s.depth - 1) + 1 = s.depth
  rw [if_neg (by omega)]
  omega

theorem sim_advance_char {p0 q0 : dom_parser_implementation} {bound : Nat} {s t : stage2_state}
    (h : sim p0 q0 bound s t) :
    (structural_iterator.advance_char t).1 = (structural_iterator.advance_char s).1
    ∧ sim p0 q0 bound (structural_iterator.advance_char s).2
        (structural_iterator.advance_char t).2 := by
  refine ⟨?_, ?_⟩
  · show t.parser.buf (t.parser.structural_indexes (t.current_structural + 1))
      = s.parser.buf (s.parser.structural_indexes (s.current_structural + 1))
    rw [h.buf, h.structural_indexes, h.current_structural]
  · exact { h with
      current_structural := by
        show t.current_structural + 1 = s.current_structural + 1
        rw [h.current_structural] }

theorem sim_advance {p0 q0 : dom_parser_implementation} {bound : Nat} {s t : stage2_state}
    (h : sim p0 q0 bound s t) :
    (structural_iterator.advance t).1 = (structural_iterator.advance s).1
    ∧ sim p0 q0 bound (structural_iterator.advance s).2 (structural_iterator.advance t).2 := by
  refine ⟨?_, ?_⟩
  · show t.parser.structural_indexes t.current_structural
      = s.parser.structural_indexes s.current_structural
    rw [h.structural_indexes, h.current_structural]
  · exact { h with
      current_structural := by
        show t.current_structural + 1 = s.current_structural + 1
        rw [h.current_structural] }

theorem sim_current {p0 q0 : dom_parser_implementation} {bound : Nat} {s t : stage2_state}
    (h : sim p0 q0 bound s t) :
    structural_iterator.current t = structural_iterator.current s := by
  show t.parser.structural_indexes t.current_structural
    = s.parser.structural_indexes s.current_structural
  rw [h.structural_indexes, h.current_structural]

theorem in_step_return_or_goto {p0 q0 : dom_parser_implementation} {bound : Nat}
    {rs rt : error_code × stage2_state} (next : structural_stream.label) (hc : rt.1 = rs.1)
    (h : sim p0 q0 bound rs.2 rt.2) (hb : ia_bound next rs.2 ≤ bound) :
    in_step p0 q0 (structural_stream.return_or_goto rs next)
      (structural_stream.return_or_goto rt next) := by
  refine ⟨?_, h.output, ?_⟩
  · show (if rt.1 ≠ .SUCCESS then structural_stream.control.ret rt.1 else .goto next)
      = (if rs.1 ≠ .SUCCESS then structural_stream.control.ret rs.1 else .goto next)
    rw [hc]
  · intro l1 hl
    have hl2 : (if rs.1 ≠ .SUCCESS then structural_stream.control.ret rs.1 else .goto next)
        = .goto l1 := hl
    split_ifs at hl2
    cases hl2
    exact h.mono hb

theorem in_step_ret {p0 q0 : dom_parser_implementation} {bound : Nat} {s t : stage2_state}
    (h : sim p0 q0 bound s t) (e : error_code) :
    in_step p0 q0 (s, .ret e) (t, .ret e) :=
  ⟨rfl, h.output, fun _ hl => by cases hl⟩

theorem in_step_goto {p0 q0 : dom_parser_implementation} {bound : Nat} {s t : stage2_state}
    (h : sim p0 q0 bound s t) (l : structural_stream.label) (hb : ia_bound l s ≤ bound) :
    in_step p0 q0 (s, .goto l) (t, .goto l) :=
  ⟨rfl, h.output, fun l1 hl => by
    cases hl
    exact h.mono hb⟩

theorem open_array_eq_open_object (s : stage2_state) (b : Bool) :
    structural_stream.open_array s b = structural_stream.open_object s b := rfl

theorem ia_bound_of_ne (l : structural_stream.label) (s : stage2_state) (h : l ≠ .scope_end) :
    ia_bound l s = s.depth := by
  unfold ia_bound
  rw [if_neg h]

theorem in_step_open {p0 q0 : dom_parser_implementation} {bound : Nat} {s t : stage2_state}
    (h : sim p0 q0 bound s t) (hb : s.depth ≤ bound) (b : Bool)
    (next : structural_stream.label) (hn : next ≠ .scope_end) :
    in_step p0 q0 (structural_stream.return_or_goto (structural_stream.open_object s b) next)
      (structural_stream.return_or_goto (structural_stream.open_object t b) next) := by
  by_cases hc : (s.depth + 1) % 2 ^ 32 ≥ s.parser.max_depth
  · rw [open_object_fail s b hc, open_object_fail t b (by rw [h.depth, h.max_depth]; exact hc)]
    refine ⟨rfl, sim_open_fail h b, ?_⟩
    intro l1 hl
    simp [structural_stream.return_or_goto] at hl
  · rw [open_object_ok s b hc, open_object_ok t b (by rw [h.depth, h.max_depth]; exact hc)]
    refine in_step_return_or_goto next rfl (sim_open_ok h hb b) ?_
    rw [ia_bound_of_ne _ _ hn]
    exact le_refl _

theorem in_step_close_object {p0 q0 : dom_parser_implementation} {bound : Nat}
    {s t : stage2_state} (h : sim p0 q0 bound s t) (hd : 2 ≤ s.depth) (hb : s.depth ≤ bound) :
    in_step p0 q0 (structural_stream.close_object s) (structural_stream.close_object t) := by
  rw [close_object_eq, close_object_eq]
  have h1 := sim_end_scope h hd .START_OBJECT .END_OBJECT
  have h2 := sim_stream_end_scope h1 (by
    show 1 ≤ s.depth
    omega)
  refine in_step_goto h2 .scope_end ?_
  unfold ia_bound
  rw [if_pos rfl]
  have h3 := stream_end_scope_depth
    (structural_parser_stream.end_scope s s.depth .START_OBJECT .END_OBJECT).2 (by
      show 1 ≤ s.depth
      omega)
  have h4 : (structural_parser_stream.end_scope s s.depth .START_OBJECT .END_OBJECT).2.depth
      = s.depth := rfl
  rw [h4] at h3
  rw [h3]
  exact hb

theorem in_step_close_array {p0 q0 : dom_parser_implementation} {bound : Nat}
    {s t : stage2_state} (h : sim p0 q0 bound s t) (hd : 2 ≤ s.depth) (hb : s.depth ≤ bound) :
    in_step p0 q0 (structural_stream.close_array s) (structural_stream.close_array t) := by
  rw [close_array_eq, close_array_eq]
  have h1 := sim_end_scope h hd .START_ARRAY .END_ARRAY
  have h2 := sim_stream_end_scope h1 (by
    show 1 ≤ s.depth
    omega)
  refine in_step_goto h2 .scope_end ?_
  unfold ia_bound
  rw [if_pos rfl]
  have h3 := stream_end_scope_depth
    (structural_parser_stream.end_scope s s.depth .START_ARRAY .END_ARRAY).2 (by
      show 1 ≤ s.depth
      omega)
  have h4 : (structural_parser_stream.end_scope s s.depth .START_ARRAY .END_ARRAY).2.depth
      = s.depth := rfl
  rw [h4] at h3
  rw [h3]
  exact hb

theorem sim_number {p0 q0 : dom_parser_implementation} {bound : Nat} {s t : stage2_state}
    (h : sim p0 q0 bound s t) (u : leaf_utilities) (src : Nat) :
    (structural_parser_stream.number u t src).1 = (structural_parser_stream.number u s src).1
    ∧ sim p0 q0 bound (structural_parser_stream.number u s src).2
        (structural_parser_stream.number u t src).2 := by
  unfold structural_parser_stream.number
  rw [h.buf]
  exact sim_number_in h u _ _

theorem parse_string_depth (u : leaf_utilities) (s : stage2_state) (src : Nat) :
    (structural_parser_stream.parse_string u s src).2.depth = s.depth :=
  (parse_string_same_scopes u s src).1

theorem value_switch_sim {p0 q0 : dom_parser_implementation} {s t : stage2_state}
    (h : sim p0 q0 s.depth s t) (u : leaf_utilities) (value : Nat) (b : Bool)
    (next : structural_stream.label) (hn : next ≠ .scope_end) :
    in_step p0 q0 (structural_stream.value_switch u s value b next)
      (structural_stream.value_switch u t value b next) := by
  unfold structural_stream.value_switch
  simp only []
  rw [h.buf]
  split_ifs
  · exact in_step_open h (le_refl _) b _ (by decide)
  · rw [open_array_eq_open_object, open_array_eq_open_object]
    exact in_step_open h (le_refl _) b _ (by decide)
  · refine in_step_return_or_goto next
      ((parse_string_code u t value).trans (parse_string_code u s value).symm)
      (sim_parse_string h u value) ?_
    rw [ia_bound_of_ne _ _ hn]
    exact le_of_eq (parse_string_same_scopes u s value).1
  · unfold structural_parser_stream.true_atom
    rw [h.buf]
    have ha := sim_atom h (u.is_valid_true_atom s.parser.buf value) .TRUE_VALUE .T_ATOM_ERROR
    refine in_step_return_or_goto next ha.1 ha.2 ?_
    rw [ia_bound_of_ne _ _ hn]
    exact le_of_eq (atom_same_scopes _ _ _ _).1
  · unfold structural_parser_stream.false_atom
    rw [h.buf]
    have ha := sim_atom h (u.is_valid_false_atom s.parser.buf value) .FALSE_VALUE .F_ATOM_ERROR
    refine in_step_return_or_goto next ha.1 ha.2 ?_
    rw [ia_bound_of_ne _ _ hn]
    exact le_of_eq (atom_same_scopes _ _ _ _).1
  · unfold structural_parser_stream.null_atom
    rw [h.buf]
    have ha := sim_atom h (u.is_valid_null_atom s.parser.buf value) .NULL_VALUE .N_ATOM_ERROR
    refine in_step_return_or_goto next ha.1 ha.2 ?_
    rw [ia_bound_of_ne _ _ hn]
    exact le_of_eq (atom_same_scopes _ _ _ _).1
  · have ha := sim_number h u value
    refine in_step_return_or_goto next ha.1 ha.2 ?_
    rw [ia_bound_of_ne _ _ hn]
    exact le_of_eq (number_in_same_scopes _ _ _ _).1
  · exact in_step_ret h _

theorem step_object_begin (u : leaf_utilities) (s : stage2_state) :
    structural_stream.step u .object_begin s
      = if (structural_iterator.advance_char s).1 = 34 then
          structural_stream.return_or_goto
            (structural_parser_stream.key u (structural_iterator.advance_char s).2
              (structural_iterator.current (structural_iterator.advance_char s).2))
            .object_key_state
        else if (structural_iterator.advance_char s).1 = 125 then
          structural_stream.close_object (structural_iterator.advance_char s).2
        else ((structural_iterator.advance_char s).2, .ret .TAPE_ERROR) := rfl

theorem step_object_key_state (u : leaf_utilities) (s : stage2_state) :
    structural_stream.step u .object_key_state s
      = if (structural_iterator.advance_char s).1 ≠ 58 then
          ((structural_iterator.advance_char s).2, .ret .TAPE_ERROR)
        else
          structural_stream.value_switch u
            (structural_iterator.advance (structural_iterator.advance_char s).2).2
            (structural_iterator.advance (structural_iterator.advance_char s).2).1
            false .object_continue := rfl

theorem step_object_continue (u : leaf_utilities) (s : stage2_state) :
    structural_stream.step u .object_continue s
      = if (structural_iterator.advance_char s).1 = 44 then
          (if (structural_iterator.advance (structural_iterator.advance_char s).2).2.parser.buf
                (structural_iterator.advance (structural_iterator.advance_char s).2).1 ≠ 34 then
            ((structural_iterator.advance (structural_iterator.advance_char s).2).2,
              .ret .TAPE_ERROR)
          else
            structural_stream.return_or_goto
              (structural_parser_stream.key u
                (structural_iterator.advance (structural_iterator.advance_char s).2).2
                (structural_iterator.advance (structural_iterator.advance_char s).2).1)
              .object_key_state)
        else if (structural_iterator.advance_char s).1 = 125 then
          structural_stream.close_object (structural_iterator.advance_char s).2
        else ((structural_iterator.advance_char s).2, .ret .TAPE_ERROR) := rfl

theorem step_array_begin (u : leaf_utilities) (s : stage2_state) :
    structural_stream.step u .array_begin s
      = if structural_iterator.peek_next_char s = 93 then
          structural_stream.close_array (structural_iterator.advance_char s).2
        else (s, .goto .main_array_switch) := rfl

theorem step_main_array_switch (u : leaf_utilities) (s : stage2_state) :
    structural_stream.step u .main_array_switch s
      = structural_stream.value_switch u { s with uninit_reads := s.uninit_reads + 1 }
          (u.uninit_value s.uninit_reads) true .array_continue := rfl

theorem step_array_continue (u : leaf_utilities) (s : stage2_state) :
    structural_stream.step u .array_continue s
      = if (structural_iterator.advance_char s).1 = 44 then
          ((structural_iterator.advance_char s).2, .goto .main_array_switch)
        else if (structural_iterator.advance_char s).1 = 93 then
          structural_stream.close_array (structural_iterator.advance_char s).2
        else ((structural_iterator.advance_char s).2, .ret .TAPE_ERROR) := rfl

theorem step_scope_end (u : leaf_utilities) (s : stage2_state) :
    structural_stream.step u .scope_end s
      = if s.depth = 1 then (s, .goto .finish)
        else if s.parser.is_array s.depth = true then (s, .goto .array_continue)
        else (s, .goto .object_continue) := rfl

theorem step_finish (u : leaf_utilities) (s : stage2_state) :
    structural_stream.step u .finish s
      = ((structural_stream.finish s).2, .ret (structural_stream.finish s).1) := rfl

theorem sim_peek_next_char {p0 q0 : dom_parser_implementation} {bound : Nat}
    {s t : stage2_state} (h : sim p0 q0 bound s t) :
    structural_iterator.peek_next_char t = structural_iterator.peek_next_char s := by
  show t.parser.buf (t.parser.structural_indexes (t.current_structural + 1))
    = s.parser.buf (s.parser.structural_indexes (s.current_structural + 1))
  rw [h.buf, h.structural_indexes, h.current_structural]

theorem sim_uninit {p0 q0 : dom_parser_implementation} {bound : Nat} {s t : stage2_state}
    (h : sim p0 q0 bound s t) :
    sim p0 q0 bound { s with uninit_reads := s.uninit_reads + 1 }
      { t with uninit_reads := t.uninit_reads + 1 } :=
  { h with
    uninit_reads := by
      show t.uninit_reads + 1 = s.uninit_reads + 1
      rw [h.uninit_reads] }

theorem in_step_finish {p0 q0 : dom_parser_implementation} {bound : Nat} {s t : stage2_state}
    (h : sim p0 q0 bound s t) :
    in_step p0 q0
      ((structural_stream.finish s).2, .ret (structural_stream.finish s).1)
      ((structural_stream.finish t).2, .ret (structural_stream.finish t).1) := by
  refine ⟨?_, ⟨h.next_tape_loc, h.current_string_buf_loc, h.tape, h.string_buf, h.kept⟩, ?_⟩
  · show structural_stream.control.ret
        (if (if t.depth = 0 then 2 ^ 32 - 1 else t.depth - 1) ≠ 0 then .TAPE_ERROR else .SUCCESS)
      = structural_stream.control.ret
        (if (if s.depth = 0 then 2 ^ 32 - 1 else s.depth - 1) ≠ 0 then .TAPE_ERROR else .SUCCESS)
    rw [h.depth]
  · intro l1 hl
    cases hl

theorem ia_bound_scope_end (s : stage2_state) : ia_bound .scope_end s = s.depth + 1 :=
  if_pos rfl

theorem step_sim {p0 q0 : dom_parser_implementation} {s t : stage2_state} (u : leaf_utilities)
    (ks : List Bool) (l : structural_stream.label) (hinv : stack_inv ks l s)
    (h : sim p0 q0 (ia_bound l s) s t) :
    in_step p0 q0 (structural_stream.step u l s) (structural_stream.step u l t) := by
  obtain ⟨hd, _, _, hl⟩ := hinv
  have hd2 : ∀ (k : Bool) (r : List Bool), ks = k :: r → 2 ≤ s.depth := by
    intro k r hks
    rw [hd, hks]
    simp
  cases l <;> simp only [] at hl
  · obtain ⟨r, hks⟩ := hl
    rw [ia_bound_of_ne _ _ (by decide)] at h
    obtain ⟨hc, h1⟩ := sim_advance_char h
    rw [step_object_begin, step_object_begin, hc, sim_current h1]
    split_ifs
    · refine in_step_return_or_goto _
        ((parse_string_code u _ _).trans (parse_string_code u _ _).symm)
        (sim_parse_string h1 u _) ?_
      rw [ia_bound_of_ne _ _ (by decide)]
      exact le_of_eq (parse_string_same_scopes u _ _).1
    · exact in_step_close_object h1 (hd2 _ _ hks) (le_refl _)
    · exact in_step_ret h1 _
  · rw [ia_bound_of_ne _ _ (by decide)] at h
    obtain ⟨hc, h1⟩ := sim_advance_char h
    obtain ⟨hv, h2⟩ := sim_advance h1
    rw [step_object_key_state, step_object_key_state, hc, hv]
    split_ifs
    · exact in_step_ret h1 _
    · exact @value_switch_sim p0 q0
        (structural_iterator.advance (structural_iterator.advance_char s).2).2
        (structural_iterator.advance (structural_iterator.advance_char t).2).2
        h2 u _ false _ (by decide)
  · obtain ⟨r, hks⟩ := hl
    rw [ia_bound_of_ne _ _ (by decide)] at h
    obtain ⟨hc, h1⟩ := sim_advance_char h
    obtain ⟨hv, h2⟩ := sim_advance h1
    rw [step_object_continue, step_object_continue, hc, hv, h2.buf]
    split_ifs
    · exact in_step_ret h2 _
    · refine in_step_return_or_goto _
        ((parse_string_code u _ _).trans (parse_string_code u _ _).symm)
        (sim_parse_string h2 u _) ?_
      rw [ia_bound_of_ne _ _ (by decide)]
      exact le_of_eq (parse_string_same_scopes u _ _).1
    · exact in_step_close_object h1 (hd2 _ _ hks) (le_refl _)
    · exact in_step_ret h1 _
  · rw [ia_bound_scope_end] at h
    rw [step_scope_end, step_scope_end, h.depth, h.is_array s.depth (by omega)]
    split_ifs
    · exact in_step_goto h _ (by rw [ia_bound_of_ne _ _ (by decide)]; omega)
    · exact in_step_goto h _ (by rw [ia_bound_of_ne _ _ (by decide)]; omega)
    · exact in_step_goto h _ (by rw [ia_bound_of_ne _ _ (by decide)]; omega)
  · obtain ⟨r, hks⟩ := hl
    rw [ia_bound_of_ne _ _ (by decide)] at h
    obtain ⟨_, h1⟩ := sim_advance_char h
    rw [step_array_begin, step_array_begin, sim_peek_next_char h]
    split_ifs
    · exact in_step_close_array h1 (hd2 _ _ hks) (le_refl _)
    · exact in_step_goto h _ (by rw [ia_bound_of_ne _ _ (by decide)])
  · rw [ia_bound_of_ne _ _ (by decide)] at h
    have hv : u.uninit_value t.uninit_reads = u.uninit_value s.uninit_reads := by
      rw [h.uninit_reads]
    rw [step_main_array_switch, step_main_array_switch, hv]
    exact @value_switch_sim p0 q0 { s with uninit_reads := s.uninit_reads + 1 }
      { t with uninit_reads := t.uninit_reads + 1 } (sim_uninit h) u _ true _ (by decide)
  · obtain ⟨r, hks⟩ := hl
    rw [ia_bound_of_ne _ _ (by decide)] at h
    obtain ⟨hc, h1⟩ := sim_advance_char h
    rw [step_array_continue, step_array_continue, hc]
    split_ifs
    · exact in_step_goto h1 _ (by rw [ia_bound_of_ne _ _ (by decide)]; exact le_refl _)
    · exact in_step_close_array h1 (hd2 _ _ hks) (le_refl _)
    · exact in_step_ret h1 _
  · rw [step_finish, step_finish]
    exact in_step_finish h

theorem open_object_input (s : stage2_state) (b : Bool) :
    same_input s.parser (structural_stream.open_object s b).2.parser := by
  by_cases hc : (s.depth + 1) % 2 ^ 32 ≥ s.parser.max_depth
  · rw [open_object_fail s b hc]
    exact ⟨rfl, rfl, rfl, rfl, rfl⟩
  · rw [open_object_ok s b hc]
    exact ⟨rfl, rfl, rfl, rfl, rfl⟩

theorem first_value_sim {p0 q0 : dom_parser_implementation} {s t : stage2_state}
    (h : sim p0 q0 s.depth s t) (S : Bool) (u : leaf_utilities) :
    in_step p0 q0 (structural_stream.first_value S u s) (structural_stream.first_value S u t) := by
  have hcur := sim_current h
  have hcc : structural_iterator.current_char t = structural_iterator.current_char s := by
    show t.parser.buf (structural_iterator.current t) = s.parser.buf (structural_iterator.current s)
    rw [h.buf, hcur]
  have hrl : structural_iterator.remaining_len t = structural_iterator.remaining_len s := by
    show t.parser.len - structural_iterator.current t = s.parser.len - structural_iterator.current s
    rw [h.len, hcur]
  unfold structural_stream.first_value
  simp only []
  rw [hcc, hcur, hrl]
  by_cases h123 : structural_iterator.current_char s = 123
  · rw [if_pos h123, if_pos h123]
    exact in_step_open h (le_refl _) false _ (by decide)
  rw [if_neg h123, if_neg h123]
  by_cases h91 : structural_iterator.current_char s = 91
  · rw [if_pos h91, if_pos h91, open_array_eq_open_object, open_array_eq_open_object]
    by_cases hc : (s.depth + 1) % 2 ^ 32 ≥ s.parser.max_depth
    · rw [open_object_fail s false hc,
        open_object_fail t false (by rw [h.depth, h.max_depth]; exact hc)]
      exact ⟨rfl, sim_open_fail h false, fun l1 hl => by simp at hl⟩
    · rw [open_object_ok s false hc,
        open_object_ok t false (by rw [h.depth, h.max_depth]; exact hc)]
      have ho := sim_open_ok h (le_refl _) false
      simp only [ne_eq, not_true_eq_false, if_false]
      rw [ho.buf, ho.structural_indexes, ho.n_structural_indexes]
      split_ifs
      · exact in_step_ret ho _
      · exact in_step_goto ho _ (by rw [ia_bound_of_ne _ _ (by decide)]; exact le_refl _)
  rw [if_neg h91, if_neg h91]
  split_ifs
  · refine in_step_return_or_goto _
      ((parse_string_code u _ _).trans (parse_string_code u _ _).symm)
      (sim_parse_string h u _) ?_
    rw [ia_bound_of_ne _ _ (by decide)]
    exact le_of_eq (parse_string_same_scopes u _ _).1
  · unfold structural_parser_stream.true_atom_len
    rw [h.buf]
    have ha := sim_atom h (u.is_valid_true_atom_len s.parser.buf (structural_iterator.current s)
      (structural_iterator.remaining_len s)) .TRUE_VALUE .T_ATOM_ERROR
    refine in_step_return_or_goto _ ha.1 ha.2 ?_
    rw [ia_bound_of_ne _ _ (by decide)]
    exact le_of_eq (atom_same_scopes _ _ _ _).1
  · unfold structural_parser_stream.false_atom_len
    rw [h.buf]
    have ha := sim_atom h (u.is_valid_false_atom_len s.parser.buf (structural_iterator.current s)
      (structural_iterator.remaining_len s)) .FALSE_VALUE .F_ATOM_ERROR
    refine in_step_return_or_goto _ ha.1 ha.2 ?_
    rw [ia_bound_of_ne _ _ (by decide)]
    exact le_of_eq (atom_same_scopes _ _ _ _).1
  · unfold structural_parser_stream.null_atom_len
    rw [h.buf]
    have ha := sim_atom h (u.is_valid_null_atom_len s.parser.buf (structural_iterator.current s)
      (structural_iterator.remaining_len s)) .NULL_VALUE .N_ATOM_ERROR
    refine in_step_return_or_goto _ ha.1 ha.2 ?_
    rw [ia_bound_of_ne _ _ (by decide)]
    exact le_of_eq (atom_same_scopes _ _ _ _).1
  · have ha := sim_number_len h u (structural_iterator.current s)
      (structural_iterator.remaining_len s)
    refine in_step_return_or_goto _ ha.1 ha.2 ?_
    rw [ia_bound_of_ne _ _ (by decide)]
    exact le_of_eq (number_len_same_scopes _ _ _ _).1
  · exact in_step_ret h _

theorem sim_start_scope_root {p0 q0 : dom_parser_implementation} {s t : stage2_state}
    (h : sim p0 q0 0 s t) (hd0 : s.depth = 0) (b : Bool) :
    sim p0 q0 ((s.depth + 1) % 2 ^ 32) (structural_stream.start_scope s b).2
      (structural_stream.start_scope t b).2 :=
  { h with
    depth := by
      show (t.depth + 1) % 2 ^ 32 = (s.depth + 1) % 2 ^ 32
      rw [h.depth]
    is_array := by
      intro d hd
      show store t.parser.is_array t.depth b d = store s.parser.is_array s.depth b d
      rw [h.depth]
      have hle := Nat.mod_le (s.depth + 1) (2 ^ 32)
      have hds : d = s.depth := by omega
      rw [hds, store_same, store_same]
    containing_scope := by
      intro d hd2 hle
      have hle2 : d ≤ (s.depth + 1) % 2 ^ 32 := hle
      have hle3 := Nat.mod_le (s.depth + 1) (2 ^ 32)
      omega }

theorem sim_start {p0 q0 : dom_parser_implementation} {s t : stage2_state}
    (h : sim p0 q0 0 s t) (hd0 : s.depth = 0) :
    (structural_stream.start t).1 = (structural_stream.start s).1
    ∧ same_output p0 q0 (structural_stream.start s).2 (structural_stream.start t).2
    ∧ ((structural_stream.start s).1 = .SUCCESS →
        sim p0 q0 (structural_stream.start s).2.depth (structural_stream.start s).2
          (structural_stream.start t).2) := by
  have hat : structural_iterator.at_end t t.parser.n_structural_indexes
      = structural_iterator.at_end s s.parser.n_structural_indexes := by
    unfold structural_iterator.at_end
    rw [h.current_structural, h.n_structural_indexes]
  have hcode : (structural_stream.start_document t).1 = (structural_stream.start_document s).1 := by
    show (structural_stream.start_scope t false).1 = (structural_stream.start_scope s false).1
    rw [stream_start_scope_code, stream_start_scope_code, h.depth, h.max_depth]
  unfold structural_stream.start
  simp only []
  rw [hat, hcode]
  split_ifs
  · exact ⟨rfl, h.output, fun hs => by simp at hs⟩
  · exact ⟨rfl, sim_open_fail h false, fun hs => by simp at hs⟩
  · exact ⟨rfl, sim_open_fail h false, fun _ => sim_start_scope_root h hd0 false⟩

theorem run_sim (u : leaf_utilities) (p0 q0 : dom_parser_implementation) (fuel : Nat) :
    ∀ (ks : List Bool) (l : structural_stream.label) (s t : stage2_state),
      s.parser.max_depth < 2 ^ 32 → stack_inv ks l s → sim p0 q0 (ia_bound l s) s t →
      same_outcome p0 q0 (structural_stream.run u fuel l s) (structural_stream.run u fuel l t) := by
  induction fuel with
  | zero =>
    intro ks l s t _ _ _
    exact True.intro
  | succ fuel ih =>
    intro ks l s t hmd hinv h
    have hs := step_sim u ks l hinv h
    rw [run_succ, run_succ]
    cases hs1 : structural_stream.step u l s with
    | mk s1 c1 =>
      cases ht1 : structural_stream.step u l t with
      | mk t1 c2 =>
        rw [hs1, ht1] at hs
        obtain ⟨hc, ho, hg⟩ := hs
        have hc2 : c2 = c1 := hc
        rw [hc2]
        cases c1 with
        | goto l1 =>
          have htr := step_transition u l l1 s s1 hs1
          obtain ⟨hinv1, hmd1⟩ := stack_inv_transition ks l l1 s s1 hmd hinv htr
          exact ih _ l1 s1 t1 (by rw [hmd1]; exact hmd) hinv1 (hg l1 rfl)
        | ret e => exact ⟨rfl, ho⟩

theorem parse_sim (u : leaf_utilities) (p q : dom_parser_implementation) (fuel : Nat)
    (hmd : p.max_depth < 2 ^ 32) (hin : same_input p q) :
    same_outcome p q (parse_structural_stream false u p fuel)
      (parse_structural_stream false u q fuel) := by
  have h0 : sim p q 0 (initial_state false p) (initial_state false q) :=
    { buf := hin.1
      len := hin.2.1
      structural_indexes := hin.2.2.1
      n_structural_indexes := hin.2.2.2.1
      max_depth := hin.2.2.2.2
      current_structural := rfl
      depth := rfl
      next_tape_loc := rfl
      current_string_buf_loc := rfl
      uninit_reads := rfl
      is_array := fun d hd => absurd hd (Nat.not_lt_zero d)
      containing_scope := fun d h2 hle => by
        have hle2 : d ≤ 0 := hle
        omega
      tape := fun _ => Or.inr ⟨rfl, rfl⟩
      string_buf := fun _ => Or.inr ⟨rfl, rfl⟩
      kept := ⟨rfl, rfl, rfl, rfl, rfl⟩ }
  obtain ⟨hc, ho, hs⟩ := sim_start h0 rfl
  rw [parse_structural_stream_eq, parse_structural_stream_eq, hc]
  by_cases hok : (structural_stream.start (initial_state false p)).1 = .SUCCESS
  · rw [if_neg (by rw [hok]; simp), if_neg (by rw [hok]; simp)]
    have hf := first_value_sim (hs hok) false u
    cases hs1 : structural_stream.first_value false u
        (structural_stream.start (initial_state false p)).2 with
    | mk s1 c1 =>
      cases ht1 : structural_stream.first_value false u
          (structural_stream.start (initial_state false q)).2 with
      | mk t1 c2 =>
        rw [hs1, ht1] at hf
        obtain ⟨hcc, hoo, hg⟩ := hf
        have hc2 : c2 = c1 := hcc
        rw [hc2]
        cases c1 with
        | goto l1 =>
          have hr := @reachable.first false u p s1 l1 hok hs1
          obtain ⟨hinv, hm⟩ := reachable_stack_inv false u p hmd _ l1 s1 hr
          exact run_sim u p q fuel _ l1 s1 t1 (by rw [hm]; exact hmd) hinv (hg l1 rfl)
        | ret e => exact ⟨rfl, hoo⟩
  · rw [if_pos hok, if_pos hok]
    exact ⟨hc, ho⟩

theorem parse_twice (u : leaf_utilities) (p : dom_parser_implementation) (fuel : Nat)
    (hmd : p.max_depth < 2 ^ 32) (r1 : error_code × stage2_state)
    (h1 : parse_structural_stream false u p fuel = some r1) :
    ∃ r2, parse_structural_stream false u r1.2.parser fuel = some r2
      ∧ r2.1 = r1.1
      ∧ r2.2.next_tape_loc = r1.2.next_tape_loc
      ∧ r2.2.current_string_buf_loc = r1.2.current_string_buf_loc
      ∧ r2.2.parser.tape = r1.2.parser.tape
      ∧ r2.2.parser.string_buf = r1.2.parser.string_buf := by
  have hself := parse_sim u p p fuel hmd ⟨rfl, rfl, rfl, rfl, rfl⟩
  rw [h1] at hself
  have hin : same_input p r1.2.parser := hself.2.kept
  have h2 := parse_sim u p r1.2.parser fuel hmd hin
  rw [h1] at h2
  cases hq : parse_structural_stream false u r1.2.parser fuel with
  | none =>
    rw [hq] at h2
    exact h2.elim
  | some r2 =>
    rw [hq] at h2
    obtain ⟨hcode, hout⟩ := h2
    refine ⟨r2, rfl, hcode, hout.next_tape_loc, hout.current_string_buf_loc, ?_, ?_⟩
    · funext i
      rcases hout.tape i with h | h
      · exact h.symm
      · exact h.2
    · funext i
      rcases hout.string_buf i with h | h
      · exact h.symm
      · exact h.2

/-- C14: the outcome of a parse is not a function of the input: it depends on the value
that the uninitialised pointer `value` of `main_array_switch` happens to hold. For the
input `[1]` (structurals at 0, 1, 2, `max_depth` 4, every leaf parser accepting) and
one and the same parser, the pointer on `]` gives TAPE_ERROR with the tape cursor at 1,
on `1` TAPE_ERROR with the cursor at 3, on `[` DEPTH_ERROR with the cursor at 2. Two
parsers that differ only in the prior contents of tape, string buffer, scope records
and `is_array` return different codes when the pointer differs. And parsing twice in a
row with the same parser, the pointer on `]` the first time and on `1` the second,
leaves tape word 1 untouched the first time and holding an INT64 word the second. -/
theorem C14_outcome_depends_on_uninitialised_pointer :
    Option.map (fun r => (r.1, r.2.next_tape_loc))
        (parse_structural_stream false (accepting_utilities [2])
          (parser_of [91, 49, 93] [0, 1, 2] 4 0) 8) = some (.TAPE_ERROR, 1)
    ∧ Option.map (fun r => (r.1, r.2.next_tape_loc))
        (parse_structural_stream false (accepting_utilities [1])
          (parser_of [91, 49, 93] [0, 1, 2] 4 0) 8) = some (.TAPE_ERROR, 3)
    ∧ Option.map (fun r => (r.1, r.2.next_tape_loc))
        (parse_structural_stream false (accepting_utilities [0])
          (parser_of [91, 49, 93] [0, 1, 2] 4 0) 8) = some (.DEPTH_ERROR, 2)
    ∧ Option.map (fun r => (r.1, r.2.next_tape_loc))
        (parse_structural_stream false (accepting_utilities [0])
          (with_stale_memory (parser_of [91, 49, 93] [0, 1, 2] 4 0)) 8)
        = some (.DEPTH_ERROR, 2)
    ∧ Option.map (fun r => (r.1, r.2.next_tape_loc, r.2.parser.tape 1))
        (parse_structural_stream false (accepting_utilities [2])
          (parser_of [91, 49, 93] [0, 1, 2] 4 0) 8) = some (.TAPE_ERROR, 1, 0)
    ∧ Option.map (fun r => (r.1, r.2.next_tape_loc, r.2.parser.tape 1))
        ((parse_structural_stream false (accepting_utilities [2])
          (parser_of [91, 49, 93] [0, 1, 2] 4 0) 8).bind
            (fun r1 => parse_structural_stream false (accepting_utilities [1]) r1.2.parser 8))
        = some (.TAPE_ERROR, 3, tape_word 0 .INT64)
    ∧ tape_word 0 .INT64 ≠ 0 := by
  refine ⟨by decide, by decide, by decide, by decide, by decide, by decide, by decide⟩


/-! ## Depth at `finish` -/

/-- C22: in every parse with `max_depth` below `2^32`, whenever control reaches
`finish` (from a root scalar or from `scope_end`), no container is open and depth is 1;
`end_document` brings it to 0, so the test `depth != 0` of `finish` is false and the
block returns SUCCESS, never TAPE_ERROR. -/
theorem C22_finish_never_returns_tape_error (S : Bool) (u : leaf_utilities)
    (p : dom_parser_implementation) (ks : List Bool) (s : stage2_state)
    (hmd : p.max_depth < 2 ^ 32) (h : reachable S u p ks .finish s) :
    ks = [] ∧ s.depth = 1
    ∧ (structural_stream.end_document s).depth = 0
    ∧ (structural_stream.finish s).2.depth = 0
    ∧ (structural_stream.finish s).1 = .SUCCESS
    ∧ (structural_stream.step u .finish s).2 = .ret .SUCCESS := by
  obtain ⟨⟨hd, _, _, hl⟩, _⟩ := reachable_stack_inv S u p hmd ks .finish s h
  have hks : ks = [] := hl
  have h1 : s.depth = 1 := by
    rw [hd, hks]
    rfl
  have h0 : (structural_stream.end_document s).depth = 0 := by
    show (if s.depth = 0 then 2 ^ 32 - 1 else s.depth - 1) = 0
    rw [h1]
    rfl
  have hc : (structural_stream.finish s).1 = .SUCCESS := by
    show (if (structural_stream.end_document s).depth ≠ 0 then error_code.TAPE_ERROR
      else error_code.SUCCESS) = .SUCCESS
    rw [h0]
    rfl
  refine ⟨hks, h1, h0, h0, hc, ?_⟩
  rw [step_finish, hc]

/-- Witness for `C22_finish_never_returns_tape_error`: the parse of the root scalar
`true` reaches `finish` right after the first value, at depth 1, and `finish` returns
SUCCESS at depth 0. -/
theorem C22_finish_never_returns_tape_error_witness :
    ([] : List Bool) = [] ∧ root_scalar_state.depth = 1
    ∧ (structural_stream.end_document root_scalar_state).depth = 0
    ∧ (structural_stream.finish root_scalar_state).2.depth = 0
    ∧ (structural_stream.finish root_scalar_state).1 = .SUCCESS
    ∧ (structural_stream.step (accepting_utilities []) .finish root_scalar_state).2
        = .ret .SUCCESS :=
  C22_finish_never_returns_tape_error false (accepting_utilities [])
    (parser_of [116, 114, 117, 101] [0] 4 0) [] root_scalar_state (by decide)
    (reachable.first root_scalar_state .finish (by decide) (Prod.ext rfl (by decide)))


/-! ## Index ranges of `is_array` and of the scope records -/

theorem open_depths_open (ds : List Nat) (s s1 : stage2_state) (b : Bool)
    (next l1 : structural_stream.label)
    (h : structural_stream.return_or_goto (structural_stream.open_object s b) next
      = (s1, .goto l1)) :
    open_depths ds (structural_stream.open_accesses s b) = s1.depth :: ds ∧ l1 = next := by
  by_cases hc : (s.depth + 1) % 2 ^ 32 ≥ s.parser.max_depth
  · rw [open_object_fail s b hc] at h
    simp [structural_stream.return_or_goto] at h
  · obtain ⟨_, hl, hs⟩ := return_or_goto_goto _ _ _ _ h
    rw [open_object_ok s b hc] at hs
    have hcode : (structural_stream.start_scope s b).1 = .SUCCESS := by
      rw [stream_start_scope_code, if_neg hc]
    refine ⟨?_, hl⟩
    unfold structural_stream.open_accesses
    simp only []
    rw [if_neg (by rw [hcode]; simp), hs]
    rfl

theorem value_switch_open_depths (ds : List Nat) (u : leaf_utilities) (s s1 : stage2_state)
    (value : Nat) (b : Bool) (next l1 : structural_stream.label)
    (hn : next = .object_continue ∨ next = .array_continue)
    (h : structural_stream.value_switch u s value b next = (s1, .goto l1)) :
    open_depths ds (structural_stream.value_switch_accesses s value b)
      = depths_after ds l1 s1 := by
  have hscalar : ∀ r : error_code × stage2_state,
      structural_stream.return_or_goto r next = (s1, .goto l1) →
      open_depths ds [] = depths_after ds l1 s1 := by
    intro r hr
    obtain ⟨_, hl, _⟩ := return_or_goto_goto _ _ _ _ hr
    rw [hl]
    rcases hn with hn | hn <;> rw [hn] <;> rfl
  unfold structural_stream.value_switch at h
  unfold structural_stream.value_switch_accesses
  simp only [] at h ⊢
  split_ifs at h ⊢
  · obtain ⟨h1, h2⟩ := open_depths_open ds s s1 b _ l1 h
    rw [h1, h2]
    rfl
  · obtain ⟨h1, h2⟩ := open_depths_open ds s s1 b _ l1 h
    rw [h1, h2]
    rfl
  · exact hscalar _ h
  · exact hscalar _ h
  · exact hscalar _ h
  · exact hscalar _ h
  · exact hscalar _ h
  · simp at h

theorem close_object_open_depths (ds : List Nat) (s s1 : stage2_state)
    (l1 : structural_stream.label) (h : structural_stream.close_object s = (s1, .goto l1)) :
    open_depths ds (structural_stream.close_accesses s) = depths_after ds l1 s1 := by
  rw [(close_object_goto s s1 l1 h).1]
  rfl

theorem close_array_open_depths (ds : List Nat) (s s1 : stage2_state)
    (l1 : structural_stream.label) (h : structural_stream.close_array s = (s1, .goto l1)) :
    open_depths ds (structural_stream.close_accesses s) = depths_after ds l1 s1 := by
  rw [(close_array_goto s s1 l1 h).1]
  rfl

theorem step_open_depths (ds : List Nat) (u : leaf_utilities) (l l1 : structural_stream.label)
    (s s1 : stage2_state) (h : structural_stream.step u l s = (s1, .goto l1)) :
    open_depths ds (structural_stream.step_accesses u l s) = depths_after ds l1 s1 := by
  cases l <;> simp only [structural_stream.step, structural_iterator.advance_char,
    structural_iterator.advance] at h <;> simp only [structural_stream.step_accesses,
    structural_iterator.advance_char, structural_iterator.advance]
  · split_ifs at h ⊢
    · exact (key_goto_absurd _ _ _ _ _ _ h).elim
    · exact close_object_open_depths ds _ s1 l1 h
    · simp at h
  · split_ifs at h ⊢
    · simp at h
    · exact value_switch_open_depths ds u _ s1 _ false _ l1 (Or.inl rfl) h
  · split_ifs at h ⊢
    · simp at h
    · exact (key_goto_absurd _ _ _ _ _ _ h).elim
    · exact close_object_open_depths ds _ s1 l1 h
    · simp at h
  · split_ifs at h ⊢
    · simp only [Prod.mk.injEq, structural_stream.control.goto.injEq] at h
      rw [← h.2]
      rfl
    · simp only [Prod.mk.injEq, structural_stream.control.goto.injEq] at h
      rw [← h.2]
      rfl
    · simp only [Prod.mk.injEq, structural_stream.control.goto.injEq] at h
      rw [← h.2]
      rfl
  · split_ifs at h ⊢
    · exact close_array_open_depths ds _ s1 l1 h
    · simp only [Prod.mk.injEq, structural_stream.control.goto.injEq] at h
      rw [← h.2]
      rfl
  · exact value_switch_open_depths ds u _ s1 _ true _ l1 (Or.inr rfl) h
  · split_ifs at h ⊢
    · simp only [Prod.mk.injEq, structural_stream.control.goto.injEq] at h
      rw [← h.2]
      rfl
    · exact close_array_open_depths ds _ s1 l1 h
    · simp at h
  · simp at h

theorem first_value_open_depths (ds : List Nat) (S : Bool) (u : leaf_utilities)
    (s s1 : stage2_state) (l1 : structural_stream.label)
    (h : structural_stream.first_value S u s = (s1, .goto l1)) :
    open_depths ds (structural_stream.first_value_accesses s) = depths_after ds l1 s1 := by
  have hscalar : ∀ r : error_code × stage2_state,
      structural_stream.return_or_goto r .finish = (s1, .goto l1) →
      open_depths ds [] = depths_after ds l1 s1 := by
    intro r hr
    obtain ⟨_, hl, _⟩ := return_or_goto_goto _ _ _ _ hr
    rw [hl]
    rfl
  unfold structural_stream.first_value at h
  unfold structural_stream.first_value_accesses
  simp only [] at h ⊢
  split_ifs at h ⊢
  · obtain ⟨h1, h2⟩ := open_depths_open ds s s1 false _ l1 h
    rw [h1, h2]
    rfl
  · simp at h
  · simp at h
  · rename_i _ _ hok _
    simp only [Prod.mk.injEq, structural_stream.control.goto.injEq] at h
    have hr : structural_stream.return_or_goto (structural_stream.open_object s false)
        .array_begin = (s1, .goto l1) := by
      have hok2 : ¬ (structural_stream.open_object s false).1 ≠ .SUCCESS := hok
      unfold structural_stream.return_or_goto
      rw [if_neg hok2]
      exact Prod.ext h.1 (by rw [h.2])
    obtain ⟨h1, h2⟩ := open_depths_open ds s s1 false _ l1 hr
    rw [h1, h2]
    rfl
  · exact hscalar _ h
  · exact hscalar _ h
  · exact hscalar _ h
  · exact hscalar _ h
  · exact hscalar _ h
  · simp at h

theorem depths_after_nested (ks : List Bool) (l1 : structural_stream.label) (s1 : stage2_state)
    (hd : s1.depth = (next_stack ks l1).length + 1) :
    depths_after (nested_depths ks.length) l1 s1 = nested_depths (next_stack ks l1).length := by
  cases l1 <;> simp only [depths_after, next_stack] at hd ⊢
  · rw [hd]
    rfl
  · cases ks with
    | nil => rfl
    | cons k r => rfl
  · rw [hd]
    rfl

theorem mem_nested_depths (n d : Nat) (h : d ∈ nested_depths n) : d ≤ n + 1 := by
  induction n with
  | zero => simp [nested_depths] at h
  | succ n ih =>
    simp only [nested_depths, List.mem_cons] at h
    rcases h with h | h
    · omega
    · have := ih h
      omega

theorem traced_reachable (S : Bool) (u : leaf_utilities) (p : dom_parser_implementation)
    (hmd : p.max_depth < 2 ^ 32) (ds : List Nat) (l : structural_stream.label)
    (s : stage2_state) (h : traced S u p ds l s) :
    ∃ ks, reachable S u p ks l s ∧ ds = nested_depths ks.length := by
  induction h with
  | first s1 l hstart hfirst =>
    have hr := @reachable.first S u p s1 l hstart hfirst
    obtain ⟨⟨hd, _, _, _⟩, _⟩ := reachable_stack_inv S u p hmd _ l s1 hr
    refine ⟨next_stack [] l, hr, ?_⟩
    rw [first_value_open_depths [] S u _ s1 l hfirst]
    exact depths_after_nested [] l s1 hd
  | step ds l s s1 l1 _ hstep ih =>
    obtain ⟨ks, hr, hds⟩ := ih
    have hr1 := @reachable.step S u p ks l s s1 l1 hr hstep
    obtain ⟨⟨hd, _, _, _⟩, _⟩ := reachable_stack_inv S u p hmd _ l1 s1 hr1
    refine ⟨next_stack ks l1, hr1, ?_⟩
    rw [step_open_depths ds u l l1 s s1 hstep, hds]
    exact depths_after_nested ks l1 s1 hd

theorem open_accesses_ok (s : stage2_state) (b : Bool) (n : Nat) (hd : s.depth = n + 1)
    (hlt : s.depth < s.parser.max_depth) (hmd : s.parser.max_depth < 2 ^ 32) :
    ∀ a ∈ structural_stream.open_accesses s b, access_ok s.parser.max_depth n a := by
  intro a ha
  unfold structural_stream.open_accesses at ha
  simp only [List.mem_cons] at ha
  rcases ha with ha | ha
  · rw [ha]
    refine ⟨hlt, ?_, ?_⟩
    · intro d hc
      cases hc
    · intro d hc
      cases hc
  · by_cases hc : (s.depth + 1) % 2 ^ 32 ≥ s.parser.max_depth
    · have hcode : (structural_stream.start_scope s b).1 = .DEPTH_ERROR := by
        rw [stream_start_scope_code, if_pos hc]
      rw [if_pos (by rw [hcode]; simp)] at ha
      simp at ha
    · have hcode : (structural_stream.start_scope s b).1 = .SUCCESS := by
        rw [stream_start_scope_code, if_neg hc]
      rw [if_neg (by rw [hcode]; simp)] at ha
      simp only [List.mem_singleton] at ha
      have hdep : (structural_stream.start_scope s b).2.depth = (s.depth + 1) % 2 ^ 32 := rfl
      have hmod : (s.depth + 1) % 2 ^ 32 = s.depth + 1 := Nat.mod_eq_of_lt (by omega)
      rw [ha, hdep, hmod]
      refine ⟨?_, ?_, ?_⟩
      · show s.depth + 1 < s.parser.max_depth
        omega
      · intro d hc2
        cases hc2
      · intro d hc2
        cases hc2
        omega

theorem close_accesses_ok (s : stage2_state) (n : Nat) (hd : s.depth = n + 1) (hn : 1 ≤ n)
    (hlt : s.depth < s.parser.max_depth) :
    ∀ a ∈ structural_stream.close_accesses s, access_ok s.parser.max_depth n a := by
  intro a ha
  unfold structural_stream.close_accesses at ha
  simp only [List.mem_singleton] at ha
  rw [ha]
  refine ⟨hlt, ?_, ?_⟩
  · intro d hc
    cases hc
    exact ⟨hd, hn⟩
  · intro d hc
    cases hc

theorem value_switch_accesses_ok (s : stage2_state) (value : Nat) (b : Bool) (n : Nat)
    (hd : s.depth = n + 1) (hlt : s.depth < s.parser.max_depth)
    (hmd : s.parser.max_depth < 2 ^ 32) :
    ∀ a ∈ structural_stream.value_switch_accesses s value b,
      access_ok s.parser.max_depth n a := by
  unfold structural_stream.value_switch_accesses
  simp only []
  split_ifs
  · exact open_accesses_ok s b n hd hlt hmd
  · exact open_accesses_ok s b n hd hlt hmd
  · intro a ha
    simp at ha

theorem step_accesses_ok (u : leaf_utilities) (ks : List Bool) (l : structural_stream.label)
    (s : stage2_state) (hmd : s.parser.max_depth < 2 ^ 32) (hinv : stack_inv ks l s) :
    ∀ a ∈ structural_stream.step_accesses u l s, access_ok s.parser.max_depth ks.length a := by
  obtain ⟨hd, hlt, _, hl⟩ := hinv
  have hn : ∀ (k : Bool) (r : List Bool), ks = k :: r → 1 ≤ ks.length := by
    intro k r hks
    rw [hks]
    simp
  cases l <;> simp only [] at hl <;> simp only [structural_stream.step_accesses,
    structural_iterator.advance_char, structural_iterator.advance]
  · obtain ⟨r, hks⟩ := hl
    split_ifs
    · intro a ha
      simp at ha
    · exact close_accesses_ok _ ks.length hd (hn _ _ hks) hlt
    · intro a ha
      simp at ha
  · split_ifs
    · intro a ha
      simp at ha
    · exact value_switch_accesses_ok _ _ false ks.length hd hlt hmd
  · obtain ⟨r, hks⟩ := hl
    split_ifs
    · intro a ha
      simp at ha
    · exact close_accesses_ok _ ks.length hd (hn _ _ hks) hlt
    · intro a ha
      simp at ha
  · split_ifs
    · intro a ha
      simp at ha
    · intro a ha
      simp only [List.mem_singleton] at ha
      rw [ha]
      refine ⟨hlt, ?_, ?_⟩
      · intro d hc
        cases hc
      · intro d hc
        cases hc
  · obtain ⟨r, hks⟩ := hl
    split_ifs
    · exact close_accesses_ok _ ks.length hd (hn _ _ hks) hlt
    · intro a ha
      simp at ha
  · exact value_switch_accesses_ok _ _ true ks.length hd hlt hmd
  · obtain ⟨r, hks⟩ := hl
    split_ifs
    · intro a ha
      simp at ha
    · exact close_accesses_ok _ ks.length hd (hn _ _ hks) hlt
    · intro a ha
      simp at ha
  · intro a ha
    simp at ha

theorem start_accesses_in_range (S : Bool) (p : dom_parser_implementation)
    (h1 : 1 ≤ p.max_depth) :
    ∀ a ∈ structural_stream.start_accesses (initial_state S p), a.index < p.max_depth := by
  unfold structural_stream.start_accesses
  split_ifs
  · intro a ha
    simp at ha
  · intro a ha
    simp only [List.mem_singleton] at ha
    rw [ha]
    show 0 < p.max_depth
    omega

theorem first_value_accesses_in_range (S : Bool) (p : dom_parser_implementation)
    (hmd : p.max_depth < 2 ^ 32)
    (hs : (structural_stream.start (initial_state S p)).1 = .SUCCESS) :
    ∀ a ∈ structural_stream.first_value_accesses
        (structural_stream.start (initial_state S p)).2,
      a.index < p.max_depth := by
  obtain ⟨hd, hlt, hm⟩ := start_success (initial_state S p) rfl hs
  have hpm : (initial_state S p).parser.max_depth = p.max_depth := rfl
  rw [hpm] at hlt hm
  have hopen := open_accesses_ok (structural_stream.start (initial_state S p)).2 false 0
    (by rw [hd]) (by rw [hd, hm]; exact hlt) (by rw [hm]; exact hmd)
  rw [hm] at hopen
  unfold structural_stream.first_value_accesses
  simp only []
  split_ifs
  · exact fun a ha => (hopen a ha).1
  · exact fun a ha => (hopen a ha).1
  · intro a ha
    simp at ha

/-- C23: in every parse with `1 ≤ max_depth < 2^32`, every index at which `is_array` is
read or written (in `start_scope`, the one of `start()` included, and in `scope_end`)
and every depth passed to the visitor's start and end calls is below `max_depth`; and
with `ds` the depths that were passed to the start calls of the containers still open,
innermost first (a start call pushes, an end call pops), every end call gets the depth
on top of `ds`, that of the start call which opened the container it closes, and every
start call gets a depth above all of `ds`, so no start call in between uses the depth
of a container that is still open. -/
theorem C23_scope_indices_in_range (S : Bool) (u : leaf_utilities)
    (p : dom_parser_implementation) (h1 : 1 ≤ p.max_depth) (hmd : p.max_depth < 2 ^ 32) :
    (∀ a ∈ structural_stream.start_accesses (initial_state S p), a.index < p.max_depth)
    ∧ ((structural_stream.start (initial_state S p)).1 = .SUCCESS →
        ∀ a ∈ structural_stream.first_value_accesses
            (structural_stream.start (initial_state S p)).2,
          a.index < p.max_depth)
    ∧ ∀ ds l s, traced S u p ds l s →
        ∀ a ∈ structural_stream.step_accesses u l s,
          a.index < p.max_depth
          ∧ (∀ d, a = .visitor_end d → ∃ rest, ds = d :: rest)
          ∧ (∀ d, a = .visitor_start d → ∀ d2 ∈ ds, d2 < d) := by
  refine ⟨start_accesses_in_range S p h1, first_value_accesses_in_range S p hmd, ?_⟩
  intro ds l s ht a ha
  obtain ⟨ks, hr, hds⟩ := traced_reachable S u p hmd ds l s ht
  obtain ⟨hinv, hm⟩ := reachable_stack_inv S u p hmd ks l s hr
  have hok := step_accesses_ok u ks l s (by rw [hm]; exact hmd) hinv a ha
  rw [hm] at hok
  obtain ⟨hin, hend, hstart⟩ := hok
  refine ⟨hin, ?_, ?_⟩
  · intro d hc
    obtain ⟨hd, hn⟩ := hend d hc
    obtain ⟨m, hm2⟩ : ∃ m, ks.length = m + 1 := ⟨ks.length - 1, by omega⟩
    rw [hds, hm2]
    exact ⟨nested_depths m, by rw [hd, hm2]; rfl⟩
  · intro d hc d2 hd2
    have hd := hstart d hc
    rw [hds] at hd2
    have := mem_nested_depths _ _ hd2
    omega

/-- Witness for `C23_scope_indices_in_range`: the parse of `[}]` with `max_depth` 4 and
the uninitialised pointer on a `{`. There `main_array_switch` opens an object inside
the root array, writing `is_array[2]` and calling the visitor's start with depth 3, and
`object_begin` closes it, calling the visitor's end with depth 3. -/
theorem C23_scope_indices_in_range_witness :
    structural_stream.step_accesses (accepting_utilities [3]) .main_array_switch
        nested_close_states.2.1 = [.is_array 2, .visitor_start 3]
    ∧ structural_stream.step_accesses (accepting_utilities [3]) .object_begin
        nested_close_states.2.2.1 = [.visitor_end 3]
    ∧ (∀ a ∈ structural_stream.start_accesses
          (initial_state false (parser_of [91, 125, 93, 123] [0, 1, 2] 4 0)),
        a.index < (parser_of [91, 125, 93, 123] [0, 1, 2] 4 0).max_depth)
    ∧ ((structural_stream.start
          (initial_state false (parser_of [91, 125, 93, 123] [0, 1, 2] 4 0))).1 = .SUCCESS →
        ∀ a ∈ structural_stream.first_value_accesses
            (structural_stream.start
              (initial_state false (parser_of [91, 125, 93, 123] [0, 1, 2] 4 0))).2,
          a.index < (parser_of [91, 125, 93, 123] [0, 1, 2] 4 0).max_depth)
    ∧ ∀ ds l s,
        traced false (accepting_utilities [3]) (parser_of [91, 125, 93, 123] [0, 1, 2] 4 0)
          ds l s →
        ∀ a ∈ structural_stream.step_accesses (accepting_utilities [3]) l s,
          a.index < (parser_of [91, 125, 93, 123] [0, 1, 2] 4 0).max_depth
          ∧ (∀ d, a = .visitor_end d → ∃ rest, ds = d :: rest)
          ∧ (∀ d, a = .visitor_start d → ∀ d2 ∈ ds, d2 < d) :=
  ⟨by decide, by decide,
    C23_scope_indices_in_range false (accepting_utilities [3])
      (parser_of [91, 125, 93, 123] [0, 1, 2] 4 0) (by decide) (by decide)⟩


/-! ## The structural cursor -/

theorem parse_string_structural (u : leaf_utilities) (s : stage2_state) (src : Nat) :
    (structural_parser_stream.parse_string u s src).2.current_structural
      = s.current_structural := by
  unfold structural_parser_stream.parse_string
  simp only [structural_parser_stream.on_start_string]
  cases u.parse_string s.parser.buf src with
  | none => rfl
  | some out => rfl

theorem number_in_structural (u : leaf_utilities) (s : stage2_state) (mem : Nat → Nat)
    (src : Nat) :
    (structural_parser_stream.number_in u s mem src).2.current_structural
      = s.current_structural := by
  unfold structural_parser_stream.number_in
  cases u.parse_number mem src with
  | none => rfl
  | some kv => rfl

theorem atom_structural (s : stage2_state) (b : Bool) (tag : tape_type) (e : error_code) :
    (if b = true then (error_code.SUCCESS, tape_writer.append s 0 tag)
      else (e, s)).2.current_structural = s.current_structural := by
  cases b with
  | false => rfl
  | true => rfl

theorem open_object_structural (s : stage2_state) (b : Bool) :
    (structural_stream.open_object s b).2.current_structural = s.current_structural := by
  by_cases hc : (s.depth + 1) % 2 ^ 32 ≥ s.parser.max_depth
  · rw [open_object_fail s b hc]
    rfl
  · rw [open_object_ok s b hc]
    rfl

theorem close_object_structural (s : stage2_state) :
    (structural_stream.close_object s).1.current_structural = s.current_structural := by
  rw [close_object_eq]
  rfl

theorem close_array_structural (s : stage2_state) :
    (structural_stream.close_array s).1.current_structural = s.current_structural := by
  rw [close_array_eq]
  rfl

theorem value_switch_structural (u : leaf_utilities) (s : stage2_state) (value : Nat)
    (b : Bool) (next : structural_stream.label) :
    (structural_stream.value_switch u s value b next).1.current_structural
      = s.current_structural := by
  unfold structural_stream.value_switch
  simp only []
  split_ifs
  · exact open_object_structural s b
  · exact open_object_structural s b
  · exact parse_string_structural u s value
  · exact atom_structural s _ _ _
  · exact atom_structural s _ _ _
  · exact atom_structural s _ _ _
  · exact number_in_structural u s _ value
  · rfl

theorem step_structural (u : leaf_utilities) (l : structural_stream.label) (s : stage2_state) :
    (structural_stream.step u l s).1.current_structural
      = s.current_structural
        + (match l with
          | .object_begin => 1
          | .object_key_state =>
            if (structural_iterator.advance_char s).1 ≠ 58 then 1 else 2
          | .object_continue =>
            if (structural_iterator.advance_char s).1 = 44 then 2 else 1
          | .scope_end => 0
          | .array_begin => if structural_iterator.peek_next_char s = 93 then 1 else 0
          | .main_array_switch => 0
          | .array_continue => 1
          | .finish => 0) := by
  cases l <;> simp only []
  · rw [step_object_begin]
    split_ifs
    · exact parse_string_structural u _ _
    · exact close_object_structural _
    · rfl
  · rw [step_object_key_state]
    split_ifs
    · rfl
    · exact value_switch_structural u _ _ false _
  · rw [step_object_continue]
    split_ifs
    · rfl
    · exact parse_string_structural u _ _
    · exact close_object_structural _
    · rfl
  · rw [step_scope_end]
    split_ifs <;> rfl
  · rw [step_array_begin]
    split_ifs
    · exact close_array_structural _
    · rfl
  · rw [step_main_array_switch]
    exact value_switch_structural u _ _ true _
  · rw [step_array_continue]
    split_ifs
    · rfl
    · exact close_array_structural _
    · rfl
  · rfl

theorem run_goto (u : leaf_utilities) (n : Nat) (l l1 : structural_stream.label)
    (s s1 : stage2_state) (h : structural_stream.step u l s = (s1, .goto l1)) :
    structural_stream.run u (n + 1) l s = structural_stream.run u n l1 s1 := by
  rw [run_succ, h]

theorem run_ret (u : leaf_utilities) (n : Nat) (l : structural_stream.label)
    (s s1 : stage2_state) (e : error_code) (h : structural_stream.step u l s = (s1, .ret e)) :
    structural_stream.run u (n + 1) l s = some (e, s1) := by
  rw [run_succ, h]

theorem first_value_array (S : Bool) (u : leaf_utilities) (s : stage2_state)
    (hc : structural_iterator.current_char s = 91)
    (hd : ¬ (s.depth + 1) % 2 ^ 32 ≥ s.parser.max_depth)
    (hlast : s.parser.buf (s.parser.structural_indexes (s.parser.n_structural_indexes - 1))
      = 93) :
    structural_stream.first_value S u s
      = ((structural_stream.open_object s false).2, .goto .array_begin) := by
  have hin := open_object_input s false
  have hcode : (structural_stream.open_object s false).1 = .SUCCESS := by
    rw [open_object_ok s false hd]
  unfold structural_stream.first_value
  simp only []
  rw [if_neg (by rw [hc]; decide), if_pos hc, open_array_eq_open_object,
    if_neg (by rw [hcode]; simp), hin.1, hin.2.2.1, hin.2.2.2.1, hlast]
  simp

theorem stalled_array_begin (u : leaf_utilities) (m : Nat) (s : stage2_state)
    (hin : same_input (parser_of [91, 44, 93] [0, 1, 2] m 0) s.parser)
    (hc : s.current_structural = 0) :
    structural_stream.step u .array_begin s = (s, .goto .main_array_switch) := by
  have hp : structural_iterator.peek_next_char s = 44 := by
    show s.parser.buf (s.parser.structural_indexes (s.current_structural + 1)) = 44
    rw [hin.1, hin.2.2.1, hc]
    rfl
  rw [step_array_begin, if_neg (by rw [hp]; decide)]

theorem stalled_open (m : Nat) (s : stage2_state)
    (hin : same_input (parser_of [91, 44, 93] [0, 1, 2] m 0) s.parser)
    (hc : s.current_structural = 0) (hd : ¬ (s.depth + 1) % 2 ^ 32 ≥ m) :
    ∃ s1, structural_stream.step (accepting_utilities []) .main_array_switch s
        = (s1, .goto .array_begin)
      ∧ same_input (parser_of [91, 44, 93] [0, 1, 2] m 0) s1.parser
      ∧ s1.current_structural = 0 ∧ s1.depth = (s.depth + 1) % 2 ^ 32 := by
  have hmd : s.parser.max_depth = m := hin.2.2.2.2
  have hv : s.parser.buf ((accepting_utilities []).uninit_value s.uninit_reads) = 91 := by
    show s.parser.buf (([] : List Nat).getD s.uninit_reads 0) = 91
    rw [List.getD_nil, hin.1]
    rfl
  have hd2 : ¬ (s.depth + 1) % 2 ^ 32 ≥ s.parser.max_depth := by
    rw [hmd]
    exact hd
  have hopen := open_object_ok { s with uninit_reads := s.uninit_reads + 1 } true hd2
  have hi := open_object_input { s with uninit_reads := s.uninit_reads + 1 } true
  have hcs := open_object_structural { s with uninit_reads := s.uninit_reads + 1 } true
  refine ⟨(structural_stream.open_object { s with uninit_reads := s.uninit_reads + 1 } true).2,
    ?_, ?_, ?_, ?_⟩
  · rw [step_main_array_switch]
    unfold structural_stream.value_switch
    simp only []
    rw [if_neg (by rw [hv]; decide), if_pos hv, open_array_eq_open_object]
    unfold structural_stream.return_or_goto
    rw [if_neg (by rw [hopen]; simp)]
  · exact ⟨hi.1.trans hin.1, hi.2.1.trans hin.2.1, hi.2.2.1.trans hin.2.2.1,
      hi.2.2.2.1.trans hin.2.2.2.1, hi.2.2.2.2.trans hin.2.2.2.2⟩
  · rw [hcs]
    exact hc
  · rw [hopen]
    rfl

theorem stalled_depth_error (m : Nat) (s : stage2_state)
    (hin : same_input (parser_of [91, 44, 93] [0, 1, 2] m 0) s.parser)
    (hc : s.current_structural = 0) (hd : (s.depth + 1) % 2 ^ 32 ≥ m) :
    ∃ s1, structural_stream.step (accepting_utilities []) .main_array_switch s
        = (s1, .ret .DEPTH_ERROR)
      ∧ s1.current_structural = 0 := by
  have hmd : s.parser.max_depth = m := hin.2.2.2.2
  have hv : s.parser.buf ((accepting_utilities []).uninit_value s.uninit_reads) = 91 := by
    show s.parser.buf (([] : List Nat).getD s.uninit_reads 0) = 91
    rw [List.getD_nil, hin.1]
    rfl
  have hd2 : (s.depth + 1) % 2 ^ 32 ≥ s.parser.max_depth := by
    rw [hmd]
    exact hd
  have hopen := open_object_fail { s with uninit_reads := s.uninit_reads + 1 } true hd2
  refine ⟨(structural_stream.start_scope { s with uninit_reads := s.uninit_reads + 1 } true).2,
    ?_, hc⟩
  rw [step_main_array_switch]
  unfold structural_stream.value_switch
  simp only []
  rw [if_neg (by rw [hv]; decide), if_pos hv, open_array_eq_open_object, hopen]
  rfl

theorem stalled_run (m : Nat) (hm : m < 2 ^ 32) :
    ∀ (k : Nat) (s : stage2_state),
      same_input (parser_of [91, 44, 93] [0, 1, 2] m 0) s.parser → s.current_structural = 0 →
      s.depth + k < m →
      ∃ s1, same_input (parser_of [91, 44, 93] [0, 1, 2] m 0) s1.parser
        ∧ s1.current_structural = 0 ∧ s1.depth = s.depth + k
        ∧ ∀ j, structural_stream.run (accepting_utilities []) (2 * k + j) .array_begin s
            = structural_stream.run (accepting_utilities []) j .array_begin s1 := by
  intro k
  induction k with
  | zero =>
    intro s hin hc _
    exact ⟨s, hin, hc, rfl, fun j => by rw [Nat.mul_zero, Nat.zero_add]⟩
  | succ k ih =>
    intro s hin hc hlt
    have hmod : (s.depth + 1) % 2 ^ 32 = s.depth + 1 := Nat.mod_eq_of_lt (by omega)
    obtain ⟨s2, hstep, hin2, hc2, hd2⟩ := stalled_open m s hin hc (by rw [hmod]; omega)
    rw [hmod] at hd2
    obtain ⟨s1, hin1, hc1, hd1, hrun⟩ := ih s2 hin2 hc2 (by rw [hd2]; omega)
    refine ⟨s1, hin1, hc1, by rw [hd1, hd2]; omega, ?_⟩
    intro j
    have hj : 2 * (k + 1) + j = (2 * k + j) + 1 + 1 := by omega
    rw [hj, run_goto _ _ _ _ _ _ (stalled_array_begin _ m s hin hc), run_goto _ _ _ _ _ _ hstep]
    exact hrun j

theorem stalled_parse (m : Nat) (h3 : 3 ≤ m) (hm : m < 2 ^ 32) :
    ∃ s0, same_input (parser_of [91, 44, 93] [0, 1, 2] m 0) s0.parser
      ∧ s0.current_structural = 0 ∧ s0.depth = 2
      ∧ ∀ fuel, parse_structural_stream false (accepting_utilities [])
            (parser_of [91, 44, 93] [0, 1, 2] m 0) fuel
          = structural_stream.run (accepting_utilities []) fuel .array_begin s0 := by
  have hstart := start_at_depth_zero (parser_of [91, 44, 93] [0, 1, 2] m 0)
    (show 3 ≠ 0 by decide) (show 2 ≤ m by omega)
  have hsi : same_input (parser_of [91, 44, 93] [0, 1, 2] m 0)
      (structural_stream.start
        (initial_state false (parser_of [91, 44, 93] [0, 1, 2] m 0))).2.parser := by
    rw [hstart]
    exact ⟨rfl, rfl, rfl, rfl, rfl⟩
  have hd : ¬ ((structural_stream.start
        (initial_state false (parser_of [91, 44, 93] [0, 1, 2] m 0))).2.depth + 1) % 2 ^ 32
      ≥ (structural_stream.start
        (initial_state false (parser_of [91, 44, 93] [0, 1, 2] m 0))).2.parser.max_depth := by
    rw [hstart]
    show ¬ (1 + 1) % 2 ^ 32 ≥ m
    have : (1 + 1) % 2 ^ 32 = 2 := rfl
    rw [this]
    omega
  have hfirst := first_value_array false (accepting_utilities [])
    (structural_stream.start (initial_state false (parser_of [91, 44, 93] [0, 1, 2] m 0))).2
    (by rw [hstart]; rfl) hd (by rw [hstart]; rfl)
  have hi := open_object_input
    (structural_stream.start (initial_state false (parser_of [91, 44, 93] [0, 1, 2] m 0))).2
    false
  have hcs := open_object_structural
    (structural_stream.start (initial_state false (parser_of [91, 44, 93] [0, 1, 2] m 0))).2
    false
  have hopen := open_object_ok
    (structural_stream.start (initial_state false (parser_of [91, 44, 93] [0, 1, 2] m 0))).2
    false hd
  refine ⟨(structural_stream.open_object
    (structural_stream.start (initial_state false (parser_of [91, 44, 93] [0, 1, 2] m 0))).2
    false).2, ?_, ?_, ?_, ?_⟩
  · exact ⟨hi.1.trans hsi.1, hi.2.1.trans hsi.2.1, hi.2.2.1.trans hsi.2.2.1,
      hi.2.2.2.1.trans hsi.2.2.2.1, hi.2.2.2.2.trans hsi.2.2.2.2⟩
  · rw [hcs, hstart]
  · rw [hopen, hstart]
    rfl
  · intro fuel
    rw [parse_structural_stream_eq, if_neg (by rw [hstart]; simp), hfirst]

/-- C21: no block moves the structural cursor backward, and `object_begin`,
`object_key_state`, `object_continue` and `array_continue` advance it; but
`main_array_switch`, the value state of arrays, leaves it where it was, since its
`value` pointer is not taken from `advance()`. So the parse of `[,]` (three
structurals) with the uninitialised pointer on the `[` opens array after array without
consuming a structural: with `max_depth` m (`3 ≤ m < 2^32`) it has not returned after
`2m - 5` blocks and returns DEPTH_ERROR after `2m - 4`, the cursor still at 0. The
number of blocks grows with `max_depth` while `n_structural_indexes` stays 3. -/
theorem C21_array_values_consume_no_structural (u : leaf_utilities)
    (l : structural_stream.label) (s : stage2_state) (m : Nat) (h3 : 3 ≤ m)
    (hm : m < 2 ^ 32) :
    s.current_structural ≤ (structural_stream.step u l s).1.current_structural
    ∧ (l = .object_begin ∨ l = .object_key_state ∨ l = .object_continue
        ∨ l = .array_continue →
        s.current_structural < (structural_stream.step u l s).1.current_structural)
    ∧ (structural_stream.step u .main_array_switch s).1.current_structural
        = s.current_structural
    ∧ (parser_of [91, 44, 93] [0, 1, 2] m 0).n_structural_indexes = 3
    ∧ parse_structural_stream false (accepting_utilities [])
        (parser_of [91, 44, 93] [0, 1, 2] m 0) (2 * m - 5) = none
    ∧ ∃ st, parse_structural_stream false (accepting_utilities [])
          (parser_of [91, 44, 93] [0, 1, 2] m 0) (2 * m - 4) = some (.DEPTH_ERROR, st)
        ∧ st.current_structural = 0 := by
  refine ⟨?_, ?_, ?_, rfl, ?_, ?_⟩
  · rw [step_structural]
    exact Nat.le_add_right _ _
  · intro hl
    rw [step_structural]
    rcases hl with hl | hl | hl | hl <;> subst hl <;> simp only []
    · omega
    · split_ifs <;> omega
    · split_ifs <;> omega
    · omega
  · rw [step_structural]
    rfl
  · obtain ⟨s0, hin, hc, hd, hparse⟩ := stalled_parse m h3 hm
    obtain ⟨s1, hin1, hc1, _, hrun⟩ := stalled_run m hm (m - 3) s0 hin hc (by rw [hd]; omega)
    have hf : 2 * m - 5 = 2 * (m - 3) + 1 := by omega
    rw [hparse, hf, hrun 1, run_goto _ _ _ _ _ _ (stalled_array_begin _ m s1 hin1 hc1)]
    rfl
  · obtain ⟨s0, hin, hc, hd, hparse⟩ := stalled_parse m h3 hm
    obtain ⟨s1, hin1, hc1, hd1, hrun⟩ := stalled_run m hm (m - 3) s0 hin hc (by rw [hd]; omega)
    have hmod : (s1.depth + 1) % 2 ^ 32 = m := by
      rw [hd1, hd]
      have : 2 + (m - 3) + 1 = m := by omega
      rw [this]
      exact Nat.mod_eq_of_lt hm
    obtain ⟨s2, hstep, hcs⟩ := stalled_depth_error m s1 hin1 hc1 (by rw [hmod])
    have hf : 2 * m - 4 = 2 * (m - 3) + (0 + 1 + 1) := by omega
    rw [hparse, hf, hrun (0 + 1 + 1),
      run_goto _ _ _ _ _ _ (stalled_array_begin _ m s1 hin1 hc1), run_ret _ _ _ _ _ _ hstep]
    exact ⟨s2, rfl, hcs⟩

/-- Witness for `C21_array_values_consume_no_structural`: the block `main_array_switch`
in a blank state, and the parse of `[,]` with `max_depth` 8, which has not returned
after 11 blocks and returns DEPTH_ERROR after 12. -/
theorem C21_array_values_consume_no_structural_witness :
    (blank_state 0).current_structural
      ≤ (structural_stream.step (accepting_utilities []) .main_array_switch
          (blank_state 0)).1.current_structural
    ∧ (structural_stream.label.main_array_switch = .object_begin
        ∨ structural_stream.label.main_array_switch = .object_key_state
        ∨ structural_stream.label.main_array_switch = .object_continue
        ∨ structural_stream.label.main_array_switch = .array_continue →
        (blank_state 0).current_structural
          < (structural_stream.step (accepting_utilities []) .main_array_switch
              (blank_state 0)).1.current_structural)
    ∧ (structural_stream.step (accepting_utilities []) .main_array_switch
          (blank_state 0)).1.current_structural = (blank_state 0).current_structural
    ∧ (parser_of [91, 44, 93] [0, 1, 2] 8 0).n_structural_indexes = 3
    ∧ parse_structural_stream false (accepting_utilities [])
        (parser_of [91, 44, 93] [0, 1, 2] 8 0) (2 * 8 - 5) = none
    ∧ ∃ st, parse_structural_stream false (accepting_utilities [])
          (parser_of [91, 44, 93] [0, 1, 2] 8 0) (2 * 8 - 4) = some (.DEPTH_ERROR, st)
        ∧ st.current_structural = 0 :=
  C21_array_values_consume_no_structural (accepting_utilities []) .main_array_switch
    (blank_state 0) 8 (by decide) (by decide)


end simdjson
